import Mathlib

/-!
# torch-ucc, XCCL backend: a shallow embedding

The development follows `src/src/torch_xccl.cpp` and `src/include/torch_ucc_ops.hpp`.
Calls into the XCCL library, the UCX point-to-point layer and the device runtime are
recorded in call traces; what those collaborators answer is an input of the model.

Conventions:
* a C function that changes memory takes the old state and gives back the new one;
* a result `none` stands for behaviour that C++ leaves undefined (a null pointer is
  dereferenced, an empty vector is indexed) or for an exception that a map lookup
  throws;
* `int` and `size_t` values are integers and natural numbers without wrap-around: the
  ranks, sizes, counters and offsets of the code stay far below the machine limits;
  the remainder `%` on `int` is the truncating `Int.tmod`.
-/

namespace TorchUCC

/-! ## Status codes -/

/-- Modelled from the spec: `torch_ucc_status_t` is declared in `torch_ucc_sendrecv.hpp`,
which is not among the sources. The three values the code uses are kept:
Completed (`TORCH_UCC_OK`), InProgress and Failed (`TORCH_UCC_ERROR`). -/
inductive torch_ucc_status_t
  | TORCH_UCC_OK
  | TORCH_UCC_INPROGRESS
  | TORCH_UCC_ERROR
  deriving DecidableEq, Repr

/-- Modelled from the spec: `xccl_status_t` belongs to the XCCL library (`api/xccl.h`).
The code only compares it with `XCCL_OK` and `XCCL_INPROGRESS`; every other value is
kept with its numeric code, which the code prints and otherwise ignores. -/
inductive xccl_status_t
  | XCCL_OK
  | XCCL_INPROGRESS
  | XCCL_ERR (code : Int)
  deriving DecidableEq, Repr

open torch_ucc_status_t xccl_status_t

/-! ## Tensors and devices -/

/-- The device types listed in `xccl_mtype_map`, and one more for every type that the
map does not list. -/
inductive DeviceType
  | kCPU | kCUDA | kHIP | kFPGA | kMSNPU | kXLA | kVulkan | kMetal | kOther
  deriving DecidableEq, Repr

/-- A `c10::Device`: a type and an index. -/
structure Device where
  type : DeviceType
  index : Int
  deriving DecidableEq, Repr

/-- `c10::Device::is_cuda`. -/
def Device.is_cuda (d : Device) : Bool := d.type == DeviceType.kCUDA

/-- The scalar types listed in `xccl_type_map`, and one more for every other type. -/
inductive ScalarType
  | kByte | kChar | kHalf | kDouble | kFloat | kInt | kLong | kOtherType
  deriving DecidableEq, Repr

/-- An `at::Tensor`, as far as the backend looks at it: the device, the scalar type,
the element size, the shape and the elements in row-major order. -/
structure Tensor where
  device : Device
  scalar_type : ScalarType
  element_size : Nat
  sizes : List Nat
  data : List Nat
  deriving DecidableEq, Repr

/-- `at::Tensor::numel`. -/
def Tensor.numel (t : Tensor) : Nat := t.sizes.prod

/-- `len` elements of `buf` from position `off` on. -/
def readAt (buf : List Nat) (off len : Nat) : List Nat := (buf.drop off).take len

/-- The buffer `buf` with `data` stored from position `off` on. -/
def writeAt (buf : List Nat) (off : Nat) (data : List Nat) : List Nat :=
  buf.take off ++ data ++ buf.drop (off + data.length)

/-- `t[i]`: the `i`-th slice of `t` along its first dimension. -/
def Tensor.index (t : Tensor) (i : Nat) : Tensor :=
  { device := t.device
    scalar_type := t.scalar_type
    element_size := t.element_size
    sizes := t.sizes.tail
    data := readAt t.data (i * t.sizes.tail.prod) t.sizes.tail.prod }

/-- `self.copy_(src)`: the elements of `src` are stored in `self`. -/
def Tensor.copy_ (self src : Tensor) : Tensor := { self with data := src.data }

/-! ## Collective types, configuration, communicators and requests -/

/-- `torch_ucc_collective_type_t` (`torch_ucc_ops.hpp`). -/
inductive torch_ucc_collective_type_t
  | TORCH_UCC_BARRIER
  | TORCH_UCC_BCAST
  | TORCH_UCC_ALLREDUCE
  | TORCH_UCC_ALLTOALL
  | TORCH_UCC_ALLTOALLV
  | TORCH_UCC_ALLGATHER
  deriving DecidableEq, Repr

open torch_ucc_collective_type_t

/-- `torch_ucc_coll_config_t`; `blocking_wait` is indexed by the collective type. -/
structure torch_ucc_coll_config_t where
  blocking_wait : torch_ucc_collective_type_t → Bool
  gpu_barrier : Bool
  high_priority_stream : Bool
  serialize : Bool

/-- A device stream (`at::cuda::CUDAStream`): its device and whether it was taken from
the high-priority pool. -/
structure CUDAStream where
  device : Device
  high_priority : Bool
  deriving DecidableEq, Repr

/-- A device event (`at::cuda::CUDAEvent`), identified by the order of creation. -/
structure CUDAEvent where
  id : Nat
  deriving DecidableEq, Repr

/-- `torch_ucc_coll_comm_t`. `torch_ucc_coll_request_init` reads `coll_comm->stream`
outside every `USE_CUDA` guard, so the sources build only with `USE_CUDA` defined, and
the embedding follows that configuration. A pool entry is `none` when a request gave
back a null event. `events_created` counts the events made so far and names the next
one. -/
structure torch_ucc_coll_comm_t where
  stream : Option CUDAStream
  event_pool : List (Option CUDAEvent)
  events_created : Nat
  config : torch_ucc_coll_config_t

/-- `torch_ucx_comm_t`, the point-to-point context: the fields the backend reads. -/
structure torch_ucx_comm_t where
  rank : Int
  size : Int
  deriving DecidableEq, Repr

/-- `torch_xccl_comm_t`: the base communicator, the point-to-point context and the
handles of the XCCL library, context and team. -/
structure torch_xccl_comm_t where
  super : torch_ucc_coll_comm_t
  p2p_comm : torch_ucx_comm_t
  xccl_lib : Nat
  xccl_ctx : Nat
  xccl_team : Nat

/-- `torch_ucc_coll_request_t`. The communicator a request points to is passed
alongside the request. -/
structure torch_ucc_coll_request_t where
  device : Device
  src : List Tensor
  dst : List Tensor
  coll_type : torch_ucc_collective_type_t
  event : Option CUDAEvent
  deriving DecidableEq, Repr

/-- `torch_xccl_request_t`, as `torch_xccl.cpp` uses it: the base request, the handle
of the XCCL collective, the status and the flat scratch tensor of an allgather. -/
structure torch_xccl_request_t where
  super : torch_ucc_coll_request_t
  request : Nat
  status : torch_ucc_status_t
  flat_tensor : Tensor
  deriving DecidableEq, Repr

/-- `ucs_memory_type_t`, the values `xccl_mtype_map` maps to. -/
inductive ucs_memory_type_t
  | UCS_MEMORY_TYPE_HOST
  | UCS_MEMORY_TYPE_CUDA
  | UCS_MEMORY_TYPE_ROCM
  | UCS_MEMORY_TYPE_UNKNOWN
  deriving DecidableEq, Repr

/-- `xccl_dt_t`, the values `xccl_type_map` maps to. -/
inductive xccl_dt_t
  | XCCL_DT_UINT8 | XCCL_DT_INT8 | XCCL_DT_FLOAT16 | XCCL_DT_FLOAT64 | XCCL_DT_FLOAT32
  | XCCL_DT_INT32 | XCCL_DT_INT64
  deriving DecidableEq, Repr

/-- `xccl_op_t`, the values `xccl_op_map` maps to. -/
inductive xccl_op_t
  | XCCL_OP_MIN | XCCL_OP_MAX | XCCL_OP_SUM | XCCL_OP_PROD
  deriving DecidableEq, Repr

/-- `c10d::ReduceOp`: the operators listed in `xccl_op_map`, and one more for every
other operator. -/
inductive ReduceOp
  | MIN | MAX | SUM | PRODUCT | OTHER
  deriving DecidableEq, Repr

/-- `xccl_collective_type_t`, the values the backend posts. -/
inductive xccl_collective_type_t
  | XCCL_BARRIER
  | XCCL_BCAST
  | XCCL_ALLREDUCE
  | XCCL_ALLTOALL
  | XCCL_ALLTOALLV
  | XCCL_ALLGATHER
  deriving DecidableEq, Repr

/-- `xccl_coll_op_args_t`, the operation descriptor: the collective type, the memory
types and the length of the buffers, the root and the stream when they are set. Buffer
addresses and the count and displacement arrays are left out. -/
structure xccl_coll_op_args_t where
  coll_type : xccl_collective_type_t
  src_mtype : Option ucs_memory_type_t
  dst_mtype : Option ucs_memory_type_t
  src_datatype : Option xccl_dt_t
  dst_datatype : Option xccl_dt_t
  len : Option Nat
  reduce_dt : Option xccl_dt_t
  reduce_op : Option xccl_op_t
  reduce_count : Option Nat
  root : Option Int
  stream : Option CUDAStream
  deriving DecidableEq, Repr

/-- The calls into the XCCL library that the backend makes, as they are recorded in
a trace. -/
inductive xccl_call
  | lib_init
  | context_config_read (lib : Nat)
  | context_config_modify (key value : String)
  | context_create (lib : Nat)
  | context_config_release
  | team_create_post (ctx : Nat)
  | team_create_test (team : Nat)
  | team_destroy (team : Nat)
  | context_destroy (ctx : Nat)
  | lib_cleanup (lib : Nat)
  | context_progress (ctx : Nat)
  | collective_init (args : xccl_coll_op_args_t) (team : Nat)
  | collective_post (h : Nat)
  | collective_test (h : Nat)
  | collective_finalize (h : Nat)
  deriving DecidableEq, Repr

/-- The streams an event can be recorded on or made to wait for: the caller's current
stream of a device, or a communication stream. -/
inductive stream_ref
  | current (device_index : Int)
  | comm (s : CUDAStream)
  deriving DecidableEq, Repr

/-- The calls into the device runtime, as they are recorded in a trace. -/
inductive cuda_call
  | stream_from_pool (high_priority : Bool) (device_index : Int)
  | event_create (e : CUDAEvent)
  | event_record (e : CUDAEvent) (s : stream_ref)
  | event_block (e : CUDAEvent) (s : stream_ref)
  deriving DecidableEq, Repr

/-! ## Progress and test -/

/-- The unflatten loop of `torch_xccl_progress`:
`for (i = 0; i < comm_size; ++i) output_vec[i].copy_(flat_tensor[i])`. -/
def unflatten (flat : Tensor) (comm_size : Nat) (output_vec : List Tensor) : List Tensor :=
  (List.range comm_size).foldl
    (fun out i =>
      match out[i]? with
      | some t => out.set i (t.copy_ (flat.index i))
      | none => out)
    output_vec

/-- What one call of `torch_xccl_progress` gives back: the returned status, the request
afterwards and the XCCL calls made, in order. -/
structure progress_result where
  ret : torch_ucc_status_t
  req : torch_xccl_request_t
  calls : List xccl_call
  deriving DecidableEq, Repr

/-- `torch_xccl_progress`; `st` is what `xccl_collective_test` answers. -/
def torch_xccl_progress (xccl_comm : torch_xccl_comm_t) (st : xccl_status_t)
    (req : torch_xccl_request_t) : progress_result :=
  let calls := [xccl_call.context_progress xccl_comm.xccl_ctx,
    xccl_call.collective_test req.request]
  if st ≠ XCCL_INPROGRESS then
    if st ≠ XCCL_OK then
      { ret := TORCH_UCC_ERROR, req := { req with status := TORCH_UCC_ERROR }, calls := calls }
    else
      let req1 : torch_xccl_request_t :=
        if req.super.coll_type = TORCH_UCC_ALLGATHER then
          { req with
            super := { req.super with
              dst := unflatten req.flat_tensor xccl_comm.p2p_comm.size.toNat req.super.dst } }
        else req
      { ret := TORCH_UCC_OK
        req := { req1 with status := TORCH_UCC_OK }
        calls := calls ++ [xccl_call.collective_finalize req.request] }
  else
    { ret := TORCH_UCC_OK, req := req, calls := calls }

/-- `torch_xccl_test`: the stored status, nothing else. -/
def torch_xccl_test (req : torch_xccl_request_t) : torch_ucc_status_t := req.status

/-- A run of `torch_xccl_progress` calls on one request, one call for each answer of
the transport test in `sts`. -/
def progress_polls (xccl_comm : torch_xccl_comm_t) :
    List xccl_status_t → torch_xccl_request_t → torch_xccl_request_t
  | [], req => req
  | st :: sts, req => progress_polls xccl_comm sts (torch_xccl_progress xccl_comm st req).req

/-! ## Posting a collective -/

/-- What `xccl_init_and_post` gives back: the returned status, the request afterwards,
the XCCL calls and the device-runtime calls made, in order. `none` as a whole result
stands for undefined behaviour (a null event or stream is dereferenced). -/
structure post_result where
  ret : torch_ucc_status_t
  req : torch_xccl_request_t
  calls : List xccl_call
  cuda : List cuda_call
  deriving DecidableEq, Repr

/-- `xccl_init_and_post`. `init_st` and `post_st` are what `xccl_collective_init` and
`xccl_collective_post` answer, `h` is the handle that a successful init stores in
`req->request`. -/
def xccl_init_and_post (init_st : xccl_status_t) (h : Nat) (post_st : xccl_status_t)
    (args : xccl_coll_op_args_t) (team : Nat) (coll_comm : torch_ucc_coll_comm_t)
    (req : torch_xccl_request_t) : Option post_result :=
  if init_st ≠ XCCL_OK then
    some { ret := TORCH_UCC_ERROR, req := req
           calls := [xccl_call.collective_init args team], cuda := [] }
  else
    let req1 := { req with request := h }
    if post_st ≠ XCCL_OK then
      some { ret := TORCH_UCC_ERROR, req := req1
             calls := [xccl_call.collective_init args team, xccl_call.collective_post h,
                       xccl_call.collective_finalize h]
             cuda := [] }
    else
      let req2 := { req1 with status := TORCH_UCC_INPROGRESS }
      let calls := [xccl_call.collective_init args team, xccl_call.collective_post h]
      if req2.super.device.is_cuda ∧ ¬ coll_comm.config.blocking_wait req2.super.coll_type then
        match req2.super.event, coll_comm.stream with
        | some e, some s =>
          some { ret := TORCH_UCC_OK, req := req2, calls := calls
                 cuda := [cuda_call.event_record e (stream_ref.comm s)] }
        | _, _ => none
      else
        some { ret := TORCH_UCC_OK, req := req2, calls := calls, cuda := [] }

/-- What `torch_ucc_coll_request_init` leaves behind: the communicator and the request
afterwards, the device-runtime calls and the lines written to `stderr`. -/
structure request_init_result where
  coll_comm : torch_ucc_coll_comm_t
  req : torch_ucc_coll_request_t
  cuda : List cuda_call
  diag : List String

/-- The first part of `torch_ucc_coll_request_init`: a barrier in device mode takes its
device from the communication stream. A null stream is reported on `stderr` and then
dereferenced, which is undefined (`none`). -/
def request_init_barrier (coll_comm : torch_ucc_coll_comm_t)
    (coll_type : torch_ucc_collective_type_t) (req : torch_ucc_coll_request_t) :
    Option (torch_ucc_coll_request_t × List String) :=
  if coll_type = TORCH_UCC_BARRIER ∧ coll_comm.config.gpu_barrier then
    match coll_comm.stream with
    | none => none
    | some s => some ({ req with device := s.device }, [])
  else some (req, [])

/-- The lines that the first part of `torch_ucc_coll_request_init` writes to `stderr`
before it reads the device of the stream: a barrier in device mode on a communicator
without a stream is reported, and the code goes on. -/
def request_init_barrier_stderr (coll_comm : torch_ucc_coll_comm_t)
    (coll_type : torch_ucc_collective_type_t) : List String :=
  if coll_type = TORCH_UCC_BARRIER ∧ coll_comm.config.gpu_barrier then
    match coll_comm.stream with
    | none => ["stream wasn't created, gpu barrier isn't supported"]
    | some _ => []
  else []

/-- The second part of `torch_ucc_coll_request_init`, run when `srcPtr` is not null:
the request takes the device of `src[0]`; on a device tensor the communication stream
is created if there is none, an event is taken from the front of the pool or created
when the pool is empty, recorded on the current stream and waited for on the
communication stream. An empty `src` or a null pooled event is undefined (`none`). -/
def request_init_src (coll_comm : torch_ucc_coll_comm_t) (req : torch_ucc_coll_request_t)
    (src : List Tensor) :
    Option (torch_ucc_coll_comm_t × torch_ucc_coll_request_t × List cuda_call) :=
  match src with
  | [] => none
  | t :: _ =>
    let req1 := { req with src := src, device := t.device, event := none }
    if req1.device.is_cuda then
      let mk : CUDAStream := { device := req1.device
                               high_priority := coll_comm.config.high_priority_stream }
      let (comm1, s, c1) :=
        match coll_comm.stream with
        | none =>
          ({ coll_comm with stream := some mk }, mk,
            [cuda_call.stream_from_pool coll_comm.config.high_priority_stream
              req1.device.index])
        | some s => (coll_comm, s, [])
      match comm1.event_pool with
      | [] =>
        let e : CUDAEvent := { id := comm1.events_created }
        some ({ comm1 with events_created := comm1.events_created + 1 },
              { req1 with event := some e },
              c1 ++ [cuda_call.event_create e,
                     cuda_call.event_record e (stream_ref.current req1.device.index),
                     cuda_call.event_block e (stream_ref.comm s)])
      | none :: _ => none
      | some e :: pool =>
        some ({ comm1 with event_pool := pool },
              { req1 with event := some e },
              c1 ++ [cuda_call.event_record e (stream_ref.current req1.device.index),
                     cuda_call.event_block e (stream_ref.comm s)])
    else some (coll_comm, req1, [])

/-- The last part of `torch_ucc_coll_request_init`, run when `dstPtr` is not null: the
destination list is stored, and a device mismatch between `src[0]` and `dst[0]` is
written to `stderr`. The function returns `void`; nothing else happens. -/
def request_init_dst (req : torch_ucc_coll_request_t) (dst : List Tensor) :
    Option (torch_ucc_coll_request_t × List String) :=
  let req1 := { req with dst := dst }
  match req1.src, req1.dst with
  | s :: _, d :: _ =>
    if s.device ≠ d.device then
      some (req1, ["ProcessGroupUCC: multidevice is not supported"])
    else some (req1, [])
  | _, _ => none

/-- `torch_ucc_coll_request_init`; `srcPtr` and `dstPtr` are `none` for `nullptr`. -/
def torch_ucc_coll_request_init (coll_comm : torch_ucc_coll_comm_t)
    (coll_type : torch_ucc_collective_type_t) (request : torch_ucc_coll_request_t)
    (srcPtr dstPtr : Option (List Tensor)) : Option request_init_result :=
  match request_init_barrier coll_comm coll_type { request with coll_type := coll_type } with
  | none => none
  | some (r1, d1) =>
    let afterSrc :=
      match srcPtr with
      | none => some (coll_comm, r1, [])
      | some src => request_init_src coll_comm r1 src
    match afterSrc with
    | none => none
    | some (comm2, r2, c2) =>
      match dstPtr with
      | none => some { coll_comm := comm2, req := r2, cuda := c2, diag := d1 }
      | some dst =>
        match request_init_dst r2 dst with
        | none => none
        | some (r3, d3) => some { coll_comm := comm2, req := r3, cuda := c2, diag := d1 ++ d3 }

/-- The destructor of `torch_ucc_coll_request_t`: a request on a device gives its
event back to the pool of its communicator. -/
def request_destroy (coll_comm : torch_ucc_coll_comm_t) (req : torch_ucc_coll_request_t) :
    torch_ucc_coll_comm_t :=
  if req.device.is_cuda then
    { coll_comm with event_pool := coll_comm.event_pool ++ [req.event] }
  else coll_comm

/-- `new torch_xccl_request_t`: the constructor sets the device to the CPU and leaves
the lists empty and the event null; the other fields are indeterminate and are taken
from `junk`. -/
def new_request (junk : torch_xccl_request_t) : torch_xccl_request_t :=
  { junk with
    super := { junk.super with
      device := { type := DeviceType.kCPU, index := -1 }
      src := [], dst := [], event := none } }

/-- `xccl_mtype_map.at`: `none` when the device type is not in the map and `at` throws. -/
def xccl_mtype_map : DeviceType → Option ucs_memory_type_t
  | DeviceType.kCPU => some ucs_memory_type_t.UCS_MEMORY_TYPE_HOST
  | DeviceType.kCUDA => some ucs_memory_type_t.UCS_MEMORY_TYPE_CUDA
  | DeviceType.kHIP => some ucs_memory_type_t.UCS_MEMORY_TYPE_ROCM
  | DeviceType.kFPGA => some ucs_memory_type_t.UCS_MEMORY_TYPE_UNKNOWN
  | DeviceType.kMSNPU => some ucs_memory_type_t.UCS_MEMORY_TYPE_UNKNOWN
  | DeviceType.kXLA => some ucs_memory_type_t.UCS_MEMORY_TYPE_UNKNOWN
  | DeviceType.kVulkan => some ucs_memory_type_t.UCS_MEMORY_TYPE_UNKNOWN
  | DeviceType.kMetal => some ucs_memory_type_t.UCS_MEMORY_TYPE_UNKNOWN
  | DeviceType.kOther => none

/-- `coll_args_init_with_stream`: on a device request the stream of the communicator is
put into the descriptor; a null stream is undefined (`none`). -/
def coll_args_init_with_stream (coll_args : xccl_coll_op_args_t)
    (coll_comm : torch_ucc_coll_comm_t) (coll_req : torch_xccl_request_t) :
    Option xccl_coll_op_args_t :=
  if ¬ coll_req.super.device.is_cuda then some coll_args
  else
    match coll_comm.stream with
    | none => none
    | some s => some { coll_args with stream := some s }

/-- What the transport answers to one posted collective: the status of
`xccl_collective_init`, the handle it stores and the status of
`xccl_collective_post`. -/
structure post_env where
  init_st : xccl_status_t
  h : Nat
  post_st : xccl_status_t
  deriving DecidableEq, Repr

/-- What a collective call gives back: the returned status, `*request` (`none` when
the call does not write it), the communicator afterwards and the traces. -/
structure coll_result where
  ret : torch_ucc_status_t
  request : Option torch_xccl_request_t
  xccl_comm : torch_xccl_comm_t
  calls : List xccl_call
  cuda : List cuda_call
  diag : List String

/-- The common tail of every collective: `xccl_init_and_post`, then either
`delete coll_req` with an error or `*request = coll_req`. -/
def post_and_return (env : post_env) (args : xccl_coll_op_args_t)
    (xccl_comm : torch_xccl_comm_t) (coll_req : torch_xccl_request_t)
    (cuda : List cuda_call) (diag : List String) : Option coll_result :=
  match xccl_init_and_post env.init_st env.h env.post_st args xccl_comm.xccl_team
      xccl_comm.super coll_req with
  | none => none
  | some r =>
    if r.ret ≠ TORCH_UCC_OK then
      some { ret := TORCH_UCC_ERROR, request := none
             xccl_comm := { xccl_comm with super := request_destroy xccl_comm.super r.req.super }
             calls := r.calls, cuda := cuda ++ r.cuda, diag := diag }
    else
      some { ret := TORCH_UCC_OK, request := some r.req, xccl_comm := xccl_comm
             calls := r.calls, cuda := cuda ++ r.cuda, diag := diag }

/-- `xccl_type_map.at`: `none` when the scalar type is not in the map and `at` throws. -/
def xccl_type_map : ScalarType → Option xccl_dt_t
  | ScalarType.kByte => some xccl_dt_t.XCCL_DT_UINT8
  | ScalarType.kChar => some xccl_dt_t.XCCL_DT_INT8
  | ScalarType.kHalf => some xccl_dt_t.XCCL_DT_FLOAT16
  | ScalarType.kDouble => some xccl_dt_t.XCCL_DT_FLOAT64
  | ScalarType.kFloat => some xccl_dt_t.XCCL_DT_FLOAT32
  | ScalarType.kInt => some xccl_dt_t.XCCL_DT_INT32
  | ScalarType.kLong => some xccl_dt_t.XCCL_DT_INT64
  | ScalarType.kOtherType => none

/-- `xccl_op_map.at`: `none` when the operator is not in the map and `at` throws. -/
def xccl_op_map : ReduceOp → Option xccl_op_t
  | ReduceOp.MIN => some xccl_op_t.XCCL_OP_MIN
  | ReduceOp.MAX => some xccl_op_t.XCCL_OP_MAX
  | ReduceOp.SUM => some xccl_op_t.XCCL_OP_SUM
  | ReduceOp.PRODUCT => some xccl_op_t.XCCL_OP_PROD
  | ReduceOp.OTHER => none

/-- A descriptor with `field_mask = 0` and `alg.set_by_user = 0`, nothing else set. -/
def coll_args_of (coll_type : xccl_collective_type_t) : xccl_coll_op_args_t :=
  { coll_type := coll_type, src_mtype := none, dst_mtype := none, src_datatype := none
    dst_datatype := none, len := none, reduce_dt := none, reduce_op := none
    reduce_count := none, root := none, stream := none }

/-- `newLikeFlat(tensors)` of `c10d/Utils.hpp`: an empty tensor with one slice for each
tensor of the list, shaped like the first; `scratch` is what the fresh memory holds.
An empty list makes it throw (`none`). -/
def newLikeFlat (scratch : List Nat) : List Tensor → Option Tensor
  | [] => none
  | t :: ts =>
    some { device := t.device, scalar_type := t.scalar_type, element_size := t.element_size
           sizes := (ts.length + 1) :: t.sizes, data := scratch }

/-- The result of a collective whose request was initialised: the request keeps what
`torch_ucc_coll_request_init` stored, the communicator what it changed. -/
def with_request_init (xccl_comm : torch_xccl_comm_t) (coll_req : torch_xccl_request_t)
    (i : request_init_result) : torch_xccl_comm_t × torch_xccl_request_t :=
  ({ xccl_comm with super := i.coll_comm }, { coll_req with super := i.req })

/-- `torch_xccl_allgather`. -/
def torch_xccl_allgather (env : post_env) (junk : torch_xccl_request_t) (scratch : List Nat)
    (xccl_comm : torch_xccl_comm_t) (input_tensors output_tensors : List Tensor) :
    Option coll_result := do
  let coll_req := new_request junk
  let i ← torch_ucc_coll_request_init xccl_comm.super TORCH_UCC_ALLGATHER coll_req.super
    (some input_tensors) (some output_tensors)
  let (comm1, req1) := with_request_init xccl_comm coll_req i
  let flat ← newLikeFlat scratch output_tensors
  let req2 := { req1 with flat_tensor := flat }
  let t ← input_tensors.head?
  let buf_len := t.element_size * t.numel * xccl_comm.p2p_comm.size.toNat
  let mtype ← xccl_mtype_map t.device.type
  let args0 := { coll_args_of xccl_collective_type_t.XCCL_ALLGATHER with
    src_mtype := some mtype, dst_mtype := some mtype, len := some buf_len }
  let args ← coll_args_init_with_stream args0 comm1.super req2
  post_and_return env args comm1 req2 i.cuda i.diag

/-- `torch_xccl_alltoall`. -/
def torch_xccl_alltoall (env : post_env) (junk : torch_xccl_request_t)
    (xccl_comm : torch_xccl_comm_t) (input_tensor output_tensor : Tensor) :
    Option coll_result := do
  let coll_req := new_request junk
  let i ← torch_ucc_coll_request_init xccl_comm.super TORCH_UCC_ALLTOALL coll_req.super
    (some [input_tensor]) (some [output_tensor])
  let (comm1, req1) := with_request_init xccl_comm coll_req i
  let buf_len := input_tensor.element_size * input_tensor.numel / xccl_comm.p2p_comm.size.toNat
  let smtype ← xccl_mtype_map input_tensor.device.type
  let dmtype ← xccl_mtype_map output_tensor.device.type
  let args0 := { coll_args_of xccl_collective_type_t.XCCL_ALLTOALL with
    src_mtype := some smtype, dst_mtype := some dmtype, len := some buf_len }
  let args ← coll_args_init_with_stream args0 comm1.super req1
  post_and_return env args comm1 req1 i.cuda i.diag

/-- `torch_xccl_alltoallv`; the length and offset arrays only travel to the transport
and are left out. -/
def torch_xccl_alltoallv (env : post_env) (junk : torch_xccl_request_t)
    (xccl_comm : torch_xccl_comm_t) (input_tensor output_tensor : Tensor) :
    Option coll_result := do
  let coll_req := new_request junk
  let i ← torch_ucc_coll_request_init xccl_comm.super TORCH_UCC_ALLTOALLV coll_req.super
    (some [input_tensor]) (some [output_tensor])
  let (comm1, req1) := with_request_init xccl_comm coll_req i
  let sdt ← xccl_type_map input_tensor.scalar_type
  let smtype ← xccl_mtype_map input_tensor.device.type
  let ddt ← xccl_type_map output_tensor.scalar_type
  let dmtype ← xccl_mtype_map output_tensor.device.type
  let args0 := { coll_args_of xccl_collective_type_t.XCCL_ALLTOALLV with
    src_mtype := some smtype, dst_mtype := some dmtype
    src_datatype := some sdt, dst_datatype := some ddt }
  let args ← coll_args_init_with_stream args0 comm1.super req1
  post_and_return env args comm1 req1 i.cuda i.diag

/-- `torch_xccl_allreduce`. -/
def torch_xccl_allreduce (env : post_env) (junk : torch_xccl_request_t)
    (xccl_comm : torch_xccl_comm_t) (tensors : List Tensor) (reduceOp : ReduceOp) :
    Option coll_result := do
  let coll_req := new_request junk
  let i ← torch_ucc_coll_request_init xccl_comm.super TORCH_UCC_ALLREDUCE coll_req.super
    (some tensors) none
  let (comm1, req1) := with_request_init xccl_comm coll_req i
  let t ← tensors.head?
  let mtype ← xccl_mtype_map t.device.type
  let dt ← xccl_type_map t.scalar_type
  let op ← xccl_op_map reduceOp
  let args0 := { coll_args_of xccl_collective_type_t.XCCL_ALLREDUCE with
    src_mtype := some mtype, dst_mtype := some mtype, len := some (t.numel * t.element_size)
    reduce_dt := some dt, reduce_op := some op, reduce_count := some t.numel }
  let args ← coll_args_init_with_stream args0 comm1.super req1
  post_and_return env args comm1 req1 i.cuda i.diag

/-- `torch_xccl_barrier`: in device mode the descriptor carries the communication stream
and the event of the request is recorded on it; a null stream or event is undefined
(`none`). -/
def torch_xccl_barrier (env : post_env) (junk : torch_xccl_request_t)
    (xccl_comm : torch_xccl_comm_t) : Option coll_result := do
  let coll_req := new_request junk
  let i ← torch_ucc_coll_request_init xccl_comm.super TORCH_UCC_BARRIER coll_req.super
    none none
  let (comm1, req1) := with_request_init xccl_comm coll_req i
  let args0 := { coll_args_of xccl_collective_type_t.XCCL_BARRIER with
    src_mtype := some ucs_memory_type_t.UCS_MEMORY_TYPE_HOST }
  if comm1.super.config.gpu_barrier then
    let s ← comm1.super.stream
    let e ← req1.super.event
    let args := { args0 with
      src_mtype := some ucs_memory_type_t.UCS_MEMORY_TYPE_CUDA, stream := some s }
    post_and_return env args comm1 req1
      (i.cuda ++ [cuda_call.event_record e (stream_ref.comm s)]) i.diag
  else
    post_and_return env args0 comm1 req1 i.cuda i.diag

/-- `torch_xccl_broadcast`. -/
def torch_xccl_broadcast (env : post_env) (junk : torch_xccl_request_t)
    (xccl_comm : torch_xccl_comm_t) (tensors : List Tensor) (root : Int) :
    Option coll_result := do
  let coll_req := new_request junk
  let i ← torch_ucc_coll_request_init xccl_comm.super TORCH_UCC_BCAST coll_req.super
    (some tensors) none
  let (comm1, req1) := with_request_init xccl_comm coll_req i
  let t ← tensors.head?
  let mtype ← xccl_mtype_map t.device.type
  let args0 := { coll_args_of xccl_collective_type_t.XCCL_BCAST with
    src_mtype := some mtype, dst_mtype := some mtype, len := some (t.numel * t.element_size)
    root := some root }
  let args ← coll_args_init_with_stream args0 comm1.super req1
  post_and_return env args comm1 req1 i.cuda i.diag

/-! ## Building the communicator -/

/-- What the XCCL library answers while a communicator is built: the status of each
stage with the handle it stores, whether the UCX layer is among the selected ones
(`tls & XCCL_TL_UCX`), and the answers of `xccl_team_create_test`, in order. -/
structure comm_init_env where
  lib_init_st : xccl_status_t
  lib : Nat
  tls_ucx : Bool
  config_read_st : xccl_status_t
  context_create_st : xccl_status_t
  ctx : Nat
  team_post_st : xccl_status_t
  team : Nat
  team_tests : List xccl_status_t

/-- What `torch_xccl_comm_init` gives back: the returned status, `*comm` (`none` for
`nullptr`) and the XCCL calls made, in order. -/
structure comm_init_result where
  ret : torch_ucc_status_t
  comm : Option torch_xccl_comm_t
  calls : List xccl_call

/-- The configuration overrides of `torch_xccl_comm_init` when the UCX layer is
selected, in the order of the source and with the keys as the source spells them. -/
def block_stream_overrides (coll_config : torch_ucc_coll_config_t) : List xccl_call :=
  [ if coll_config.blocking_wait TORCH_UCC_BARRIER
      then xccl_call.context_config_modify "BLOCK_STREAM_BARRIER" "no"
      else xccl_call.context_config_modify "BLOCK_STREAM_BARRIER" "yes",
    if coll_config.blocking_wait TORCH_UCC_BCAST
      then xccl_call.context_config_modify "BLOCK_STREAM_BCAST" "no"
      else xccl_call.context_config_modify "BLOCK_STREAM_BCAST" "yes",
    if coll_config.blocking_wait TORCH_UCC_ALLREDUCE
      then xccl_call.context_config_modify "BLOCK_STREAM_ALLREDUCE" "no"
      else xccl_call.context_config_modify "BLOCK_STREAM_ALLREDUCE" "yes",
    if coll_config.blocking_wait TORCH_UCC_ALLTOALL
      then xccl_call.context_config_modify "BLOCK_STREAM_ALLTOLL" "no"
      else xccl_call.context_config_modify "BLOCK_STREAM_ALLTOALL" "yes",
    if coll_config.blocking_wait TORCH_UCC_ALLTOALLV
      then xccl_call.context_config_modify "BLOCK_STREAM_ALLTOALLV" "no"
      else xccl_call.context_config_modify "BLOCK_STREAM_ALLTOALLV" "yes",
    if coll_config.blocking_wait TORCH_UCC_ALLGATHER
      then xccl_call.context_config_modify "BLOCK_STREAM_ALLGATHER" "no"
      else xccl_call.context_config_modify "BLOCK_STREAM_ALLGATHER" "yes" ] ++
  (if coll_config.serialize
    then [xccl_call.context_config_modify "BLOCK_STREAM_ALLTOALLV" "yes",
          xccl_call.context_config_modify "BLOCK_STREAM_ALLTOALL" "yes"]
    else [])

/-- The loop `while (XCCL_INPROGRESS == xccl_team_create_test(team)) {}` over the
answers of the test: how many tests were made and the answer that ended the loop;
`none` when every answer is in-progress and the loop does not end. -/
def team_create_poll : List xccl_status_t → Option (Nat × xccl_status_t)
  | [] => none
  | st :: rest =>
    if st = XCCL_INPROGRESS then
      (team_create_poll rest).map (fun r => (r.1 + 1, r.2))
    else some (1, st)

/-- `torch_xccl_comm_init`. The result is `none` when the polling loop does not end. -/
def torch_xccl_comm_init (env : comm_init_env) (p2p_comm : torch_ucx_comm_t)
    (coll_config : torch_ucc_coll_config_t) : Option comm_init_result :=
  if env.lib_init_st ≠ XCCL_OK then
    some { ret := TORCH_UCC_ERROR, comm := none, calls := [xccl_call.lib_init] }
  else if env.config_read_st ≠ XCCL_OK then
    some { ret := TORCH_UCC_ERROR, comm := none
           calls := [xccl_call.lib_init, xccl_call.context_config_read env.lib,
                     xccl_call.lib_cleanup env.lib] }
  else
    let c1 := [xccl_call.lib_init, xccl_call.context_config_read env.lib] ++
      (if env.tls_ucx then block_stream_overrides coll_config else []) ++
      [xccl_call.context_create env.lib, xccl_call.context_config_release]
    if env.context_create_st ≠ XCCL_OK then
      some { ret := TORCH_UCC_ERROR, comm := none
             calls := c1 ++ [xccl_call.lib_cleanup env.lib] }
    else if env.team_post_st ≠ XCCL_OK then
      some { ret := TORCH_UCC_ERROR, comm := none
             calls := c1 ++ [xccl_call.team_create_post env.ctx,
                             xccl_call.context_destroy env.ctx,
                             xccl_call.lib_cleanup env.lib] }
    else
      match team_create_poll env.team_tests with
      | none => none
      | some (n, _) =>
        some { ret := TORCH_UCC_OK
               comm := some
                 { super := { stream := none, event_pool := [], events_created := 0
                              config := coll_config }
                   p2p_comm := p2p_comm
                   xccl_lib := env.lib, xccl_ctx := env.ctx, xccl_team := env.team }
               calls := c1 ++ [xccl_call.team_create_post env.ctx] ++
                 List.replicate n (xccl_call.team_create_test env.team) }

/-- `torch_xccl_comm_close`: the XCCL calls made, in order. -/
def torch_xccl_comm_close (xccl_comm : torch_xccl_comm_t) : List xccl_call :=
  [xccl_call.team_destroy xccl_comm.xccl_team, xccl_call.context_destroy xccl_comm.xccl_ctx,
   xccl_call.lib_cleanup xccl_comm.xccl_lib]

/-! ## The bootstrap allgather -/

/-- Modelled from the spec: `TORCH_UCX_OOB_TAG` is defined in `torch_ucc_sendrecv.hpp`,
which is not among the sources; it is the reserved tag, distinct from every tag of user
traffic. -/
inductive ucp_tag
  | TORCH_UCX_OOB_TAG
  | user (t : Nat)
  deriving DecidableEq, Repr

/-- `xccl_ep_range_t`, as the bootstrap reads it: whether the type is
`XCCL_EP_RANGE_UNDEFINED`, the number of endpoints, and `xccl_range_to_rank` on this
range (a function of the XCCL library). -/
structure xccl_ep_range_t where
  undefined : Bool
  ep_num : Int
  to_rank : Int → Int

/-- The calls into the point-to-point layer, as they are recorded in a trace. A send
is recorded with the offset of its block in the receive buffer and with what the block
holds when the send is posted; a receive with the offset of the block it fills; a
test with the number of outstanding operations it is given. -/
inductive p2p_call
  | send_nb (off : Int) (payload : List Nat) (msglen : Nat) (dest : Int) (tag : ucp_tag)
  | recv_nb (off : Int) (msglen : Nat) (src : Int) (tag : ucp_tag)
  | req_test (n : Int)
  deriving DecidableEq, Repr

/-- `xccl_oob_allgather_req_t`. `sbuf` and `rbuf` stand for the memory the two pointers
point to. The two transport handles `reqs` are written by the send and the receive and
read by the transport test only; the trace of calls stands for them. -/
structure xccl_oob_allgather_req_t where
  range : xccl_ep_range_t
  sbuf : List Nat
  rbuf : List Nat
  oob_coll_ctx : torch_ucx_comm_t
  my_rank : Int
  msglen : Nat
  iter : Int
  num_active_reqs : Int
  done : Int

/-- Modelled from the spec: `torch_ucx_req_test` is defined in the point-to-point layer,
which is not among the sources. It is a non-blocking test of a batch of outstanding
operations: with no outstanding operation there is nothing to wait for and the test
reports completion (a group of one rank is done after the local copy, with no network
operation); otherwise the answer `outcome` is the transport's. -/
def torch_ucx_req_test (outcome : torch_ucc_status_t) (n_completions_required : Int) :
    torch_ucc_status_t :=
  if n_completions_required = 0 then TORCH_UCC_OK else outcome

/-- The state of one call of `oob_allgather_test`: the request, the number of transport
tests made so far in the call, and the point-to-point calls made so far, in order. -/
structure oob_run where
  req : xccl_oob_allgather_req_t
  tests : Nat
  calls : List p2p_call

/-- One call `torch_ucx_req_test(oob_ctx, reqs, num_active_reqs, nullptr, 1,
num_active_reqs)`; `env k` is the transport's answer to the `k`-th test of the call. -/
def oob_test_outstanding (env : Nat → torch_ucc_status_t) (s : oob_run) :
    torch_ucc_status_t × oob_run :=
  (torch_ucx_req_test (env s.tests) s.req.num_active_reqs,
   { s with tests := s.tests + 1
            calls := s.calls ++ [p2p_call.req_test s.req.num_active_reqs] })

/-- The second half of the loop body: the two block offsets of the step, the send and
the receive, and `num_active_reqs += 2`. The remainder `%` of C truncates. -/
def oob_post_step (rank size sendto recvfrom : Int) (s : oob_run) : oob_run :=
  let recvdatafrom := Int.tmod (rank - s.req.iter - 1 + size) size
  let senddatafrom := Int.tmod (rank - s.req.iter + size) size
  let tmprecv := recvdatafrom * (s.req.msglen : Int)
  let tmpsend := senddatafrom * (s.req.msglen : Int)
  { s with
    req := { s.req with num_active_reqs := s.req.num_active_reqs + 2 }
    calls := s.calls ++
      [p2p_call.send_nb tmpsend (readAt s.req.rbuf tmpsend.toNat s.req.msglen) s.req.msglen
         sendto ucp_tag.TORCH_UCX_OOB_TAG,
       p2p_call.recv_nb tmprecv s.req.msglen recvfrom ucp_tag.TORCH_UCX_OOB_TAG] }

/-- The loop `for (; iter < size - 1; iter++)` of `oob_allgather_test`. The first
component is `some XCCL_INPROGRESS` when the body returns from the function and `none`
when the loop ends. Each pass uses one unit of `fuel`; `size - 1 - iter` units are
enough (`oob_allgather_loop_fuel`). -/
def oob_allgather_loop (env : Nat → torch_ucc_status_t) (rank size sendto recvfrom : Int) :
    Nat → oob_run → Option xccl_status_t × oob_run
  | 0, s => (none, s)
  | fuel + 1, s =>
    if s.req.iter < size - 1 then
      if s.req.iter > 0 then
        let (st, s1) := oob_test_outstanding env s
        if st = TORCH_UCC_INPROGRESS then (some XCCL_INPROGRESS, s1)
        else
          let s2 := oob_post_step rank size sendto recvfrom
            { s1 with req := { s1.req with num_active_reqs := 0 } }
          oob_allgather_loop env rank size sendto recvfrom fuel
            { s2 with req := { s2.req with iter := s2.req.iter + 1 } }
      else
        let s2 := oob_post_step rank size sendto recvfrom s
        oob_allgather_loop env rank size sendto recvfrom fuel
          { s2 with req := { s2.req with iter := s2.req.iter + 1 } }
    else (none, s)

/-- What one call of `oob_allgather_test` gives back: the returned status, the request
afterwards, the number of transport tests made and the point-to-point calls made. -/
structure oob_result where
  st : xccl_status_t
  req : xccl_oob_allgather_req_t
  tests : Nat
  calls : List p2p_call

/-- The group size `oob_allgather_test` works with. -/
def oob_size (oob_req : xccl_oob_allgather_req_t) : Int :=
  if oob_req.range.undefined then oob_req.oob_coll_ctx.size else oob_req.range.ep_num

/-- The rank `oob_allgather_test` works with. -/
def oob_rank (oob_req : xccl_oob_allgather_req_t) : Int :=
  if oob_req.range.undefined then oob_req.oob_coll_ctx.rank else oob_req.my_rank

/-- The neighbour the blocks are sent to. -/
def oob_sendto (oob_req : xccl_oob_allgather_req_t) : Int :=
  let sendto := Int.tmod (oob_rank oob_req + 1) (oob_size oob_req)
  if ¬ oob_req.range.undefined then oob_req.range.to_rank sendto else sendto

/-- The neighbour the blocks are received from. -/
def oob_recvfrom (oob_req : xccl_oob_allgather_req_t) : Int :=
  let recvfrom := Int.tmod (oob_rank oob_req - 1 + oob_size oob_req) (oob_size oob_req)
  if ¬ oob_req.range.undefined then oob_req.range.to_rank recvfrom else recvfrom

/-- The first step of `oob_allgather_test`: at `iter == 0` the local block is copied
to position `rank` of the receive buffer (`memcpy(rbuf + rank * msglen, sbuf, msglen)`). -/
def oob_local_copy (oob_req : xccl_oob_allgather_req_t) : xccl_oob_allgather_req_t :=
  if oob_req.iter = 0 then
    { oob_req with
      rbuf := writeAt oob_req.rbuf (oob_rank oob_req * (oob_req.msglen : Int)).toNat
        (oob_req.sbuf.take oob_req.msglen) }
  else oob_req

/-- The end of `oob_allgather_test`. After a return from the loop body the call gives
back that status. After the end of the loop the outstanding operations are tested once
more: in-progress gives `XCCL_INPROGRESS`, any other answer sets `done` and gives
`XCCL_OK`. -/
def oob_after_loop (env : Nat → torch_ucc_status_t) :
    Option xccl_status_t × oob_run → oob_result
  | (some st, s) => { st := st, req := s.req, tests := s.tests, calls := s.calls }
  | (none, s) =>
    let (st, s1) := oob_test_outstanding env s
    if st = TORCH_UCC_INPROGRESS then
      { st := XCCL_INPROGRESS, req := s1.req, tests := s1.tests, calls := s1.calls }
    else
      { st := XCCL_OK, req := { s1.req with done := 1 }, tests := s1.tests
        calls := s1.calls }

/-- `oob_allgather_test`; `env k` is the transport's answer to the `k`-th transport test
of this call. -/
def oob_allgather_test (env : Nat → torch_ucc_status_t) (oob_req : xccl_oob_allgather_req_t) :
    oob_result :=
  if oob_req.done ≠ 0 then
    { st := XCCL_OK, req := oob_req, tests := 0, calls := [] }
  else
    let size := oob_size oob_req
    let rank := oob_rank oob_req
    let req1 := oob_local_copy oob_req
    oob_after_loop env
      (oob_allgather_loop env rank size (oob_sendto oob_req) (oob_recvfrom oob_req)
        (size - 1 - req1.iter).toNat { req := req1, tests := 0, calls := [] })

/-- The request that `oob_allgather` creates, before its first test. -/
def oob_new_req (sbuf rbuf : List Nat) (msglen : Nat) (my_rank : Int)
    (range : xccl_ep_range_t) (oob_coll_ctx : torch_ucx_comm_t) : xccl_oob_allgather_req_t :=
  { range := range, sbuf := sbuf, rbuf := rbuf, oob_coll_ctx := oob_coll_ctx
    my_rank := my_rank, msglen := msglen, iter := 0, num_active_reqs := 0, done := 0 }

/-- `oob_allgather`: a new request with `iter`, `num_active_reqs` and `done` at zero,
then the first `oob_allgather_test`. -/
def oob_allgather (env : Nat → torch_ucc_status_t) (sbuf rbuf : List Nat) (msglen : Nat)
    (my_rank : Int) (range : xccl_ep_range_t) (oob_coll_ctx : torch_ucx_comm_t) : oob_result :=
  oob_allgather_test env (oob_new_req sbuf rbuf msglen my_rank range oob_coll_ctx)

/-! ## A group of ranks running the bootstrap allgather -/

/-- A message in flight: the rank it goes to and its bytes. -/
structure ring_msg where
  dest : Int
  payload : List Nat
  deriving DecidableEq, Repr

/-- A posted receive: the rank it expects data from and the offset of the block of the
receive buffer that it fills. -/
structure ring_recv where
  src : Int
  off : Int
  deriving DecidableEq, Repr

/-- The messages that a trace of point-to-point calls sends, in order. -/
def sends_of : List p2p_call → List ring_msg
  | [] => []
  | p2p_call.send_nb _ payload _ dest _ :: cs => { dest := dest, payload := payload } :: sends_of cs
  | _ :: cs => sends_of cs

/-- The receives that a trace of point-to-point calls posts, in order. -/
def recvs_of : List p2p_call → List ring_recv
  | [] => []
  | p2p_call.recv_nb off _ src _ :: cs => { src := src, off := off } :: recvs_of cs
  | _ :: cs => recvs_of cs

/-- One rank of the group: its request (`none` before `oob_allgather` is called), the
messages it has sent, the receives it has posted, and how many of these receives have
their data. -/
structure rank_state where
  req : Option xccl_oob_allgather_req_t
  sent : List ring_msg
  recvs : List ring_recv
  delivered : Nat

/-- The group: the number of ranks, the message length, the send buffer of each rank
and what the receive buffer of each rank holds before the exchange. -/
structure ring_setup where
  N : Nat
  msglen : Nat
  block : Nat → List Nat
  rbuf0 : Nat → List Nat

/-- The state of the group: one state for each rank, in the order of the ranks. -/
abbrev ring_state := List rank_state

/-- What can happen in the group. `poll r ready`: rank `r` calls `oob_allgather` if it
has no request yet and `oob_allgather_test` otherwise; `ready` says whether the
transport is willing to report completion. `deliver r`: the oldest receive of rank `r`
that has no data yet gets the matching message. -/
inductive ring_event
  | poll (r : Nat) (ready : Bool)
  | deliver (r : Nat)
  deriving DecidableEq, Repr

/-- A rank that has not started. -/
def rank_idle : rank_state := { req := none, sent := [], recvs := [], delivered := 0 }

/-- No rank has started. -/
def ring_init (cfg : ring_setup) : ring_state := List.replicate cfg.N rank_idle

/-- The state of rank `r`. -/
def rank_at (w : ring_state) (r : Nat) : rank_state := (w[r]?).getD rank_idle

/-- The endpoint range of the bootstrap inside `xccl_context_create`: undefined, so
that rank and size come from the point-to-point context. -/
def range_undefined : xccl_ep_range_t :=
  { undefined := true, ep_num := 0, to_rank := fun x => x }

/-- The answers of the transport test during one call of a rank in state `rs`: the
first test of the call looks at the operations that earlier calls posted and reports
completion when the transport is ready and each of these receives has its data;
operations posted during the call are still in flight when the call looks at them.
A call in which the transport lets several iterations pass at once leaves the rank in
the state that as many calls with deliveries in between leave it in. -/
def ring_env (rs : rank_state) (ready : Bool) : Nat → torch_ucc_status_t :=
  fun k =>
    if k = 0 ∧ ready = true ∧ rs.req.isSome = true ∧ rs.delivered = rs.recvs.length
    then TORCH_UCC_OK else TORCH_UCC_INPROGRESS

/-- Rank `r` polls, from its state `rs`. -/
def rank_poll (cfg : ring_setup) (r : Nat) (ready : Bool) (rs : rank_state) : rank_state :=
  let res :=
    match rs.req with
    | none =>
      oob_allgather (ring_env rs ready) (cfg.block r) (cfg.rbuf0 r) cfg.msglen (r : Int)
        range_undefined { rank := (r : Int), size := (cfg.N : Int) }
    | some q => oob_allgather_test (ring_env rs ready) q
  { req := some res.req
    sent := rs.sent ++ sends_of res.calls
    recvs := rs.recvs ++ recvs_of res.calls
    delivered := rs.delivered }

/-- The oldest receive of rank `r` without data is matched with the message of the same
position among those that its source has sent to `r`; the bytes are stored in the
receive buffer of `r`. Nothing happens when there is no such receive or message. -/
def rank_deliver (w : ring_state) (r : Nat) (rs : rank_state) : rank_state :=
  match rs.req, rs.recvs[rs.delivered]? with
  | some q, some rc =>
    match ((rank_at w rc.src.toNat).sent.filter (fun m => m.dest = (r : Int)))[rs.delivered]? with
    | some m =>
      { rs with
        req := some { q with rbuf := writeAt q.rbuf rc.off.toNat m.payload }
        delivered := rs.delivered + 1 }
    | none => rs
  | _, _ => rs

/-- One event of the group; events of ranks outside the group change nothing. -/
def ring_step (cfg : ring_setup) (w : ring_state) : ring_event → ring_state
  | ring_event.poll r ready => w.set r (rank_poll cfg r ready (rank_at w r))
  | ring_event.deliver r => w.set r (rank_deliver w r (rank_at w r))

/-- A run of the group from the start. -/
def ring_run (cfg : ring_setup) (evs : List ring_event) : ring_state :=
  evs.foldl (ring_step cfg) (ring_init cfg)

/-- The request of rank `r` is done. -/
def ring_done (w : ring_state) (r : Nat) : Bool :=
  match (rank_at w r).req with
  | some q => decide (q.done ≠ 0)
  | none => false

/-- What the receive buffer of rank `r` holds (`none` before the rank has started). -/
def ring_rbuf (w : ring_state) (r : Nat) : Option (List Nat) :=
  (rank_at w r).req.map (fun q => q.rbuf)

/-- The blocks of ranks `0 .. N-1`, one after the other. -/
def ring_gathered (cfg : ring_setup) : List Nat :=
  (List.range cfg.N).flatMap cfg.block

/-! ## Traces of the bootstrap -/

/-- Whether a point-to-point call posts an operation (a send or a receive). -/
def p2p_call.is_post : p2p_call → Bool
  | p2p_call.req_test _ => false
  | _ => true

/-- The send and the receive that the loop body posts at iteration `k`, for a receive
buffer that holds `rbuf`. -/
def oob_step_calls (rank size sendto recvfrom : Int) (rbuf : List Nat) (msglen : Nat)
    (k : Int) : List p2p_call :=
  [p2p_call.send_nb (Int.tmod (rank - k + size) size * (msglen : Int))
     (readAt rbuf (Int.tmod (rank - k + size) size * (msglen : Int)).toNat msglen) msglen
     sendto ucp_tag.TORCH_UCX_OOB_TAG,
   p2p_call.recv_nb (Int.tmod (rank - k - 1 + size) size * (msglen : Int)) msglen
     recvfrom ucp_tag.TORCH_UCX_OOB_TAG]

/-- The operations of iterations `0 .. n-1`, one pair for each iteration, in order. -/
def oob_posted_upto (rank size sendto recvfrom : Int) (rbuf : List Nat) (msglen : Nat)
    (n : Nat) : List p2p_call :=
  (List.range n).flatMap
    (fun k => oob_step_calls rank size sendto recvfrom rbuf msglen (k : Int))

/-- The operations that a request in state `q` is expected to have posted: the pairs
of iterations `0 .. iter-1`. -/
def oob_expected_posts (q : xccl_oob_allgather_req_t) : List p2p_call :=
  oob_posted_upto (oob_rank q) (oob_size q) (oob_sendto q) (oob_recvfrom q) q.rbuf q.msglen
    q.iter.toNat

/-- A run of calls of `oob_allgather_test` on one request, one call for each sequence
of transport answers in the list: the request after the last call and all the
point-to-point calls made, in order. -/
def oob_session (envs : List (Nat → torch_ucc_status_t))
    (start : xccl_oob_allgather_req_t × List p2p_call) :
    xccl_oob_allgather_req_t × List p2p_call :=
  envs.foldl
    (fun acc env => ((oob_allgather_test env acc.1).req,
                     acc.2 ++ (oob_allgather_test env acc.1).calls))
    start

/-- What holds of a bootstrap request `q` and of the trace `calls` of all its calls so
far, for a request created as `q0`: only the receive buffer, `iter`, `num_active_reqs`
and `done` differ from `q0`; `iter` lies between `0` and `size - 1`; the operations
posted are the pairs of iterations `0 .. iter-1`, each once; and `done` is set only at
`iter = size - 1`. -/
def oob_reachable (q0 q : xccl_oob_allgather_req_t) (calls : List p2p_call) : Prop :=
  q = { q0 with rbuf := q.rbuf, iter := q.iter, num_active_reqs := q.num_active_reqs
                done := q.done } ∧
  0 ≤ q.iter ∧ q.iter ≤ oob_size q0 - 1 ∧
  calls.filter p2p_call.is_post = oob_expected_posts q ∧
  (q.done ≠ 0 → q.iter = oob_size q0 - 1)

/-! ## What holds of every state of the group -/

/-- The index of the block that lies `j` places before the block of rank `r`, around
the ring of `N` blocks. -/
def ring_back (N r j : Nat) : Nat := (r + N - j) % N

/-- The message that rank `r` sends at iteration `j`. -/
def ring_sent_at (cfg : ring_setup) (r j : Nat) : ring_msg :=
  { dest := (((r + 1) % cfg.N : Nat) : Int), payload := cfg.block (ring_back cfg.N r j) }

/-- The receive that rank `r` posts at iteration `j`. -/
def ring_recv_at (cfg : ring_setup) (r j : Nat) : ring_recv :=
  { src := (((r + cfg.N - 1) % cfg.N : Nat) : Int)
    off := ((ring_back cfg.N r (j + 1) * cfg.msglen : Nat) : Int) }

/-- What holds of a rank `r` that has started, with request `q`: the request is the one
of rank `r` in a group of `N`; `iter` pairs have been posted, the `j`-th send carrying
the block `j` places before `r` and the `j`-th receive filling the block `j + 1` places
before `r`; at most one receive is without data; the blocks up to `delivered` places
before `r` hold the data of their ranks; and `done` is set only after the last
receive has its data. -/
structure req_ok (cfg : ring_setup) (r : Nat) (rs : rank_state)
    (q : xccl_oob_allgather_req_t) : Prop where
  undefined : q.range.undefined = true
  ctx : q.oob_coll_ctx = { rank := (r : Int), size := (cfg.N : Int) }
  msglen : q.msglen = cfg.msglen
  iter_nonneg : 0 ≤ q.iter
  iter_le : q.iter ≤ (cfg.N : Int) - 1
  rbuf_length : q.rbuf.length = cfg.N * cfg.msglen
  sent : rs.sent = (List.range q.iter.toNat).map (ring_sent_at cfg r)
  recvs : rs.recvs = (List.range q.iter.toNat).map (ring_recv_at cfg r)
  delivered_le : rs.delivered ≤ q.iter.toNat
  outstanding : q.iter.toNat ≤ rs.delivered + 1
  active : q.num_active_reqs = (if q.iter = 0 then 0 else 2)
  blocks : ∀ j, j ≤ rs.delivered →
    readAt q.rbuf (ring_back cfg.N r j * cfg.msglen) cfg.msglen =
      cfg.block (ring_back cfg.N r j)
  started : q.done = 0 → 1 ≤ q.iter
  finished : q.done ≠ 0 → q.iter = (cfg.N : Int) - 1 ∧ rs.delivered = q.iter.toNat

/-- What holds of rank `r` in every state of the group. -/
def rank_ok (cfg : ring_setup) (r : Nat) (rs : rank_state) : Prop :=
  match rs.req with
  | none => rs.sent = [] ∧ rs.recvs = [] ∧ rs.delivered = 0
  | some q => req_ok cfg r rs q

/-- What holds of every state of the group. -/
def ring_ok (cfg : ring_setup) (w : ring_state) : Prop :=
  w.length = cfg.N ∧ ∀ r, r < cfg.N → rank_ok cfg r (rank_at w r)

/-- The group is well formed: at least one rank, send buffers of `msglen` bytes and
receive buffers of `N * msglen` bytes. -/
def ring_setup.wf (cfg : ring_setup) : Prop :=
  1 ≤ cfg.N ∧ (∀ r, r < cfg.N → (cfg.block r).length = cfg.msglen) ∧
  (∀ r, r < cfg.N → (cfg.rbuf0 r).length = cfg.N * cfg.msglen)

/-! ## Live requests of one communicator -/

/-- The communicator, the requests that are alive on it, and the XCCL calls made so
far. -/
structure world where
  xccl_comm : torch_xccl_comm_t
  reqs : List torch_xccl_request_t
  calls : List xccl_call

/-- `torch_xccl_progress` on the `i`-th live request; `none` when there is no such
request. -/
def world_progress (w : world) (i : Nat) (st : xccl_status_t) :
    Option (torch_ucc_status_t × world) :=
  match w.reqs[i]? with
  | none => none
  | some req =>
    let res := torch_xccl_progress w.xccl_comm st req
    some (res.ret, { w with reqs := w.reqs.set i res.req, calls := w.calls ++ res.calls })

/-- Whether a call is `xccl_collective_finalize`. -/
def xccl_call.is_finalize : xccl_call → Bool
  | xccl_call.collective_finalize _ => true
  | _ => false

/-- Whether a call is `xccl_collective_init` or `xccl_collective_post`. -/
def xccl_call.is_init_or_post : xccl_call → Bool
  | xccl_call.collective_init _ _ => true
  | xccl_call.collective_post _ => true
  | _ => false

/-- Whether a call destroys a context or cleans up a library. -/
def xccl_call.is_teardown : xccl_call → Bool
  | xccl_call.context_destroy _ => true
  | xccl_call.lib_cleanup _ => true
  | xccl_call.team_destroy _ => true
  | _ => false

/-- `torch_xccl_test` on the `i`-th live request: the status read and the communicator,
requests and trace after the call; `none` when there is no such request. -/
def world_test (w : world) (i : Nat) : Option (torch_ucc_status_t × world) :=
  match w.reqs[i]? with
  | none => none
  | some req => some (torch_xccl_test req, w)

/-! ## Configuration overrides -/

/-- The value that a trace of XCCL calls leaves a configuration key with: the value of
the last override of the key, `none` when no call of the trace writes the key. -/
def config_final (calls : List xccl_call) (key : String) : Option String :=
  calls.foldl
    (fun acc c =>
      match c with
      | xccl_call.context_config_modify k v => if k = key then some v else acc
      | _ => acc)
    none

/-- The configuration keys that a trace of XCCL calls writes, in order. -/
def config_keys : List xccl_call → List String
  | [] => []
  | xccl_call.context_config_modify k _ :: cs => k :: config_keys cs
  | _ :: cs => config_keys cs

/-- The key `BLOCK_STREAM_<c>` of a collective type `c`. -/
def block_stream_key : torch_ucc_collective_type_t → String
  | TORCH_UCC_BARRIER => "BLOCK_STREAM_BARRIER"
  | TORCH_UCC_BCAST => "BLOCK_STREAM_BCAST"
  | TORCH_UCC_ALLREDUCE => "BLOCK_STREAM_ALLREDUCE"
  | TORCH_UCC_ALLTOALL => "BLOCK_STREAM_ALLTOALL"
  | TORCH_UCC_ALLTOALLV => "BLOCK_STREAM_ALLTOALLV"
  | TORCH_UCC_ALLGATHER => "BLOCK_STREAM_ALLGATHER"

/-- The six keys `BLOCK_STREAM_<c>`. -/
def block_stream_keys : List String :=
  [block_stream_key TORCH_UCC_BARRIER, block_stream_key TORCH_UCC_BCAST,
   block_stream_key TORCH_UCC_ALLREDUCE, block_stream_key TORCH_UCC_ALLTOALL,
   block_stream_key TORCH_UCC_ALLTOALLV, block_stream_key TORCH_UCC_ALLGATHER]

/-- The communicator `xccl_comm` with the device-mode barrier switched on and with no
communication stream. -/
def without_stream (xccl_comm : torch_xccl_comm_t) : torch_xccl_comm_t :=
  { xccl_comm with
    super := { xccl_comm.super with
      stream := none
      config := { xccl_comm.super.config with gpu_barrier := true } } }

/-! ## Ring step addressing -/

/-- The `k`-th send and receive of a trace of posted operations, `k` counted from `1`;
`none` when the trace has fewer than `k` pairs. -/
def oob_pair (posted : List p2p_call) (k : Nat) : Option (p2p_call × p2p_call) :=
  match posted[2 * (k - 1)]?, posted[2 * (k - 1) + 1]? with
  | some a, some b => some (a, b)
  | _, _ => none

/-- The offset in the receive buffer that a posted operation reads or fills. -/
def p2p_call.offset : p2p_call → Option Int
  | p2p_call.send_nb off _ _ _ _ => some off
  | p2p_call.recv_nb off _ _ _ => some off
  | p2p_call.req_test _ => none

/-- The ring step addressing in the words of the specification: at step `k` the send
reads the block at `(rank - k) mod size` and the receive fills the block at
`(rank - k - 1) mod size`. -/
def spec_step_blocks (rank size k : Int) : Int × Int :=
  ((rank - k) % size, (rank - k - 1) % size)

/-! ## The event pool of one communicator -/

/-- What happens to the requests of one communicator: a request is created and
initialised by `torch_ucc_coll_request_init`, or the `i`-th live request is destroyed. -/
inductive pool_event
  | create (coll_type : torch_ucc_collective_type_t) (srcPtr dstPtr : Option (List Tensor))
  | destroy (i : Nat)

/-- The communicator, the requests that are alive on it, and the largest number of
device-resident requests that were alive at the same time so far. -/
structure pool_state where
  coll_comm : torch_ucc_coll_comm_t
  live : List torch_ucc_coll_request_t
  max_live : Nat

/-- The number of device-resident requests among `live`. -/
def device_resident (live : List torch_ucc_coll_request_t) : Nat :=
  (live.filter (fun r => r.device.is_cuda)).length

/-- One creation or destruction. A creation is `new torch_xccl_request_t` followed by
`torch_ucc_coll_request_init`; it is undefined (`none`) when the initialisation is. A
destruction runs the destructor of the `i`-th live request and takes the request from
the live ones; it changes nothing when there is no such request. -/
def pool_step (junk : torch_xccl_request_t) (s : pool_state) : pool_event → Option pool_state
  | pool_event.create coll_type srcPtr dstPtr =>
    match torch_ucc_coll_request_init s.coll_comm coll_type (new_request junk).super
        srcPtr dstPtr with
    | none => none
    | some i =>
      some { coll_comm := i.coll_comm
             live := s.live ++ [i.req]
             max_live := max s.max_live (device_resident (s.live ++ [i.req])) }
  | pool_event.destroy i =>
    match s.live[i]? with
    | none => some s
    | some req =>
      some { coll_comm := request_destroy s.coll_comm req
             live := s.live.eraseIdx i
             max_live := s.max_live }

/-- A run of creations and destructions; `none` when one of them is undefined. -/
def pool_run (junk : torch_xccl_request_t) : List pool_event → pool_state → Option pool_state
  | [], s => some s
  | e :: es, s =>
    match pool_step junk s e with
    | none => none
    | some s1 => pool_run junk es s1

/-- A communicator with no live request yet. -/
def pool_start (coll_comm : torch_ucc_coll_comm_t) : pool_state :=
  { coll_comm := coll_comm, live := [], max_live := 0 }

/-- The events that the pool and the live requests hold, null entries left out. -/
def held_events (s : pool_state) : List CUDAEvent :=
  s.coll_comm.event_pool.filterMap id ++ s.live.filterMap (fun r => r.event)

/-- Whether a call into the device runtime creates an event. -/
def cuda_call.is_event_create : cuda_call → Bool
  | cuda_call.event_create _ => true
  | _ => false

/-! ## The requests of one communicator, through the collective calls -/

/-- A configuration with every flag off. -/
def config_plain : torch_ucc_coll_config_t :=
  { blocking_wait := fun _ => false, gpu_barrier := false, high_priority_stream := false
    serialize := false }

/-- A communicator of four ranks, seen from rank 1, with no stream and no event yet. -/
def comm_four : torch_xccl_comm_t :=
  { super := { stream := none, event_pool := [], events_created := 0, config := config_plain }
    p2p_comm := { rank := 1, size := 4 }
    xccl_lib := 1, xccl_ctx := 2, xccl_team := 3 }

/-- The CPU. -/
def cpu : Device := { type := DeviceType.kCPU, index := -1 }

/-- The first CUDA device. -/
def cuda0 : Device := { type := DeviceType.kCUDA, index := 0 }

/-- A tensor of bytes on `device` with the given elements. -/
def byte_tensor (device : Device) (data : List Nat) : Tensor :=
  { device := device, scalar_type := ScalarType.kByte, element_size := 1
    sizes := [data.length], data := data }

/-- An allgather request of four ranks in flight: four output tensors of two bytes
each, and a flat tensor that the transport has filled. -/
def req_allgather : torch_xccl_request_t :=
  { super := { device := cpu
               src := [byte_tensor cpu [3, 4]]
               dst := [byte_tensor cpu [0, 0], byte_tensor cpu [0, 0], byte_tensor cpu [0, 0],
                       byte_tensor cpu [0, 0]]
               coll_type := TORCH_UCC_ALLGATHER
               event := none }
    request := 7
    status := TORCH_UCC_INPROGRESS
    flat_tensor := { device := cpu, scalar_type := ScalarType.kByte, element_size := 1
                     sizes := [4, 2], data := [1, 2, 3, 4, 5, 6, 7, 8] } }

/-- A completed allreduce request. -/
def req_completed : torch_xccl_request_t :=
  { super := { device := cpu, src := [byte_tensor cpu [3, 4]], dst := []
               coll_type := TORCH_UCC_ALLREDUCE, event := none }
    request := 8
    status := TORCH_UCC_OK
    flat_tensor := byte_tensor cpu [] }

/-- Three live requests on `comm_four`, no call made yet. -/
def world_three : world :=
  { xccl_comm := comm_four
    reqs := [req_allgather, { req_completed with status := TORCH_UCC_INPROGRESS }, req_completed]
    calls := [] }

/-- The answers of the XCCL library when every stage of the construction succeeds and
the polling of the team creation sees one in-progress answer and then an error. -/
def env_team_test_fails : comm_init_env :=
  { lib_init_st := XCCL_OK, lib := 1, tls_ucx := true, config_read_st := XCCL_OK
    context_create_st := XCCL_OK, ctx := 2, team_post_st := XCCL_OK, team := 3
    team_tests := [XCCL_INPROGRESS, XCCL_ERR (-1)] }

/-- A transport that accepts the init and the post of a collective. -/
def env_post_ok : post_env := { init_st := XCCL_OK, h := 9, post_st := XCCL_OK }

/-- What a collective call did, in short: the returned status, whether `*request` was
written, the XCCL calls that are an init or a post, and the lines on `stderr`. -/
def coll_result.summary (r : coll_result) :
    torch_ucc_status_t × Bool × List Bool × List String :=
  (r.ret, r.request.isSome, r.calls.map xccl_call.is_init_or_post, r.diag)

/-- Four ranks with blocks of eight bytes: `A`, `B`, `C`, `D` (as character codes) at
ranks `0 .. 3`, and receive buffers of zeros. -/
def ring_four : ring_setup :=
  { N := 4, msglen := 8
    block := fun r => List.replicate 8 (65 + r)
    rbuf0 := fun _ => List.replicate 32 0 }

/-- Every rank of `ring_four` polls once, the transport being ready. -/
def ring_four_polls : List ring_event :=
  [ring_event.poll 0 true, ring_event.poll 1 true, ring_event.poll 2 true,
   ring_event.poll 3 true]

/-- Every rank of `ring_four` gets the data of its oldest receive. -/
def ring_four_delivers : List ring_event :=
  [ring_event.deliver 0, ring_event.deliver 1, ring_event.deliver 2, ring_event.deliver 3]

/-- A run of `ring_four` to the end: the start calls, then three rounds of deliveries
and polls. -/
def ring_four_run : List ring_event :=
  ring_four_polls ++ ring_four_delivers ++ ring_four_polls ++ ring_four_delivers ++
    ring_four_polls ++ ring_four_delivers ++ ring_four_polls

/-- The request of rank 1 of four after its start call: the pair of iteration `0` is
posted and outstanding. -/
def req_waiting : xccl_oob_allgather_req_t :=
  { range := range_undefined
    sbuf := List.replicate 8 66
    rbuf := List.replicate 8 0 ++ List.replicate 8 66 ++ List.replicate 16 0
    oob_coll_ctx := { rank := 1, size := 4 }
    my_rank := 1, msglen := 8, iter := 1, num_active_reqs := 2, done := 0 }

/-- A transport whose every test answers in-progress. -/
def env_busy : Nat → torch_ucc_status_t := fun _ => TORCH_UCC_INPROGRESS

/-- A transport whose every test answers completion. -/
def env_complete : Nat → torch_ucc_status_t := fun _ => TORCH_UCC_OK

/-- A transport answer read the way `oob_allgather_test` reads it: in-progress stays
in-progress, every other answer (an error too) counts as a successful completion. -/
def as_success (st : torch_ucc_status_t) : torch_ucc_status_t :=
  if st = TORCH_UCC_INPROGRESS then TORCH_UCC_INPROGRESS else TORCH_UCC_OK

/-- A transport whose every test answers an error. -/
def env_error : Nat → torch_ucc_status_t := fun _ => TORCH_UCC_ERROR

/-- An allreduce of two bytes on the CPU, posted on `comm_four` with a transport that
accepts it. -/
def allreduce_host : Option coll_result :=
  torch_xccl_allreduce env_post_ok req_completed comm_four [byte_tensor cpu [1, 2]]
    ReduceOp.SUM

/-- A policy that waits blockingly for the all-to-all only, without serialize. -/
def config_wait_alltoall : torch_ucc_coll_config_t :=
  { blocking_wait := fun c => decide (c = TORCH_UCC_ALLTOALL), gpu_barrier := false
    high_priority_stream := false, serialize := false }

/-- The answers of the XCCL library when the UCX layer is selected, every stage of the
construction succeeds and the first test of the team creation answers OK. -/
def env_init_ok : comm_init_env :=
  { lib_init_st := XCCL_OK, lib := 1, tls_ucx := true, config_read_st := XCCL_OK
    context_create_st := XCCL_OK, ctx := 2, team_post_st := XCCL_OK, team := 3
    team_tests := [XCCL_OK] }

/-- The operations that the start call of rank 0 in a group of two posts, with blocks
of eight bytes. -/
def start_posts_two : List p2p_call :=
  (oob_allgather env_busy (List.replicate 8 65) (List.replicate 16 0) 8 0 range_undefined
    { rank := 0, size := 2 }).calls.filter p2p_call.is_post

/-- A fresh communicator (no stream, no event) with the device-mode barrier switched
on. -/
def comm_gpu_barrier : torch_ucc_coll_comm_t :=
  { stream := none, event_pool := [], events_created := 0
    config := { config_plain with gpu_barrier := true } }

/-- An allreduce on a device tensor is created and destroyed, then a barrier in device
mode is created and destroyed, twice. -/
def barrier_churn : List pool_event :=
  [pool_event.create TORCH_UCC_ALLREDUCE (some [byte_tensor cuda0 [1, 2]]) none,
   pool_event.destroy 0,
   pool_event.create TORCH_UCC_BARRIER none none,
   pool_event.destroy 0,
   pool_event.create TORCH_UCC_BARRIER none none,
   pool_event.destroy 0]

/-- Two allreduces on device tensors are created, then the first one is destroyed. -/
def reuse_run : List pool_event :=
  [pool_event.create TORCH_UCC_ALLREDUCE (some [byte_tensor cuda0 [1, 2]]) none,
   pool_event.create TORCH_UCC_ALLREDUCE (some [byte_tensor cuda0 [3, 4]]) none,
   pool_event.destroy 0]

/-- A defined endpoint range of three endpoints whose `xccl_range_to_rank` is strided:
endpoint `x` is rank `10 + 2 * x`. -/
def range_strided : xccl_ep_range_t :=
  { undefined := false, ep_num := 3, to_rank := fun x => 10 + 2 * x }

/-- The status after one `torch_xccl_progress`, by the answer of the transport test. -/
theorem progress_status (xccl_comm : torch_xccl_comm_t) (st : xccl_status_t)
    (req : torch_xccl_request_t) :
    (torch_xccl_progress xccl_comm st req).req.status =
      if st = XCCL_INPROGRESS then req.status
      else if st = XCCL_OK then TORCH_UCC_OK else TORCH_UCC_ERROR := by
  unfold torch_xccl_progress
  by_cases h1 : st = XCCL_INPROGRESS
  · simp [h1]
  · by_cases h2 : st = XCCL_OK
    · simp [h2]
    · simp [h1, h2]

/-- A status that is not in-progress is not in-progress after one more poll. -/
theorem progress_keeps_terminal (xccl_comm : torch_xccl_comm_t) (st : xccl_status_t)
    (req : torch_xccl_request_t) (h : req.status ≠ TORCH_UCC_INPROGRESS) :
    (torch_xccl_progress xccl_comm st req).req.status ≠ TORCH_UCC_INPROGRESS := by
  rw [progress_status]
  split_ifs <;> simp [h]

/-- C2: once a request is Completed or Failed, `torch_xccl_test` does not answer
InProgress after any number of further `torch_xccl_progress` calls, whatever the
transport test answers in each of them. -/
theorem request_status_monotonic (xccl_comm : torch_xccl_comm_t) (sts : List xccl_status_t)
    (req : torch_xccl_request_t)
    (h : req.status = TORCH_UCC_OK ∨ req.status = TORCH_UCC_ERROR) :
    torch_xccl_test (progress_polls xccl_comm sts req) ≠ TORCH_UCC_INPROGRESS := by
  have h0 : req.status ≠ TORCH_UCC_INPROGRESS := by
    rcases h with h | h <;> simp [h]
  clear h
  induction sts generalizing req with
  | nil => simpa [progress_polls, torch_xccl_test] using h0
  | cons st sts ih =>
    simp only [progress_polls]
    exact ih _ (progress_keeps_terminal xccl_comm st req h0)

/-- C2 at a completed request polled three more times. -/
theorem request_status_monotonic_witness :
    (req_completed.status = TORCH_UCC_OK ∨ req_completed.status = TORCH_UCC_ERROR) ∧
    torch_xccl_test
      (progress_polls comm_four [XCCL_INPROGRESS, XCCL_ERR (-1), XCCL_OK] req_completed) ≠
      TORCH_UCC_INPROGRESS :=
  ⟨Or.inl rfl, request_status_monotonic comm_four _ req_completed (Or.inl rfl)⟩

/-- C3 as stated fails: a Completed request whose later poll sees the transport test
answer an error becomes Failed. -/
theorem terminal_not_absorbing :
    req_completed.status = TORCH_UCC_OK ∧
    (torch_xccl_progress comm_four (XCCL_ERR (-1)) req_completed).req.status =
      TORCH_UCC_ERROR := by
  constructor <;> rfl

/-- C3, amended: on a request that is already Completed or Failed, `torch_xccl_progress`
leaves the status unchanged when the transport test answers in-progress, makes it
Completed when the test answers OK and Failed when it answers anything else; so the
status is unchanged whenever the answer agrees with it, and it is never InProgress. -/
theorem terminal_status_follows_transport (xccl_comm : torch_xccl_comm_t)
    (st : xccl_status_t) (req : torch_xccl_request_t)
    (h : req.status = TORCH_UCC_OK ∨ req.status = TORCH_UCC_ERROR) :
    (st = XCCL_INPROGRESS → (torch_xccl_progress xccl_comm st req).req.status = req.status) ∧
    (st = XCCL_OK → (torch_xccl_progress xccl_comm st req).req.status = TORCH_UCC_OK) ∧
    (st ≠ XCCL_INPROGRESS → st ≠ XCCL_OK →
      (torch_xccl_progress xccl_comm st req).req.status = TORCH_UCC_ERROR) ∧
    ((torch_xccl_progress xccl_comm st req).req.status = TORCH_UCC_OK ∨
      (torch_xccl_progress xccl_comm st req).req.status = TORCH_UCC_ERROR) := by
  rw [progress_status]
  refine ⟨fun h1 => by simp [h1], fun h1 => by simp [h1], fun h1 h2 => by simp [h1, h2], ?_⟩
  split_ifs
  · exact h
  · exact Or.inl rfl
  · exact Or.inr rfl

/-- C3, amended, at a completed request: in-progress keeps Completed. -/
theorem terminal_status_follows_transport_witness :
    (req_completed.status = TORCH_UCC_OK ∨ req_completed.status = TORCH_UCC_ERROR) ∧
    (torch_xccl_progress comm_four XCCL_INPROGRESS req_completed).req.status =
      req_completed.status :=
  ⟨Or.inl rfl,
   (terminal_status_follows_transport comm_four XCCL_INPROGRESS req_completed
      (Or.inl rfl)).1 rfl⟩

/-- C7: when the transport test answers neither in-progress nor OK,
`torch_xccl_progress` on the `i`-th live request returns `TORCH_UCC_ERROR` and sets the
status of this request to Failed; no other field of the request changes (so no
unflatten copy is made), the communicator and every other request are as before, the
only XCCL calls are the context progress and the test (no finalize), and the next
`torch_xccl_test` on the request answers `TORCH_UCC_ERROR`. -/
theorem progress_error_marks_failed (w : world) (i : Nat) (req : torch_xccl_request_t)
    (st : xccl_status_t) (hreq : w.reqs[i]? = some req)
    (h1 : st ≠ XCCL_INPROGRESS) (h2 : st ≠ XCCL_OK) :
    ∃ w', world_progress w i st = some (TORCH_UCC_ERROR, w') ∧
      w'.reqs = w.reqs.set i { req with status := TORCH_UCC_ERROR } ∧
      (∀ j, j ≠ i → w'.reqs[j]? = w.reqs[j]?) ∧
      (∃ r', w'.reqs[i]? = some r' ∧ r'.super = req.super ∧ r'.request = req.request ∧
        r'.flat_tensor = req.flat_tensor ∧ torch_xccl_test r' = TORCH_UCC_ERROR) ∧
      w'.xccl_comm = w.xccl_comm ∧
      w'.calls = w.calls ++ [xccl_call.context_progress w.xccl_comm.xccl_ctx,
        xccl_call.collective_test req.request] := by
  have hres : torch_xccl_progress w.xccl_comm st req =
      { ret := TORCH_UCC_ERROR, req := { req with status := TORCH_UCC_ERROR }
        calls := [xccl_call.context_progress w.xccl_comm.xccl_ctx,
          xccl_call.collective_test req.request] } := by
    simp [torch_xccl_progress, h1, h2]
  have hi : i < w.reqs.length := (List.getElem?_eq_some_iff.mp hreq).1
  refine ⟨{ w with reqs := w.reqs.set i { req with status := TORCH_UCC_ERROR }
                   calls := w.calls ++ [xccl_call.context_progress w.xccl_comm.xccl_ctx,
                     xccl_call.collective_test req.request] }, ?_, rfl, ?_, ?_, rfl, rfl⟩
  · simp [world_progress, hreq, hres]
  · intro j hj
    simp [List.getElem?_set, Ne.symm hj]
  · exact ⟨{ req with status := TORCH_UCC_ERROR }, by simp [List.getElem?_set, hi],
      rfl, rfl, rfl, rfl⟩

/-- C7 at three live requests: an error on the first leaves the other two alone. -/
theorem progress_error_marks_failed_witness :
    world_three.reqs[0]? = some req_allgather ∧
    (XCCL_ERR (-5) ≠ XCCL_INPROGRESS) ∧ (XCCL_ERR (-5) ≠ XCCL_OK) ∧
    ∃ w', world_progress world_three 0 (XCCL_ERR (-5)) = some (TORCH_UCC_ERROR, w') ∧
      w'.reqs = [{ req_allgather with status := TORCH_UCC_ERROR },
        { req_completed with status := TORCH_UCC_INPROGRESS }, req_completed] := by
  refine ⟨rfl, by decide, by decide, ?_⟩
  obtain ⟨w', h1, h2, _⟩ :=
    progress_error_marks_failed world_three 0 req_allgather (XCCL_ERR (-5)) rfl
      (by decide) (by decide)
  exact ⟨w', h1, by rw [h2]; rfl⟩

/-! ## Posting -/

/-- C8: `xccl_init_and_post` returns (a request on a device that does not wait
blockingly has its event and its stream when both the init and the post succeed, so
that recording the event is defined). It finalizes the handle exactly once when the
init succeeds and the post fails, and never otherwise; it returns `TORCH_UCC_ERROR`
exactly when the init or the post fails; and it sets the status to InProgress when both
succeed and leaves the status alone otherwise. -/
theorem init_and_post_finalizes_on_post_failure (init_st : xccl_status_t) (h : Nat)
    (post_st : xccl_status_t) (args : xccl_coll_op_args_t) (team : Nat)
    (coll_comm : torch_ucc_coll_comm_t) (req : torch_xccl_request_t)
    (hdev : init_st = XCCL_OK → post_st = XCCL_OK → req.super.device.is_cuda = true →
      coll_comm.config.blocking_wait req.super.coll_type = false →
      req.super.event ≠ none ∧ coll_comm.stream ≠ none) :
    ∃ r, xccl_init_and_post init_st h post_st args team coll_comm req = some r ∧
      r.calls.filter xccl_call.is_finalize =
        (if init_st = XCCL_OK ∧ post_st ≠ XCCL_OK then [xccl_call.collective_finalize h]
         else []) ∧
      (r.ret = TORCH_UCC_ERROR ↔ (init_st ≠ XCCL_OK ∨ post_st ≠ XCCL_OK)) ∧
      (r.ret = TORCH_UCC_OK ↔ (init_st = XCCL_OK ∧ post_st = XCCL_OK)) ∧
      (init_st = XCCL_OK ∧ post_st = XCCL_OK → r.req.status = TORCH_UCC_INPROGRESS) ∧
      (¬ (init_st = XCCL_OK ∧ post_st = XCCL_OK) → r.req.status = req.status) := by
  unfold xccl_init_and_post
  by_cases hi : init_st = XCCL_OK
  · by_cases hp : post_st = XCCL_OK
    · simp only [hi, hp, ne_eq, not_true_eq_false, if_false]
      by_cases hc : req.super.device.is_cuda = true ∧
          ¬ coll_comm.config.blocking_wait req.super.coll_type = true
      · obtain ⟨he, hs⟩ := hdev hi hp hc.1 (by simpa using hc.2)
        obtain ⟨e, he⟩ := Option.ne_none_iff_exists'.mp he
        obtain ⟨s, hs⟩ := Option.ne_none_iff_exists'.mp hs
        rw [if_pos hc]
        simp [he, hs, xccl_call.is_finalize]
      · rw [if_neg hc]
        simp [xccl_call.is_finalize]
    · simp [hi, hp, xccl_call.is_finalize]
  · simp [hi, xccl_call.is_finalize]

/-- C8 at a host request whose init succeeds and whose post is rejected: one finalize,
an error, and the status as it was. -/
theorem init_and_post_finalizes_on_post_failure_witness :
    (XCCL_OK = XCCL_OK → XCCL_ERR (-1) = XCCL_OK → req_completed.super.device.is_cuda = true →
      comm_four.super.config.blocking_wait req_completed.super.coll_type = false →
      req_completed.super.event ≠ none ∧ comm_four.super.stream ≠ none) ∧
    ∃ r, xccl_init_and_post XCCL_OK 9 (XCCL_ERR (-1))
        (coll_args_of xccl_collective_type_t.XCCL_ALLREDUCE) 3 comm_four.super
        req_completed = some r ∧
      r.calls.filter xccl_call.is_finalize = [xccl_call.collective_finalize 9] ∧
      r.ret = TORCH_UCC_ERROR ∧ r.req.status = req_completed.status := by
  have hdev : XCCL_OK = XCCL_OK → XCCL_ERR (-1) = XCCL_OK →
      req_completed.super.device.is_cuda = true →
      comm_four.super.config.blocking_wait req_completed.super.coll_type = false →
      req_completed.super.event ≠ none ∧ comm_four.super.stream ≠ none := by
    intro _ h; exact absurd h (by decide)
  refine ⟨hdev, ?_⟩
  obtain ⟨r, h1, h2, h3, _, _, h6⟩ :=
    init_and_post_finalizes_on_post_failure XCCL_OK 9 (XCCL_ERR (-1))
      (coll_args_of xccl_collective_type_t.XCCL_ALLREDUCE) 3 comm_four.super
      req_completed hdev
  refine ⟨r, h1, ?_, h3.mpr (Or.inr (by decide)), h6 (by decide)⟩
  rw [h2]; decide

/-! ## Building the communicator -/

/-- A configuration override is no teardown call. -/
theorem ite_modify_is_teardown (b : Prop) [Decidable b] (k v k' v' : String) :
    (if b then xccl_call.context_config_modify k v
      else xccl_call.context_config_modify k' v').is_teardown = false := by
  split <;> rfl

/-- The configuration overrides hold no teardown call. -/
theorem overrides_no_teardown (coll_config : torch_ucc_coll_config_t) :
    (block_stream_overrides coll_config).filter xccl_call.is_teardown = [] := by
  unfold block_stream_overrides
  rw [List.filter_append]
  simp only [List.filter_cons, ite_modify_is_teardown, List.filter_nil, Bool.false_eq_true,
    if_false, List.nil_append]
  split <;> simp [xccl_call.is_teardown]

/-- The four stages of `torch_xccl_comm_init` whose status the code checks (library
init, configuration read, context create, team-create post): when one of them fails,
the call returns `TORCH_UCC_ERROR` with a null communicator, and what the stages before
created is destroyed in reverse order, the context before the library. -/
theorem comm_init_checked_stage_failure (env : comm_init_env) (p2p_comm : torch_ucx_comm_t)
    (coll_config : torch_ucc_coll_config_t)
    (h : env.lib_init_st ≠ XCCL_OK ∨ env.config_read_st ≠ XCCL_OK ∨
      env.context_create_st ≠ XCCL_OK ∨ env.team_post_st ≠ XCCL_OK) :
    ∃ r, torch_xccl_comm_init env p2p_comm coll_config = some r ∧
      r.ret = TORCH_UCC_ERROR ∧ r.comm.isNone = true ∧
      r.calls.filter xccl_call.is_teardown =
        (if env.lib_init_st ≠ XCCL_OK then []
         else if env.config_read_st ≠ XCCL_OK ∨ env.context_create_st ≠ XCCL_OK
           then [xccl_call.lib_cleanup env.lib]
         else [xccl_call.context_destroy env.ctx, xccl_call.lib_cleanup env.lib]) := by
  unfold torch_xccl_comm_init
  by_cases h1 : env.lib_init_st = XCCL_OK
  · by_cases h2 : env.config_read_st = XCCL_OK
    · by_cases h3 : env.context_create_st = XCCL_OK
      · have h4 : env.team_post_st ≠ XCCL_OK := by
          rcases h with h | h | h | h
          · exact absurd h1 h
          · exact absurd h2 h
          · exact absurd h3 h
          · exact h
        by_cases hu : env.tls_ucx = true <;>
          simp [h1, h2, h3, h4, hu, List.filter_append, overrides_no_teardown,
            xccl_call.is_teardown]
      · by_cases hu : env.tls_ucx = true <;>
          simp [h1, h2, h3, hu, List.filter_append, overrides_no_teardown,
            xccl_call.is_teardown]
    · simp [h1, h2, xccl_call.is_teardown]
  · simp [h1, xccl_call.is_teardown]

/-- C9, the code at the failing input: every stage succeeds and the polling of the
team creation sees an error. `torch_xccl_comm_init` returns `TORCH_UCC_OK` with a
communicator that is not null, after two tests of the team creation and without any
destroy or cleanup call. -/
theorem comm_init_team_test_failure_ignored :
    (torch_xccl_comm_init env_team_test_fails { rank := 0, size := 4 } config_plain).map
      (fun r => (r.ret, r.comm.isSome, r.calls.filter xccl_call.is_teardown,
        r.calls.count (xccl_call.team_create_test 3))) =
      some (TORCH_UCC_OK, true, [], 2) := by
  decide

/-! ## Device mismatch -/

/-- C10, the code at the failing input: an all-to-all, an all-to-all-variable and an
allgather whose first source tensor is on the CPU and whose first destination tensor
is on a CUDA device. Each call writes the mismatch to `stderr`, goes on to the
transport init and post, returns `TORCH_UCC_OK` and hands out a request. -/
theorem device_mismatch_is_posted :
    (torch_xccl_alltoall env_post_ok req_completed comm_four
        (byte_tensor cpu [1, 2, 3, 4]) (byte_tensor cuda0 [0, 0, 0, 0])).map
      coll_result.summary =
      some (TORCH_UCC_OK, true, [true, true],
        ["ProcessGroupUCC: multidevice is not supported"]) ∧
    (torch_xccl_alltoallv env_post_ok req_completed comm_four
        (byte_tensor cpu [1, 2, 3, 4]) (byte_tensor cuda0 [0, 0, 0, 0])).map
      coll_result.summary =
      some (TORCH_UCC_OK, true, [true, true],
        ["ProcessGroupUCC: multidevice is not supported"]) ∧
    (torch_xccl_allgather env_post_ok req_completed [0, 0, 0, 0] comm_four
        [byte_tensor cpu [1]]
        [byte_tensor cuda0 [0], byte_tensor cuda0 [0], byte_tensor cuda0 [0],
         byte_tensor cuda0 [0]]).map
      coll_result.summary =
      some (TORCH_UCC_OK, true, [true, true],
        ["ProcessGroupUCC: multidevice is not supported"]) := by
  refine ⟨?_, ?_, ?_⟩ <;> rfl

/-! ## The bootstrap allgather: one call -/

/-- One pass of the loop body that posts: what the trace gains. -/
theorem oob_post_step_calls (rank size sendto recvfrom : Int) (s : oob_run) :
    (oob_post_step rank size sendto recvfrom s).calls =
      s.calls ++ oob_step_calls rank size sendto recvfrom s.req.rbuf s.req.msglen s.req.iter :=
  rfl

/-- The loop of `oob_allgather_test`, for any answers of the transport: it changes
nothing of the request but `iter` and `num_active_reqs`; `iter` does not decrease and
does not pass `size - 1`; with `size - 1 - iter` units of fuel it ends only by a
return from the body or with `iter` at `size - 1`; a return from the body is
`XCCL_INPROGRESS`; and the operations posted are the pairs of the iterations passed. -/
theorem oob_loop_spec (env : Nat → torch_ucc_status_t) (rank size sendto recvfrom : Int) :
    ∀ (fuel : Nat) (s : oob_run) (o : Option xccl_status_t) (s' : oob_run),
      oob_allgather_loop env rank size sendto recvfrom fuel s = (o, s') →
      s'.req = { s.req with iter := s'.req.iter, num_active_reqs := s'.req.num_active_reqs } ∧
      s.req.iter ≤ s'.req.iter ∧
      (s.req.iter ≤ size - 1 → s'.req.iter ≤ size - 1) ∧
      (o = none → (size - 1 - s.req.iter).toNat ≤ fuel → size - 1 ≤ s'.req.iter) ∧
      (∀ st, o = some st → st = XCCL_INPROGRESS) ∧
      (∀ pre : List p2p_call, 0 ≤ s.req.iter →
        (pre ++ s.calls).filter p2p_call.is_post =
          oob_posted_upto rank size sendto recvfrom s.req.rbuf s.req.msglen s.req.iter.toNat →
        (pre ++ s'.calls).filter p2p_call.is_post =
          oob_posted_upto rank size sendto recvfrom s.req.rbuf s.req.msglen
            s'.req.iter.toNat) := by
  intro fuel
  induction fuel with
  | zero =>
    intro s o s' h
    simp only [oob_allgather_loop, Prod.mk.injEq] at h
    obtain ⟨rfl, rfl⟩ := h
    refine ⟨rfl, le_refl _, fun h => h, fun _ h => by omega, fun st h => by simp at h,
      fun pre _ h => h⟩
  | succ fuel ih =>
    intro s o s' h
    have hpost : ∀ (t : oob_run) (pre : List p2p_call), 0 ≤ t.req.iter →
        (pre ++ t.calls).filter p2p_call.is_post =
          oob_posted_upto rank size sendto recvfrom t.req.rbuf t.req.msglen t.req.iter.toNat →
        (pre ++ (oob_post_step rank size sendto recvfrom t).calls).filter p2p_call.is_post =
          oob_posted_upto rank size sendto recvfrom t.req.rbuf t.req.msglen
            (t.req.iter + 1).toNat := by
      intro t pre h0 hp
      have hn : (t.req.iter + 1).toNat = t.req.iter.toNat + 1 := by omega
      have hk : ((t.req.iter.toNat : Nat) : Int) = t.req.iter := by omega
      rw [hn, oob_post_step_calls, ← List.append_assoc, List.filter_append, hp]
      simp only [oob_posted_upto]
      rw [List.range_succ, List.flatMap_append]
      simp [hk, oob_step_calls, p2p_call.is_post]
    rw [oob_allgather_loop] at h
    by_cases hlt : s.req.iter < size - 1
    · rw [if_pos hlt] at h
      by_cases hpos : s.req.iter > 0
      · rw [if_pos hpos] at h
        simp only [oob_test_outstanding] at h
        by_cases hst : torch_ucx_req_test (env s.tests) s.req.num_active_reqs =
            TORCH_UCC_INPROGRESS
        · rw [if_pos hst] at h
          simp only [Prod.mk.injEq] at h
          obtain ⟨rfl, rfl⟩ := h
          refine ⟨rfl, le_refl _, fun h => h, fun h => by simp at h,
            fun st h => by simpa using h.symm, fun pre _ hp => ?_⟩
          simpa [← List.append_assoc, List.filter_append, p2p_call.is_post] using hp
        · rw [if_neg hst] at h
          obtain ⟨h1, h2, h3, h4, h5, h6⟩ := ih _ o s' h
          refine ⟨?_, ?_, ?_, ?_, h5, ?_⟩
          · rw [h1]; rfl
          · have : s.req.iter + 1 ≤ s'.req.iter := h2
            omega
          · intro _
            exact h3 (by show s.req.iter + 1 ≤ size - 1; omega)
          · intro ho hf
            exact h4 ho (by show (size - 1 - (s.req.iter + 1)).toNat ≤ fuel; omega)
          · intro pre h0 hp
            refine h6 pre (by show 0 ≤ s.req.iter + 1; omega) ?_
            have := hpost
              { req := { s.req with num_active_reqs := 0 }, tests := s.tests + 1
                calls := s.calls ++ [p2p_call.req_test s.req.num_active_reqs] } pre h0
              (by simpa [← List.append_assoc, List.filter_append, p2p_call.is_post] using hp)
            exact this
      · rw [if_neg hpos] at h
        obtain ⟨h1, h2, h3, h4, h5, h6⟩ := ih _ o s' h
        refine ⟨?_, ?_, ?_, ?_, h5, ?_⟩
        · rw [h1]; rfl
        · have : s.req.iter + 1 ≤ s'.req.iter := h2
          omega
        · intro _
          exact h3 (by show s.req.iter + 1 ≤ size - 1; omega)
        · intro ho hf
          exact h4 ho (by show (size - 1 - (s.req.iter + 1)).toNat ≤ fuel; omega)
        · intro pre h0 hp
          exact h6 pre (by show 0 ≤ s.req.iter + 1; omega) (hpost s pre h0 hp)
    · rw [if_neg hlt] at h
      simp only [Prod.mk.injEq] at h
      obtain ⟨rfl, rfl⟩ := h
      refine ⟨rfl, le_refl _, fun h => h, fun _ _ => by omega, fun st h => by simp at h,
        fun pre _ h => h⟩

/-- A loop entered with `iter` at or past `size - 1` ends at once. -/
theorem oob_loop_exit (env : Nat → torch_ucc_status_t) (rank size sendto recvfrom : Int)
    (fuel : Nat) (s : oob_run) (h : ¬ s.req.iter < size - 1) :
    oob_allgather_loop env rank size sendto recvfrom fuel s = (none, s) := by
  cases fuel <;> simp [oob_allgather_loop, h]

/-- A loop entered after the first iteration, with iterations left and the outstanding
operations still in progress, returns from the body after the one test. -/
theorem oob_loop_busy (env : Nat → torch_ucc_status_t) (rank size sendto recvfrom : Int)
    (s : oob_run) (hlt : s.req.iter < size - 1) (hpos : 0 < s.req.iter)
    (hst : torch_ucx_req_test (env s.tests) s.req.num_active_reqs = TORCH_UCC_INPROGRESS) :
    oob_allgather_loop env rank size sendto recvfrom (size - 1 - s.req.iter).toNat s =
      (some XCCL_INPROGRESS,
       { s with tests := s.tests + 1
                calls := s.calls ++ [p2p_call.req_test s.req.num_active_reqs] }) := by
  obtain ⟨n, hn⟩ : ∃ n, (size - 1 - s.req.iter).toNat = n + 1 :=
    ⟨(size - 1 - s.req.iter).toNat - 1, by omega⟩
  rw [hn, oob_allgather_loop]
  simp [hlt, hpos, oob_test_outstanding, hst]

/-- One call of `oob_allgather_test` on a request that is not done and has passed the
first iteration, when the transport test of the outstanding operations answers
in-progress: the call returns `XCCL_INPROGRESS` after this one test and the request is
as before. -/
theorem oob_test_busy (env : Nat → torch_ucc_status_t) (q : xccl_oob_allgather_req_t)
    (hdone : q.done = 0) (hiter : 1 ≤ q.iter)
    (hst : torch_ucx_req_test (env 0) q.num_active_reqs = TORCH_UCC_INPROGRESS) :
    (oob_allgather_test env q).st = XCCL_INPROGRESS ∧
    (oob_allgather_test env q).req = q ∧
    (oob_allgather_test env q).calls = [p2p_call.req_test q.num_active_reqs] ∧
    (oob_allgather_test env q).tests = 1 := by
  have hne : q.iter ≠ 0 := by omega
  unfold oob_allgather_test oob_local_copy
  simp only [hdone, ne_eq, not_true_eq_false, if_false, hne]
  by_cases hlt : q.iter < oob_size q - 1
  · rw [oob_loop_busy env _ _ _ _ { req := q, tests := 0, calls := [] } hlt
      (by show 0 < q.iter; omega) hst]
    simp [oob_after_loop]
  · rw [oob_loop_exit env _ _ _ _ _ { req := q, tests := 0, calls := [] } hlt]
    simp [oob_after_loop, oob_test_outstanding, hst]

/-- C4: polling an incomplete bootstrap request is idempotent. For a request with
`done = 0` and `iter >= 1`, every call of `oob_allgather_test` in which the transport
test of the outstanding operations answers in-progress returns `XCCL_INPROGRESS`, makes
this one test and no send or receive, and leaves the whole request (with `iter`,
`num_active_reqs`, `done` and the receive buffer) as it was; so any number of such
polls in a row leaves the request as it was and adds only tests to the trace. -/
theorem oob_poll_incomplete_idempotent (q : xccl_oob_allgather_req_t)
    (envs : List (Nat → torch_ucc_status_t)) (hdone : q.done = 0) (hiter : 1 ≤ q.iter)
    (hst : ∀ env ∈ envs,
      torch_ucx_req_test (env 0) q.num_active_reqs = TORCH_UCC_INPROGRESS) :
    (∀ env ∈ envs,
      (oob_allgather_test env q).st = XCCL_INPROGRESS ∧
      (oob_allgather_test env q).req = q ∧
      (oob_allgather_test env q).calls = [p2p_call.req_test q.num_active_reqs] ∧
      (oob_allgather_test env q).calls.filter p2p_call.is_post = []) ∧
    oob_session envs (q, []) =
      (q, List.replicate envs.length (p2p_call.req_test q.num_active_reqs)) := by
  constructor
  · intro env he
    obtain ⟨h1, h2, h3, _⟩ := oob_test_busy env q hdone hiter (hst env he)
    refine ⟨h1, h2, h3, ?_⟩
    rw [h3]; rfl
  · have key : ∀ (es : List (Nat → torch_ucc_status_t)) (pre : List p2p_call),
        (∀ env ∈ es, torch_ucx_req_test (env 0) q.num_active_reqs = TORCH_UCC_INPROGRESS) →
        oob_session es (q, pre) =
          (q, pre ++ List.replicate es.length (p2p_call.req_test q.num_active_reqs)) := by
      intro es
      induction es with
      | nil => intro pre _; simp [oob_session]
      | cons e es ih =>
        intro pre h
        obtain ⟨_, h2, h3, _⟩ := oob_test_busy e q hdone hiter (h e (List.mem_cons_self _ _))
        have := ih (pre ++ [p2p_call.req_test q.num_active_reqs])
          (fun env he => h env (List.mem_cons_of_mem _ he))
        simp only [oob_session, List.foldl_cons, h2, h3] at this ⊢
        rw [this]
        simp [List.replicate_succ]
    simpa using key envs [] hst

/-- One call of `oob_allgather_test` on a request that is not done, with `iter` between
`0` and `size - 1`, for any answers of the transport. The call changes nothing of the
request but the receive buffer (the local copy, at `iter = 0` only), `iter`,
`num_active_reqs` and `done`; `iter` does not decrease and does not pass `size - 1`;
`done` is set only with `iter = size - 1` and a return of `XCCL_OK`; and the operations
posted so far stay the pairs of the iterations passed. -/
theorem oob_test_call_spec (env : Nat → torch_ucc_status_t) (q : xccl_oob_allgather_req_t)
    (hdone : q.done = 0) (h0 : 0 ≤ q.iter) (hle : q.iter ≤ oob_size q - 1) :
    (oob_allgather_test env q).req =
      { q with rbuf := (oob_allgather_test env q).req.rbuf
               iter := (oob_allgather_test env q).req.iter
               num_active_reqs := (oob_allgather_test env q).req.num_active_reqs
               done := (oob_allgather_test env q).req.done } ∧
    (oob_allgather_test env q).req.rbuf =
      (if q.iter = 0 then
        writeAt q.rbuf (oob_rank q * (q.msglen : Int)).toNat (q.sbuf.take q.msglen)
       else q.rbuf) ∧
    q.iter ≤ (oob_allgather_test env q).req.iter ∧
    (oob_allgather_test env q).req.iter ≤ oob_size q - 1 ∧
    ((oob_allgather_test env q).req.done ≠ 0 →
      (oob_allgather_test env q).req.done = 1 ∧
      (oob_allgather_test env q).req.iter = oob_size q - 1 ∧
      (oob_allgather_test env q).st = XCCL_OK) ∧
    ((oob_allgather_test env q).st = XCCL_OK ∨
      (oob_allgather_test env q).st = XCCL_INPROGRESS) ∧
    (∀ pre : List p2p_call, pre.filter p2p_call.is_post = oob_expected_posts q →
      (pre ++ (oob_allgather_test env q).calls).filter p2p_call.is_post =
        oob_expected_posts (oob_allgather_test env q).req) := by
  set req1 : xccl_oob_allgather_req_t := oob_local_copy q with hreq1
  unfold oob_local_copy at hreq1
  have hiter1 : req1.iter = q.iter := by rw [hreq1]; split <;> rfl
  have hmsg1 : req1.msglen = q.msglen := by rw [hreq1]; split <;> rfl
  have hdone1 : req1.done = q.done := by rw [hreq1]; split <;> rfl
  have hrbuf1 : req1.rbuf =
      (if q.iter = 0 then
        writeAt q.rbuf (oob_rank q * (q.msglen : Int)).toNat (q.sbuf.take q.msglen)
       else q.rbuf) := by rw [hreq1]; split <;> rfl
  have hstat1 : req1 = { q with rbuf := req1.rbuf } := by rw [hreq1]; split <;> rfl
  rcases hL : oob_allgather_loop env (oob_rank q) (oob_size q) (oob_sendto q)
      (oob_recvfrom q) (oob_size q - 1 - req1.iter).toNat
      { req := req1, tests := 0, calls := [] } with ⟨o, s'⟩
  obtain ⟨f1, f2, f3, f4, f5, f6⟩ := oob_loop_spec env _ _ _ _ _ _ o s' hL
  simp only at f1 f2 f3 f4 f6
  have f3' : s'.req.iter ≤ oob_size q - 1 := f3 (by rw [hiter1]; exact hle)
  have hrb : s'.req.rbuf = req1.rbuf := by rw [f1]
  have hms : s'.req.msglen = q.msglen := by rw [f1]; exact hmsg1
  have hdn : s'.req.done = 0 := by rw [f1]; simp [hdone1, hdone]
  have hstat : s'.req = { q with rbuf := req1.rbuf, iter := s'.req.iter
                                 num_active_reqs := s'.req.num_active_reqs } := by
    rw [f1, hstat1]
  have hexp : ∀ (t : xccl_oob_allgather_req_t),
      t = { q with rbuf := t.rbuf, iter := t.iter, num_active_reqs := t.num_active_reqs
                   done := t.done } →
      oob_expected_posts t =
        oob_posted_upto (oob_rank q) (oob_size q) (oob_sendto q) (oob_recvfrom q) t.rbuf
          q.msglen t.iter.toNat := by
    intro t ht
    have e1 : oob_rank t = oob_rank q := by rw [ht]; rfl
    have e2 : oob_size t = oob_size q := by rw [ht]; rfl
    have e3 : oob_sendto t = oob_sendto q := by rw [ht]; rfl
    have e4 : oob_recvfrom t = oob_recvfrom q := by rw [ht]; rfl
    have e5 : t.msglen = q.msglen := by rw [ht]
    simp only [oob_expected_posts, e1, e2, e3, e4, e5]
  have hposts : ∀ pre : List p2p_call, pre.filter p2p_call.is_post = oob_expected_posts q →
      (pre ++ s'.calls).filter p2p_call.is_post =
        oob_posted_upto (oob_rank q) (oob_size q) (oob_sendto q) (oob_recvfrom q) req1.rbuf
          q.msglen s'.req.iter.toNat := by
    intro pre hp
    have := f6 pre (by rw [hiter1]; exact h0)
    rw [hmsg1, hiter1] at this
    apply this
    simp only [List.append_nil, hp, oob_expected_posts]
    by_cases hz : q.iter = 0
    · simp [hz, oob_posted_upto]
    · rw [hrbuf1, if_neg hz]
  have hself : s'.req = { q with rbuf := s'.req.rbuf, iter := s'.req.iter
                                 num_active_reqs := s'.req.num_active_reqs
                                 done := s'.req.done } := by
    rw [hdn]
    conv_lhs => rw [hstat]
    simp [hdone, hrb]
  have hrb' : s'.req.rbuf =
      (if q.iter = 0 then
        writeAt q.rbuf (oob_rank q * (q.msglen : Int)).toNat (q.sbuf.take q.msglen)
       else q.rbuf) := by rw [hrb, hrbuf1]
  have hmono : q.iter ≤ s'.req.iter := by rw [← hiter1]; exact f2
  have hposts' : ∀ pre : List p2p_call, pre.filter p2p_call.is_post = oob_expected_posts q →
      (pre ++ s'.calls).filter p2p_call.is_post = oob_expected_posts s'.req := by
    intro pre hp
    rw [hposts pre hp, hexp s'.req hself, hrb]
  have hposts'' : ∀ pre : List p2p_call, pre.filter p2p_call.is_post = oob_expected_posts q →
      (pre ++ (s'.calls ++ [p2p_call.req_test s'.req.num_active_reqs])).filter
        p2p_call.is_post = oob_expected_posts s'.req := by
    intro pre hp
    rw [← List.append_assoc, List.filter_append, hposts' pre hp]
    simp [p2p_call.is_post]
  cases o with
  | some st =>
    have hst := f5 st rfl
    subst hst
    have hunf : oob_allgather_test env q =
        { st := XCCL_INPROGRESS, req := s'.req, tests := s'.tests, calls := s'.calls } := by
      unfold oob_allgather_test
      simp only [hdone, ne_eq, not_true_eq_false, if_false]
      rw [hL]
      rfl
    rw [hunf]
    exact ⟨hself, hrb', hmono, f3', fun h => absurd hdn h, Or.inr rfl, hposts'⟩
  | none =>
    have hge : oob_size q - 1 ≤ s'.req.iter := f4 rfl (le_refl _)
    by_cases hst : torch_ucx_req_test (env s'.tests) s'.req.num_active_reqs =
        TORCH_UCC_INPROGRESS
    · have hunf : oob_allgather_test env q =
          { st := XCCL_INPROGRESS, req := s'.req, tests := s'.tests + 1
            calls := s'.calls ++ [p2p_call.req_test s'.req.num_active_reqs] } := by
        unfold oob_allgather_test
        simp only [hdone, ne_eq, not_true_eq_false, if_false]
        rw [hL]
        simp only [oob_after_loop, oob_test_outstanding, hst, if_true]
      rw [hunf]
      exact ⟨hself, hrb', hmono, f3', fun h => absurd hdn h, Or.inr rfl, hposts''⟩
    · have hunf : oob_allgather_test env q =
          { st := XCCL_OK, req := { s'.req with done := 1 }, tests := s'.tests + 1
            calls := s'.calls ++ [p2p_call.req_test s'.req.num_active_reqs] } := by
        unfold oob_allgather_test
        simp only [hdone, ne_eq, not_true_eq_false, if_false]
        rw [hL]
        simp only [oob_after_loop, oob_test_outstanding, hst, if_false]
      rw [hunf]
      refine ⟨?_, hrb', hmono, f3', fun _ => ⟨rfl, le_antisymm f3' hge, rfl⟩, Or.inl rfl, ?_⟩
      · show { s'.req with done := 1 } = _
        conv_lhs => rw [hself]
      · intro pre hp
        have := hposts'' pre hp
        rw [this]
        rfl

/-! ## The bootstrap allgather: a run of calls -/

/-- A request that is done: `oob_allgather_test` returns `XCCL_OK` at once. -/
theorem oob_test_done (env : Nat → torch_ucc_status_t) (q : xccl_oob_allgather_req_t)
    (hdone : q.done ≠ 0) :
    oob_allgather_test env q = { st := XCCL_OK, req := q, tests := 0, calls := [] } := by
  unfold oob_allgather_test
  rw [if_pos hdone]

/-- Differing only in the receive buffer, `iter`, `num_active_reqs` and `done` is
transitive. -/
theorem oob_same_static_trans {a b c : xccl_oob_allgather_req_t}
    (h1 : a = { b with rbuf := a.rbuf, iter := a.iter, num_active_reqs := a.num_active_reqs
                       done := a.done })
    (h2 : b = { c with rbuf := b.rbuf, iter := b.iter, num_active_reqs := b.num_active_reqs
                       done := b.done }) :
    a = { c with rbuf := a.rbuf, iter := a.iter, num_active_reqs := a.num_active_reqs
                 done := a.done } := by
  cases a; cases b; cases c
  simp only [xccl_oob_allgather_req_t.mk.injEq] at h1 h2 ⊢
  obtain ⟨a1, a2, _, a4, a5, a6, _, _, _⟩ := h1
  obtain ⟨b1, b2, _, b4, b5, b6, _, _, _⟩ := h2
  exact ⟨a1.trans b1, a2.trans b2, trivial, a4.trans b4, a5.trans b5, a6.trans b6, trivial,
    trivial, trivial⟩

/-- One call of `oob_allgather_test` keeps `oob_reachable`. -/
theorem oob_reachable_step (env : Nat → torch_ucc_status_t)
    (q0 q : xccl_oob_allgather_req_t) (calls : List p2p_call)
    (h : oob_reachable q0 q calls) :
    oob_reachable q0 (oob_allgather_test env q).req
      (calls ++ (oob_allgather_test env q).calls) := by
  by_cases hdone : q.done = 0
  · obtain ⟨h1, h2, h3, h4, _⟩ := h
    have hsz : oob_size q = oob_size q0 := by rw [h1]; rfl
    obtain ⟨g1, _, g3, g4, g5, _, g7⟩ :=
      oob_test_call_spec env q hdone h2 (by rw [hsz]; exact h3)
    refine ⟨?_, le_trans h2 g3, by rw [← hsz]; exact g4, g7 calls h4, ?_⟩
    · exact oob_same_static_trans g1 h1
    · intro hd
      rw [← hsz]
      exact (g5 hd).2.1
  · rw [oob_test_done env q hdone]
    simpa using h

/-- Every run of calls of `oob_allgather_test` keeps `oob_reachable`. -/
theorem oob_reachable_session (q0 : xccl_oob_allgather_req_t)
    (envs : List (Nat → torch_ucc_status_t)) :
    ∀ (q : xccl_oob_allgather_req_t) (calls : List p2p_call), oob_reachable q0 q calls →
      oob_reachable q0 (oob_session envs (q, calls)).1 (oob_session envs (q, calls)).2 := by
  induction envs with
  | nil => intro q calls h; simpa [oob_session] using h
  | cons env envs ih =>
    intro q calls h
    have := ih _ _ (oob_reachable_step env q0 q calls h)
    simpa [oob_session] using this

/-- A new request with a group of at least one rank is `oob_reachable`. -/
theorem oob_reachable_new (sbuf rbuf : List Nat) (msglen : Nat) (my_rank : Int)
    (range : xccl_ep_range_t) (oob_coll_ctx : torch_ucx_comm_t)
    (hsize : 1 ≤ oob_size (oob_new_req sbuf rbuf msglen my_rank range oob_coll_ctx)) :
    oob_reachable (oob_new_req sbuf rbuf msglen my_rank range oob_coll_ctx)
      (oob_new_req sbuf rbuf msglen my_rank range oob_coll_ctx) [] := by
  refine ⟨rfl, le_refl _, ?_, ?_, ?_⟩
  · show (0 : Int) ≤ _
    omega
  · simp [oob_expected_posts, oob_posted_upto, oob_new_req]
  · intro h
    exact absurd rfl h

/-- The pairs of `n` iterations are `2 * n` operations. -/
theorem oob_posted_upto_length (rank size sendto recvfrom : Int) (rbuf : List Nat)
    (msglen n : Nat) :
    (oob_posted_upto rank size sendto recvfrom rbuf msglen n).length = 2 * n := by
  induction n with
  | zero => simp [oob_posted_upto]
  | succ n ih =>
    unfold oob_posted_upto at ih ⊢
    rw [List.range_succ, List.flatMap_append, List.length_append, ih]
    simp [oob_step_calls]
    omega

/-- A group of one rank: the start call makes the local copy, tests zero outstanding
operations and is done. -/
theorem oob_allgather_single (env : Nat → torch_ucc_status_t) (sbuf rbuf : List Nat)
    (msglen : Nat) (my_rank : Int) (range : xccl_ep_range_t) (oob_coll_ctx : torch_ucx_comm_t)
    (h1 : oob_size (oob_new_req sbuf rbuf msglen my_rank range oob_coll_ctx) = 1) :
    oob_allgather env sbuf rbuf msglen my_rank range oob_coll_ctx =
      { st := XCCL_OK
        req := { oob_new_req sbuf rbuf msglen my_rank range oob_coll_ctx with
                 rbuf := writeAt rbuf
                   (oob_rank (oob_new_req sbuf rbuf msglen my_rank range oob_coll_ctx) *
                     (msglen : Int)).toNat (sbuf.take msglen)
                 done := 1 }
        tests := 1
        calls := [p2p_call.req_test 0] } := by
  have hd0 : (oob_new_req sbuf rbuf msglen my_rank range oob_coll_ctx).done = 0 := rfl
  have hcopy : oob_local_copy (oob_new_req sbuf rbuf msglen my_rank range oob_coll_ctx) =
      { oob_new_req sbuf rbuf msglen my_rank range oob_coll_ctx with
        rbuf := writeAt rbuf
          (oob_rank (oob_new_req sbuf rbuf msglen my_rank range oob_coll_ctx) *
            (msglen : Int)).toNat (sbuf.take msglen) } := by
    unfold oob_local_copy
    rw [if_pos (by rfl)]
    rfl
  unfold oob_allgather oob_allgather_test
  simp only [hd0, ne_eq, not_true_eq_false, if_false, h1, hcopy]
  rw [oob_loop_exit env _ _ _ _ _ _ (by simp [oob_new_req])]
  simp [oob_after_loop, oob_test_outstanding, torch_ucx_req_test, oob_new_req]

/-- C5: bootstrap completion. Take a request created by `oob_allgather` for a group of
`size >= 1`, any run of calls on it (the start call first) with any answers of the
transport test, and one more call. The iteration counter is never negative, does not
decrease in the call and does not pass `size - 1`. If `done` is set after the call,
then `iter = size - 1` and the sends and receives of all the calls together are the
pairs of iterations `0 .. size-2`, each once, `2 * (size - 1)` operations. If `done`
was set before the call, the call returns `XCCL_OK`, makes no call into the transport
and leaves the request as it was. For `size = 1` the start call returns `XCCL_OK` with
`done` set, after the local copy alone and with no send and no receive. -/
theorem oob_completion (sbuf rbuf : List Nat) (msglen : Nat) (my_rank : Int)
    (range : xccl_ep_range_t) (oob_coll_ctx : torch_ucx_comm_t)
    (envs : List (Nat → torch_ucc_status_t)) (env : Nat → torch_ucc_status_t)
    (hsize : 1 ≤ oob_size (oob_new_req sbuf rbuf msglen my_rank range oob_coll_ctx)) :
    let q0 := oob_new_req sbuf rbuf msglen my_rank range oob_coll_ctx
    let before := oob_session envs (q0, [])
    let r := oob_allgather_test env before.1
    0 ≤ before.1.iter ∧ before.1.iter ≤ r.req.iter ∧ r.req.iter ≤ oob_size q0 - 1 ∧
    (r.req.done ≠ 0 →
      r.req.iter = oob_size q0 - 1 ∧
      (before.2 ++ r.calls).filter p2p_call.is_post =
        oob_posted_upto (oob_rank q0) (oob_size q0) (oob_sendto q0) (oob_recvfrom q0)
          r.req.rbuf msglen (oob_size q0 - 1).toNat ∧
      ((before.2 ++ r.calls).filter p2p_call.is_post).length =
        2 * (oob_size q0 - 1).toNat) ∧
    (before.1.done ≠ 0 → r.st = XCCL_OK ∧ r.calls = [] ∧ r.tests = 0 ∧ r.req = before.1) ∧
    (oob_size q0 = 1 →
      (oob_allgather env sbuf rbuf msglen my_rank range oob_coll_ctx).st = XCCL_OK ∧
      (oob_allgather env sbuf rbuf msglen my_rank range oob_coll_ctx).req.done = 1 ∧
      (oob_allgather env sbuf rbuf msglen my_rank range oob_coll_ctx).req.iter = 0 ∧
      (oob_allgather env sbuf rbuf msglen my_rank range oob_coll_ctx).req.rbuf =
        writeAt rbuf (oob_rank q0 * (msglen : Int)).toNat (sbuf.take msglen) ∧
      (oob_allgather env sbuf rbuf msglen my_rank range oob_coll_ctx).calls.filter
        p2p_call.is_post = []) := by
  intro q0 before r
  have hb : oob_reachable q0 before.1 before.2 :=
    oob_reachable_session q0 envs q0 [] (oob_reachable_new _ _ _ _ _ _ hsize)
  have hr : oob_reachable q0 r.req (before.2 ++ r.calls) :=
    oob_reachable_step env q0 before.1 before.2 hb
  obtain ⟨b1, b2, b3, _, _⟩ := hb
  obtain ⟨r1, _, r3, r4, r5⟩ := hr
  have hmono : before.1.iter ≤ r.req.iter := by
    by_cases hdone : before.1.done = 0
    · have hsz : oob_size before.1 = oob_size q0 := by rw [b1]; rfl
      exact (oob_test_call_spec env before.1 hdone b2 (by rw [hsz]; exact b3)).2.2.1
    · show before.1.iter ≤ (oob_allgather_test env before.1).req.iter
      rw [oob_test_done env _ hdone]
  refine ⟨b2, hmono, r3, ?_, ?_, ?_⟩
  · intro hd
    have hexp : oob_expected_posts r.req =
        oob_posted_upto (oob_rank q0) (oob_size q0) (oob_sendto q0) (oob_recvfrom q0)
          r.req.rbuf msglen (oob_size q0 - 1).toNat := by
      have e1 : oob_rank r.req = oob_rank q0 := by rw [r1]; rfl
      have e2 : oob_size r.req = oob_size q0 := by rw [r1]; rfl
      have e3 : oob_sendto r.req = oob_sendto q0 := by rw [r1]; rfl
      have e4 : oob_recvfrom r.req = oob_recvfrom q0 := by rw [r1]; rfl
      have e5 : r.req.msglen = msglen := by rw [r1]; rfl
      simp only [oob_expected_posts, e1, e2, e3, e4, e5, r5 hd]
    refine ⟨r5 hd, by rw [r4, hexp], ?_⟩
    rw [r4, hexp, oob_posted_upto_length]
  · intro hd
    show (oob_allgather_test env before.1).st = XCCL_OK ∧
      (oob_allgather_test env before.1).calls = [] ∧
      (oob_allgather_test env before.1).tests = 0 ∧
      (oob_allgather_test env before.1).req = before.1
    rw [oob_test_done env _ hd]
    exact ⟨rfl, rfl, rfl, rfl⟩
  · intro h1
    rw [oob_allgather_single env sbuf rbuf msglen my_rank range oob_coll_ctx h1]
    exact ⟨rfl, rfl, rfl, rfl, rfl⟩

/-! ## Memory -/

/-- Storing inside a buffer keeps its length. -/
theorem writeAt_length (buf : List Nat) (off : Nat) (data : List Nat)
    (h : off + data.length ≤ buf.length) : (writeAt buf off data).length = buf.length := by
  simp only [writeAt, List.length_append, List.length_take, List.length_drop]
  omega

/-- Reading inside a buffer gives as many elements as asked for. -/
theorem readAt_length (buf : List Nat) (off len : Nat) (h : off + len ≤ buf.length) :
    (readAt buf off len).length = len := by
  simp only [readAt, List.length_take, List.length_drop]
  omega

/-- Reading back what was stored. -/
theorem readAt_writeAt_same (buf : List Nat) (off : Nat) (data : List Nat)
    (h : off + data.length ≤ buf.length) :
    readAt (writeAt buf off data) off data.length = data := by
  have h1 : (buf.take off).length = off := by simp; omega
  simp only [readAt, writeAt, List.append_assoc]
  rw [List.drop_append_of_le_length (by omega), List.drop_of_length_le (by omega)]
  simp

/-- Storing leaves every range that it does not touch as it was. -/
theorem readAt_writeAt_other (buf : List Nat) (off : Nat) (data : List Nat) (off2 len : Nat)
    (h : off + data.length ≤ buf.length)
    (hd : off2 + len ≤ off ∨ off + data.length ≤ off2) :
    readAt (writeAt buf off data) off2 len = readAt buf off2 len := by
  apply List.ext_getElem?
  intro k
  simp only [readAt, writeAt, List.getElem?_take, List.getElem?_drop, List.getElem?_append,
    List.length_take, List.length_append]
  by_cases hk : k < len
  · simp only [hk, if_true]
    rcases hd with hd | hd
    · have h1 : off2 + k < min off buf.length + data.length := by omega
      have h2 : off2 + k < min off buf.length := by omega
      have h3 : off2 + k < off := by omega
      simp [h1, h2, h3]
    · have h1 : ¬ off2 + k < min off buf.length + data.length := by omega
      have h2 : ¬ off2 + k < min off buf.length := by omega
      simp only [h1, h2, if_false]
      congr 1
      omega
  · simp [hk]

/-- A buffer of `N` blocks of `m` elements is the concatenation of its blocks. -/
theorem blocks_eq (block : Nat → List Nat) (m : Nat) :
    ∀ (N : Nat) (buf : List Nat), buf.length = N * m →
      (∀ i < N, readAt buf (i * m) m = block i) → buf = (List.range N).flatMap block := by
  intro N
  induction N with
  | zero =>
    intro buf hl _
    simp at hl
    simp [hl]
  | succ N ih =>
    intro buf hl hb
    rw [List.range_succ, List.flatMap_append]
    have h1 : buf.take (N * m) = (List.range N).flatMap block := by
      apply ih
      · simp [hl]; nlinarith
      · intro i hi
        rw [← hb i (by omega)]
        simp only [readAt]
        rw [List.drop_take, List.take_take]
        congr 1
        have : (i + 1) * m ≤ N * m := Nat.mul_le_mul_right m hi
        have : (i + 1) * m = i * m + m := by ring
        omega
    have h2 : buf.drop (N * m) = block N := by
      rw [← hb N (by omega)]
      simp only [readAt]
      rw [List.take_of_length_le]
      simp [hl]
      have : (N + 1) * m = N * m + m := by ring
      omega
    conv_lhs => rw [← List.take_append_drop (N * m) buf]
    rw [h1, h2]
    simp

/-! ## The bootstrap allgather: the calls that advance -/

/-- The first pass of the loop (no test before the post), with iterations left. -/
theorem oob_loop_first (env : Nat → torch_ucc_status_t) (rank size sendto recvfrom : Int)
    (s : oob_run) (hlt : s.req.iter < size - 1) (h0 : ¬ s.req.iter > 0) :
    oob_allgather_loop env rank size sendto recvfrom (size - 1 - s.req.iter).toNat s =
      oob_allgather_loop env rank size sendto recvfrom (size - 1 - (s.req.iter + 1)).toNat
        { req := { s.req with iter := s.req.iter + 1
                              num_active_reqs := s.req.num_active_reqs + 2 }
          tests := s.tests
          calls := s.calls ++
            oob_step_calls rank size sendto recvfrom s.req.rbuf s.req.msglen s.req.iter } := by
  obtain ⟨n, hn⟩ : ∃ n, (size - 1 - s.req.iter).toNat = n + 1 :=
    ⟨(size - 1 - s.req.iter).toNat - 1, by omega⟩
  have hn' : (size - 1 - (s.req.iter + 1)).toNat = n := by omega
  rw [hn, hn', oob_allgather_loop]
  simp only [hlt, h0, if_true, if_false]
  rfl

/-- A later pass of the loop whose test finds the outstanding operations complete,
with iterations left. -/
theorem oob_loop_next (env : Nat → torch_ucc_status_t) (rank size sendto recvfrom : Int)
    (s : oob_run) (hlt : s.req.iter < size - 1) (h0 : s.req.iter > 0)
    (hst : torch_ucx_req_test (env s.tests) s.req.num_active_reqs ≠ TORCH_UCC_INPROGRESS) :
    oob_allgather_loop env rank size sendto recvfrom (size - 1 - s.req.iter).toNat s =
      oob_allgather_loop env rank size sendto recvfrom (size - 1 - (s.req.iter + 1)).toNat
        { req := { s.req with iter := s.req.iter + 1, num_active_reqs := 0 + 2 }
          tests := s.tests + 1
          calls := s.calls ++ [p2p_call.req_test s.req.num_active_reqs] ++
            oob_step_calls rank size sendto recvfrom s.req.rbuf s.req.msglen s.req.iter } := by
  obtain ⟨n, hn⟩ : ∃ n, (size - 1 - s.req.iter).toNat = n + 1 :=
    ⟨(size - 1 - s.req.iter).toNat - 1, by omega⟩
  have hn' : (size - 1 - (s.req.iter + 1)).toNat = n := by omega
  rw [hn, hn', oob_allgather_loop]
  simp only [hlt, h0, if_true, oob_test_outstanding, hst, if_false]
  rfl

/-- After a post, the rest of the call when the transport answers in-progress for the
two operations just posted: the call returns `XCCL_INPROGRESS` after one more test,
whether the loop has iterations left or not. -/
theorem oob_rest_busy (env : Nat → torch_ucc_status_t) (rank size sendto recvfrom : Int)
    (s : oob_run) (hpos : 0 < s.req.iter)
    (hst : torch_ucx_req_test (env s.tests) s.req.num_active_reqs = TORCH_UCC_INPROGRESS) :
    oob_after_loop env
      (oob_allgather_loop env rank size sendto recvfrom (size - 1 - s.req.iter).toNat s) =
      { st := XCCL_INPROGRESS, req := s.req, tests := s.tests + 1
        calls := s.calls ++ [p2p_call.req_test s.req.num_active_reqs] } := by
  by_cases hlt : s.req.iter < size - 1
  · rw [oob_loop_busy env _ _ _ _ s hlt hpos hst]
    rfl
  · rw [oob_loop_exit env _ _ _ _ _ s hlt]
    simp [oob_after_loop, oob_test_outstanding, hst]

/-- The start call in a group of more than one rank, when the transport answers
in-progress for the two operations just posted: the local copy is made, the pair of
iteration `0` is posted, `iter` is `1`, and the call returns `XCCL_INPROGRESS`. -/
theorem oob_test_start (env : Nat → torch_ucc_status_t) (q : xccl_oob_allgather_req_t)
    (hdone : q.done = 0) (h0 : q.iter = 0) (hnum : q.num_active_reqs = 0)
    (hlt : 0 < oob_size q - 1) (hbusy : env 0 = TORCH_UCC_INPROGRESS) :
    oob_allgather_test env q =
      { st := XCCL_INPROGRESS
        req := { oob_local_copy q with iter := 1, num_active_reqs := 2 }
        tests := 1
        calls := oob_step_calls (oob_rank q) (oob_size q) (oob_sendto q) (oob_recvfrom q)
          (oob_local_copy q).rbuf q.msglen 0 ++ [p2p_call.req_test 2] } := by
  have hi : (oob_local_copy q).iter = 0 := by unfold oob_local_copy; simp [h0]
  have hn : (oob_local_copy q).num_active_reqs = 0 := by unfold oob_local_copy; simp [h0, hnum]
  have hm : (oob_local_copy q).msglen = q.msglen := by unfold oob_local_copy; simp [h0]
  unfold oob_allgather_test
  simp only [hdone, ne_eq, not_true_eq_false, if_false]
  rw [oob_loop_first env _ _ _ _ { req := oob_local_copy q, tests := 0, calls := [] }
    (by show (oob_local_copy q).iter < oob_size q - 1; omega)
    (by show ¬ (oob_local_copy q).iter > 0; omega)]
  refine Eq.trans (oob_rest_busy env _ _ _ _
    { req := { oob_local_copy q with iter := (oob_local_copy q).iter + 1
                                     num_active_reqs := (oob_local_copy q).num_active_reqs + 2 }
      tests := 0
      calls := [] ++ oob_step_calls (oob_rank q) (oob_size q) (oob_sendto q) (oob_recvfrom q)
        (oob_local_copy q).rbuf (oob_local_copy q).msglen (oob_local_copy q).iter }
    (by show 0 < (oob_local_copy q).iter + 1; omega)
    (by simp [torch_ucx_req_test, hn, hbusy])) ?_
  simp [hi, hn, hm]

/-- A later call that finds the outstanding operations complete and has iterations
left, when the transport answers in-progress for the two operations it posts: the pair
of iteration `iter` is posted, `iter` grows by one, and the call returns
`XCCL_INPROGRESS`. -/
theorem oob_test_advance (env : Nat → torch_ucc_status_t) (q : xccl_oob_allgather_req_t)
    (hdone : q.done = 0) (h1 : 1 ≤ q.iter) (hlt : q.iter < oob_size q - 1)
    (hok : torch_ucx_req_test (env 0) q.num_active_reqs ≠ TORCH_UCC_INPROGRESS)
    (hbusy : env 1 = TORCH_UCC_INPROGRESS) :
    oob_allgather_test env q =
      { st := XCCL_INPROGRESS
        req := { q with iter := q.iter + 1, num_active_reqs := 2 }
        tests := 2
        calls := [p2p_call.req_test q.num_active_reqs] ++
          oob_step_calls (oob_rank q) (oob_size q) (oob_sendto q) (oob_recvfrom q)
            q.rbuf q.msglen q.iter ++ [p2p_call.req_test 2] } := by
  have hc : oob_local_copy q = q := by unfold oob_local_copy; rw [if_neg (by omega)]
  unfold oob_allgather_test
  simp only [hdone, ne_eq, not_true_eq_false, if_false, hc]
  rw [oob_loop_next env _ _ _ _ { req := q, tests := 0, calls := [] } hlt
    (by show q.iter > 0; omega) hok]
  refine Eq.trans (oob_rest_busy env _ _ _ _
    { req := { q with iter := q.iter + 1, num_active_reqs := 0 + 2 }
      tests := 0 + 1
      calls := [] ++ [p2p_call.req_test q.num_active_reqs] ++
        oob_step_calls (oob_rank q) (oob_size q) (oob_sendto q) (oob_recvfrom q)
          q.rbuf q.msglen q.iter }
    (by show 0 < q.iter + 1; omega)
    (by simp [torch_ucx_req_test, hbusy])) ?_
  simp [hdone]

/-- A later call at `iter = size - 1` that finds the outstanding operations complete:
the request is done and the call returns `XCCL_OK`. -/
theorem oob_test_finish (env : Nat → torch_ucc_status_t) (q : xccl_oob_allgather_req_t)
    (hdone : q.done = 0) (h1 : 1 ≤ q.iter) (hge : ¬ q.iter < oob_size q - 1)
    (hok : torch_ucx_req_test (env 0) q.num_active_reqs ≠ TORCH_UCC_INPROGRESS) :
    oob_allgather_test env q =
      { st := XCCL_OK, req := { q with done := 1 }, tests := 1
        calls := [p2p_call.req_test q.num_active_reqs] } := by
  have hc : oob_local_copy q = q := by unfold oob_local_copy; rw [if_neg (by omega)]
  unfold oob_allgather_test
  simp only [hdone, ne_eq, not_true_eq_false, if_false, hc]
  rw [oob_loop_exit env _ _ _ _ _ { req := q, tests := 0, calls := [] } hge]
  simp [oob_after_loop, oob_test_outstanding, hok]

/-! ## A group of ranks: arithmetic of the ring -/

/-- The block `j` places before `r`, without the remainder. -/
theorem ring_back_eq (N r j : Nat) (hr : r < N) (hj : j ≤ N) :
    ring_back N r j = if j ≤ r then r - j else r + N - j := by
  unfold ring_back
  split
  · rename_i h
    have : r + N - j = (r - j) + N := by omega
    rw [this, Nat.add_mod_right, Nat.mod_eq_of_lt (by omega)]
  · rename_i h
    rw [Nat.mod_eq_of_lt (by omega)]

/-- The block index of a send, as the code computes it. -/
theorem tmod_send (N r j : Nat) (hN : 0 < N) (hj : j ≤ N) :
    Int.tmod ((r : Int) - (j : Int) + (N : Int)) (N : Int) = ((ring_back N r j : Nat) : Int) := by
  have h1 : (r : Int) - (j : Int) + (N : Int) = ((r + N - j : Nat) : Int) := by omega
  rw [h1, Int.tmod_eq_emod (by omega) (by omega)]
  unfold ring_back
  exact (Int.natCast_mod _ _).symm

/-- The block index of a receive, as the code computes it. -/
theorem tmod_recv (N r j : Nat) (hN : 0 < N) (hj : j + 1 ≤ N) :
    Int.tmod ((r : Int) - (j : Int) - 1 + (N : Int)) (N : Int) =
      ((ring_back N r (j + 1) : Nat) : Int) := by
  have h1 : (r : Int) - (j : Int) - 1 + (N : Int) = ((r + N - (j + 1) : Nat) : Int) := by omega
  rw [h1, Int.tmod_eq_emod (by omega) (by omega)]
  unfold ring_back
  exact (Int.natCast_mod _ _).symm

/-- The neighbour to send to, as the code computes it. -/
theorem tmod_sendto (N r : Nat) :
    Int.tmod ((r : Int) + 1) (N : Int) = (((r + 1) % N : Nat) : Int) := by
  have h1 : (r : Int) + 1 = ((r + 1 : Nat) : Int) := by omega
  rw [h1, Int.tmod_eq_emod (by omega) (by omega)]
  exact (Int.natCast_mod _ _).symm

/-- The neighbour to receive from, as the code computes it. -/
theorem tmod_recvfrom (N r : Nat) (hN : 0 < N) :
    Int.tmod ((r : Int) - 1 + (N : Int)) (N : Int) = (((r + N - 1) % N : Nat) : Int) := by
  have h1 : (r : Int) - 1 + (N : Int) = ((r + N - 1 : Nat) : Int) := by omega
  rw [h1, Int.tmod_eq_emod (by omega) (by omega)]
  exact (Int.natCast_mod _ _).symm

/-- The pair of iteration `j` of rank `r` in a group of `N`, in natural numbers. -/
theorem ring_step_calls (N r j : Nat) (hN : 0 < N) (hj : j + 1 ≤ N) (sendto recvfrom : Int)
    (rbuf : List Nat) (m : Nat) :
    oob_step_calls (r : Int) (N : Int) sendto recvfrom rbuf m (j : Int) =
      [p2p_call.send_nb ((ring_back N r j * m : Nat) : Int)
         (readAt rbuf (ring_back N r j * m) m) m sendto ucp_tag.TORCH_UCX_OOB_TAG,
       p2p_call.recv_nb ((ring_back N r (j + 1) * m : Nat) : Int) m recvfrom
         ucp_tag.TORCH_UCX_OOB_TAG] := by
  unfold oob_step_calls
  rw [tmod_send N r j hN (by omega), tmod_recv N r j hN hj]
  have h1 : ((ring_back N r j : Nat) : Int) * (m : Int) = ((ring_back N r j * m : Nat) : Int) := by
    push_cast; rfl
  have h2 : ((ring_back N r (j + 1) : Nat) : Int) * (m : Int) =
      ((ring_back N r (j + 1) * m : Nat) : Int) := by
    push_cast; rfl
  rw [h1, h2, Int.toNat_natCast]

/-- The request of a rank of the group: its rank, size and neighbours. -/
theorem ring_req_params (N r : Nat) (hN : 0 < N) (q : xccl_oob_allgather_req_t)
    (hu : q.range.undefined = true)
    (hc : q.oob_coll_ctx = { rank := (r : Int), size := (N : Int) }) :
    oob_rank q = (r : Int) ∧ oob_size q = (N : Int) ∧
    oob_sendto q = (((r + 1) % N : Nat) : Int) ∧
    oob_recvfrom q = (((r + N - 1) % N : Nat) : Int) := by
  have h1 : oob_rank q = (r : Int) := by simp [oob_rank, hu, hc]
  have h2 : oob_size q = (N : Int) := by simp [oob_size, hu, hc]
  refine ⟨h1, h2, ?_, ?_⟩
  · simp only [oob_sendto, h1, h2, hu, not_true_eq_false, if_false]
    exact tmod_sendto N r
  · simp only [oob_recvfrom, h1, h2, hu, not_true_eq_false, if_false]
    exact tmod_recvfrom N r hN

/-! ## A group of ranks: a poll keeps what holds of the rank -/

/-- Before a rank has started, the transport has nothing to report to it. -/
theorem ring_env_idle (rs : rank_state) (ready : Bool) (h : rs.req = none) (k : Nat) :
    ring_env rs ready k = TORCH_UCC_INPROGRESS := by
  simp [ring_env, h]

/-- The answer to a test of the call that is not the first is in-progress. -/
theorem ring_env_later (rs : rank_state) (ready : Bool) (k : Nat) (hk : k ≠ 0) :
    ring_env rs ready k = TORCH_UCC_INPROGRESS := by
  simp [ring_env, hk]

/-- The start call of rank `r` keeps `rank_ok`. -/
theorem rank_poll_start_ok (cfg : ring_setup) (hwf : cfg.wf) (r : Nat) (hr : r < cfg.N)
    (ready : Bool) (rs : rank_state) (hnone : rs.req = none) (h : rank_ok cfg r rs) :
    rank_ok cfg r (rank_poll cfg r ready rs) := by
  obtain ⟨hN, hblk, hbuf⟩ := hwf
  simp only [rank_ok, hnone] at h
  obtain ⟨hs, hrc, hd⟩ := h
  have hb := hblk r hr
  have hrb := hbuf r hr
  have hfit : r * cfg.msglen + (cfg.block r).length ≤ (cfg.rbuf0 r).length := by
    rw [hb, hrb]
    have : (r + 1) * cfg.msglen ≤ cfg.N * cfg.msglen := Nat.mul_le_mul_right _ hr
    have : (r + 1) * cfg.msglen = r * cfg.msglen + cfg.msglen := by ring
    omega
  have htake : (cfg.block r).take cfg.msglen = cfg.block r := by
    rw [← hb]; exact List.take_length _
  set q0 := oob_new_req (cfg.block r) (cfg.rbuf0 r) cfg.msglen (r : Int) range_undefined
    { rank := (r : Int), size := (cfg.N : Int) } with hq0
  obtain ⟨p1, p2, p3, p4⟩ := ring_req_params cfg.N r hN q0 rfl rfl
  have hback0 : ring_back cfg.N r 0 = r := by
    rw [ring_back_eq cfg.N r 0 hr (by omega)]; simp
  have hcopy_rbuf : (oob_local_copy q0).rbuf = writeAt (cfg.rbuf0 r) (r * cfg.msglen) (cfg.block r) := by
    unfold oob_local_copy
    rw [if_pos (by rfl)]
    show writeAt (cfg.rbuf0 r) (oob_rank q0 * (cfg.msglen : Int)).toNat
      ((cfg.block r).take cfg.msglen) = _
    rw [p1, htake]
    congr 1
  have hread : readAt (writeAt (cfg.rbuf0 r) (r * cfg.msglen) (cfg.block r))
      (r * cfg.msglen) cfg.msglen = cfg.block r := by
    have := readAt_writeAt_same (cfg.rbuf0 r) (r * cfg.msglen) (cfg.block r) hfit
    rwa [hb] at this
  have hlen : (writeAt (cfg.rbuf0 r) (r * cfg.msglen) (cfg.block r)).length =
      cfg.N * cfg.msglen := by
    rw [writeAt_length _ _ _ hfit, hrb]
  have hpoll : rank_poll cfg r ready rs =
      { req := some (oob_allgather_test (ring_env rs ready) q0).req
        sent := sends_of (oob_allgather_test (ring_env rs ready) q0).calls
        recvs := recvs_of (oob_allgather_test (ring_env rs ready) q0).calls
        delivered := 0 } := by
    simp [rank_poll, hnone, hs, hrc, hd, oob_allgather, hq0]
  rw [hpoll]
  by_cases h1 : cfg.N = 1
  · have hr0 : r = 0 := by omega
    have hsingle := oob_allgather_single (ring_env rs ready) (cfg.block r) (cfg.rbuf0 r)
      cfg.msglen (r : Int) range_undefined { rank := (r : Int), size := (cfg.N : Int) }
      (by rw [← hq0, p2, h1]; rfl)
    unfold oob_allgather at hsingle
    rw [← hq0] at hsingle
    rw [hsingle]
    simp only [rank_ok]
    have hrbuf' : writeAt (cfg.rbuf0 r) (oob_rank q0 * (cfg.msglen : Int)).toNat
        ((cfg.block r).take cfg.msglen) =
        writeAt (cfg.rbuf0 r) (r * cfg.msglen) (cfg.block r) := by
      rw [p1, htake]
      congr 1
    refine
      { undefined := rfl, ctx := rfl, msglen := rfl, iter_nonneg := le_refl _
        iter_le := ?_, rbuf_length := ?_, sent := ?_, recvs := ?_
        delivered_le := ?_, outstanding := ?_, active := ?_, blocks := ?_
        started := ?_, finished := ?_ }
    · show (0 : Int) ≤ (cfg.N : Int) - 1
      omega
    · show (writeAt _ _ _).length = _
      rw [hrbuf', hlen]
    · simp [sends_of, hq0, oob_new_req]
    · simp [recvs_of, hq0, oob_new_req]
    · simp
    · simp [hq0, oob_new_req]
    · simp [hq0, oob_new_req]
    · intro j hj
      have hj' : j ≤ 0 := hj
      have hj0 : j = 0 := by omega
      subst hj0
      show readAt (writeAt _ _ _) _ _ = _
      rw [hrbuf', hback0, hread]
    · intro hdone
      exact absurd hdone (by simp)
    · intro _
      refine ⟨?_, ?_⟩
      · show (0 : Int) = (cfg.N : Int) - 1
        omega
      · simp [hq0, oob_new_req]
  · have hstart := oob_test_start (ring_env rs ready) q0 rfl rfl rfl
      (by rw [p2]; omega) (ring_env_idle rs ready hnone 0)
    rw [hstart, p1, p2, p3, p4]
    have hm : q0.msglen = cfg.msglen := rfl
    rw [hm]
    have hsc := ring_step_calls cfg.N r 0 hN (by omega)
      (((r + 1) % cfg.N : Nat) : Int) (((r + cfg.N - 1) % cfg.N : Nat) : Int)
      (oob_local_copy q0).rbuf cfg.msglen
    simp only [Nat.cast_zero] at hsc
    rw [hsc, hcopy_rbuf, hback0, hread]
    simp only [rank_ok]
    have hcu : (oob_local_copy q0).range.undefined = true := by
      unfold oob_local_copy; rw [if_pos (by rfl)]; rfl
    have hcc : (oob_local_copy q0).oob_coll_ctx = { rank := (r : Int), size := (cfg.N : Int) } := by
      unfold oob_local_copy; rw [if_pos (by rfl)]; rfl
    have hcm : (oob_local_copy q0).msglen = cfg.msglen := by
      unfold oob_local_copy; rw [if_pos (by rfl)]; rfl
    have hcd : (oob_local_copy q0).done = 0 := by
      unfold oob_local_copy; rw [if_pos (by rfl)]; rfl
    refine
      { undefined := hcu, ctx := hcc, msglen := hcm, iter_nonneg := by show (0 : Int) ≤ 1; omega
        iter_le := ?_, rbuf_length := ?_, sent := ?_, recvs := ?_
        delivered_le := ?_, outstanding := ?_, active := ?_, blocks := ?_
        started := ?_, finished := ?_ }
    · show (1 : Int) ≤ (cfg.N : Int) - 1
      omega
    · show (oob_local_copy q0).rbuf.length = _
      rw [hcopy_rbuf, hlen]
    · show _ = [ring_sent_at cfg r 0]
      simp only [ring_sent_at, hback0]
      rfl
    · show _ = [ring_recv_at cfg r 0]
      rfl
    · show (0 : Nat) ≤ (1 : Int).toNat
      omega
    · show (1 : Int).toNat ≤ 0 + 1
      omega
    · rfl
    · intro j hj
      have hj' : j ≤ 0 := hj
      have hj0 : j = 0 := by omega
      subst hj0
      show readAt (oob_local_copy q0).rbuf _ _ = _
      rw [hcopy_rbuf, hback0, hread]
    · intro _
      show (1 : Int) ≤ 1
      omega
    · intro hdone
      exact absurd hcd hdone

/-- A later call of rank `r` keeps `rank_ok`. -/
theorem rank_poll_later_ok (cfg : ring_setup) (hwf : cfg.wf) (r : Nat)
    (ready : Bool) (rs : rank_state) (q : xccl_oob_allgather_req_t) (hsome : rs.req = some q)
    (h : req_ok cfg r rs q) : rank_ok cfg r (rank_poll cfg r ready rs) := by
  obtain ⟨hN, _, _⟩ := hwf
  obtain ⟨p1, p2, p3, p4⟩ := ring_req_params cfg.N r hN q h.undefined h.ctx
  have hpoll : rank_poll cfg r ready rs =
      { req := some (oob_allgather_test (ring_env rs ready) q).req
        sent := rs.sent ++ sends_of (oob_allgather_test (ring_env rs ready) q).calls
        recvs := rs.recvs ++ recvs_of (oob_allgather_test (ring_env rs ready) q).calls
        delivered := rs.delivered } := by
    simp [rank_poll, hsome]
  rw [hpoll]
  by_cases hdone : q.done = 0
  · have hit : 1 ≤ q.iter := h.started hdone
    have hact : q.num_active_reqs = 2 := by
      rw [h.active, if_neg (by omega)]
    have hrl : rs.recvs.length = q.iter.toNat := by rw [h.recvs]; simp
    by_cases hok : ready = true ∧ rs.delivered = rs.recvs.length
    · have henv0 : ring_env rs ready 0 = TORCH_UCC_OK := by
        simp [ring_env, hok.1, hsome, hok.2]
      have htest : torch_ucx_req_test (ring_env rs ready 0) q.num_active_reqs ≠
          TORCH_UCC_INPROGRESS := by
        rw [henv0, hact]; simp [torch_ucx_req_test]
      have hdel : rs.delivered = q.iter.toNat := by rw [hok.2, hrl]
      by_cases hlt : q.iter < oob_size q - 1
      · have hadv := oob_test_advance (ring_env rs ready) q hdone hit hlt htest
          (ring_env_later rs ready 1 (by omega))
        rw [hadv, p1, p2, p3, p4, h.msglen]
        have hi : ((q.iter.toNat : Nat) : Int) = q.iter := by omega
        have hsc := ring_step_calls cfg.N r q.iter.toNat hN (by rw [p2] at hlt; omega)
          (((r + 1) % cfg.N : Nat) : Int) (((r + cfg.N - 1) % cfg.N : Nat) : Int)
          q.rbuf cfg.msglen
        rw [hi] at hsc
        rw [hsc, h.blocks q.iter.toNat (by omega)]
        have hn : (q.iter + 1).toNat = q.iter.toNat + 1 := by omega
        simp only [rank_ok]
        refine
          { undefined := h.undefined, ctx := h.ctx, msglen := rfl
            iter_nonneg := ?_, iter_le := ?_, rbuf_length := h.rbuf_length
            sent := ?_, recvs := ?_, delivered_le := ?_, outstanding := ?_, active := ?_
            blocks := h.blocks, started := ?_, finished := ?_ }
        · show 0 ≤ q.iter + 1
          omega
        · show q.iter + 1 ≤ (cfg.N : Int) - 1
          rw [p2] at hlt
          omega
        · show rs.sent ++ [ring_sent_at cfg r q.iter.toNat] =
            (List.range (q.iter + 1).toNat).map (ring_sent_at cfg r)
          rw [hn, List.range_succ, List.map_append, h.sent]
          rfl
        · show rs.recvs ++ [ring_recv_at cfg r q.iter.toNat] =
            (List.range (q.iter + 1).toNat).map (ring_recv_at cfg r)
          rw [hn, List.range_succ, List.map_append, h.recvs]
          rfl
        · show rs.delivered ≤ (q.iter + 1).toNat
          omega
        · show (q.iter + 1).toNat ≤ rs.delivered + 1
          omega
        · show (2 : Int) = if q.iter + 1 = 0 then 0 else 2
          rw [if_neg (by omega)]
        · intro _
          show 1 ≤ q.iter + 1
          omega
        · intro hd
          exact absurd hdone hd
      · have hfin := oob_test_finish (ring_env rs ready) q hdone hit hlt htest
        rw [hfin]
        simp only [rank_ok]
        refine
          { undefined := h.undefined, ctx := h.ctx, msglen := h.msglen
            iter_nonneg := h.iter_nonneg, iter_le := h.iter_le, rbuf_length := h.rbuf_length
            sent := ?_, recvs := ?_, delivered_le := h.delivered_le
            outstanding := h.outstanding, active := h.active
            blocks := h.blocks, started := ?_, finished := ?_ }
        · show rs.sent ++ sends_of [p2p_call.req_test q.num_active_reqs] = _
          simp [sends_of, h.sent]
        · show rs.recvs ++ recvs_of [p2p_call.req_test q.num_active_reqs] = _
          simp [recvs_of, h.recvs]
        · intro hd
          exact absurd hd (by show (1 : Int) ≠ 0; omega)
        · intro _
          refine ⟨?_, hdel⟩
          have := h.iter_le
          rw [p2] at hlt
          show q.iter = (cfg.N : Int) - 1
          omega
    · have henv0 : ring_env rs ready 0 = TORCH_UCC_INPROGRESS := by
        simp only [ring_env]
        rw [if_neg]
        intro hc
        exact hok ⟨hc.2.1, hc.2.2.2⟩
      have hbusy := oob_test_busy (ring_env rs ready) q hdone hit
        (by rw [henv0, hact]; simp [torch_ucx_req_test])
      obtain ⟨_, b2, b3, _⟩ := hbusy
      rw [b2, b3]
      simp only [rank_ok]
      exact
        { undefined := h.undefined, ctx := h.ctx, msglen := h.msglen
          iter_nonneg := h.iter_nonneg, iter_le := h.iter_le, rbuf_length := h.rbuf_length
          sent := by simp [sends_of, h.sent]
          recvs := by simp [recvs_of, h.recvs]
          delivered_le := h.delivered_le
          outstanding := h.outstanding, active := h.active
          blocks := h.blocks, started := h.started, finished := h.finished }
  · rw [oob_test_done _ q hdone]
    simp only [rank_ok]
    exact
      { undefined := h.undefined, ctx := h.ctx, msglen := h.msglen
        iter_nonneg := h.iter_nonneg, iter_le := h.iter_le, rbuf_length := h.rbuf_length
        sent := by simp [sends_of, h.sent]
        recvs := by simp [recvs_of, h.recvs]
        delivered_le := h.delivered_le
        outstanding := h.outstanding, active := h.active
        blocks := h.blocks, started := h.started, finished := h.finished }

/-- A poll of rank `r` keeps `rank_ok`. -/
theorem rank_poll_ok (cfg : ring_setup) (hwf : cfg.wf) (r : Nat) (hr : r < cfg.N)
    (ready : Bool) (rs : rank_state) (h : rank_ok cfg r rs) :
    rank_ok cfg r (rank_poll cfg r ready rs) := by
  cases hq : rs.req with
  | none => exact rank_poll_start_ok cfg hwf r hr ready rs hq h
  | some q =>
    have h' : req_ok cfg r rs q := by
      simp only [rank_ok, hq] at h
      exact h
    exact rank_poll_later_ok cfg hwf r ready rs q hq h'

/-! ## A group of ranks: a delivery keeps what holds of the rank -/

/-- The left neighbour of `r` sends to `r`. -/
theorem ring_left_sends_here (N r : Nat) (hr : r < N) : ((r + N - 1) % N + 1) % N = r := by
  have h : (r + N - 1) % N = ring_back N r 1 := rfl
  rw [h, ring_back_eq N r 1 hr (by omega)]
  split
  · rw [Nat.mod_eq_of_lt (by omega)]; omega
  · have : r + N - 1 + 1 = N := by omega
    rw [this, Nat.mod_self]; omega

/-- The left neighbour of `r` is a rank of the group. -/
theorem ring_back_lt (N r j : Nat) (hN : 0 < N) : ring_back N r j < N :=
  Nat.mod_lt _ hN

/-- The block that the left neighbour sends at iteration `d` is the block that `r`
receives at iteration `d`. -/
theorem ring_back_left (N r d : Nat) (hr : r < N) (hd : d + 1 ≤ N) :
    ring_back N ((r + N - 1) % N) d = ring_back N r (d + 1) := by
  have h : (r + N - 1) % N = ring_back N r 1 := rfl
  have hl : ring_back N r 1 < N := ring_back_lt N r 1 (by omega)
  rw [h, ring_back_eq N _ d hl (by omega), ring_back_eq N r (d + 1) hr hd]
  rw [ring_back_eq N r 1 hr (by omega)] at hl ⊢
  split_ifs <;> omega

/-- Blocks at different distances before `r` are different blocks. -/
theorem ring_back_ne (N r j d : Nat) (hr : r < N) (hj : j ≤ d) (hd : d + 1 < N) :
    ring_back N r j ≠ ring_back N r (d + 1) := by
  rw [ring_back_eq N r j hr (by omega), ring_back_eq N r (d + 1) hr (by omega)]
  split_ifs <;> omega

/-- Every block is some distance below `N` before `r`. -/
theorem ring_back_surj (N r i : Nat) (hr : r < N) (hi : i < N) :
    ∃ j, j ≤ N - 1 ∧ ring_back N r j = i := by
  by_cases h : i ≤ r
  · refine ⟨r - i, by omega, ?_⟩
    rw [ring_back_eq N r (r - i) hr (by omega)]
    split_ifs <;> omega
  · refine ⟨r + N - i, by omega, ?_⟩
    rw [ring_back_eq N r (r + N - i) hr (by omega)]
    split_ifs <;> omega

/-- A delivery to rank `r` keeps `rank_ok`. -/
theorem rank_deliver_ok (cfg : ring_setup) (hwf : cfg.wf) (w : ring_state)
    (hw : ring_ok cfg w) (r : Nat) (hr : r < cfg.N) :
    rank_ok cfg r (rank_deliver w r (rank_at w r)) := by
  obtain ⟨hN, hblk, _⟩ := hwf
  have h := hw.2 r hr
  cases hq : (rank_at w r).req with
  | none =>
    have : rank_deliver w r (rank_at w r) = rank_at w r := by simp [rank_deliver, hq]
    rw [this]; exact h
  | some q =>
    have h' : req_ok cfg r (rank_at w r) q := by
      simp only [rank_ok, hq] at h
      exact h
    cases hrc : (rank_at w r).recvs[(rank_at w r).delivered]? with
    | none =>
      have : rank_deliver w r (rank_at w r) = rank_at w r := by simp [rank_deliver, hq, hrc]
      rw [this]; exact h
    | some rc =>
      have hd : (rank_at w r).delivered < q.iter.toNat := by
        have := (List.getElem?_eq_some_iff.mp hrc).1
        rw [h'.recvs] at this
        simpa using this
      have hrceq : rc = ring_recv_at cfg r (rank_at w r).delivered := by
        rw [h'.recvs] at hrc
        simp only [List.getElem?_map, List.getElem?_range hd, Option.map_some',
          Option.some.injEq] at hrc
        exact hrc.symm
      have hiN : q.iter.toNat + 1 ≤ cfg.N := by
        have := h'.iter_le
        omega
      have hsrc : rc.src.toNat = (r + cfg.N - 1) % cfg.N := by
        rw [hrceq]
        show ((((r + cfg.N - 1) % cfg.N : Nat) : Int)).toNat = _
        exact Int.toNat_natCast _
      have hoff : rc.off.toNat =
          ring_back cfg.N r ((rank_at w r).delivered + 1) * cfg.msglen := by
        rw [hrceq]
        show (((ring_back cfg.N r ((rank_at w r).delivered + 1) * cfg.msglen : Nat) :
          Int)).toNat = _
        exact Int.toNat_natCast _
      have hlN : (r + cfg.N - 1) % cfg.N < cfg.N := Nat.mod_lt _ (by omega)
      have hl := hw.2 _ hlN
      cases hm : (((rank_at w rc.src.toNat).sent.filter
          (fun m => m.dest = (r : Int)))[(rank_at w r).delivered]?) with
      | none =>
        have : rank_deliver w r (rank_at w r) = rank_at w r := by
          simp [rank_deliver, hq, hrc, hm]
        rw [this]; exact h
      | some m =>
        have hpay : m.payload =
            cfg.block (ring_back cfg.N r ((rank_at w r).delivered + 1)) := by
          rw [hsrc] at hm
          cases hql : (rank_at w ((r + cfg.N - 1) % cfg.N)).req with
          | none =>
            simp only [rank_ok, hql] at hl
            rw [hl.1] at hm
            simp at hm
          | some ql =>
            simp only [rank_ok, hql] at hl
            have hall : (rank_at w ((r + cfg.N - 1) % cfg.N)).sent.filter
                (fun m => m.dest = (r : Int)) =
                (rank_at w ((r + cfg.N - 1) % cfg.N)).sent := by
              rw [List.filter_eq_self, hl.sent]
              intro x hx
              simp only [List.mem_map, List.mem_range] at hx
              obtain ⟨j, _, rfl⟩ := hx
              simp [ring_sent_at, ring_left_sends_here cfg.N r hr]
            rw [hall, hl.sent, List.getElem?_map] at hm
            cases hg : (List.range ql.iter.toNat)[(rank_at w r).delivered]? with
            | none => rw [hg] at hm; simp at hm
            | some j =>
              rw [hg] at hm
              simp only [Option.map_some', Option.some.injEq] at hm
              have hj : j = (rank_at w r).delivered := by
                have := List.getElem?_eq_some_iff.mp hg
                obtain ⟨hlt, he⟩ := this
                simp at he
                exact he.symm
              rw [← hm, hj]
              simp only [ring_sent_at]
              rw [ring_back_left cfg.N r _ hr (by omega)]
        set b := ring_back cfg.N r ((rank_at w r).delivered + 1) with hb
        have hbN : b < cfg.N := ring_back_lt _ _ _ (by omega)
        have hplen : m.payload.length = cfg.msglen := by rw [hpay]; exact hblk b hbN
        have hfit : b * cfg.msglen + m.payload.length ≤ q.rbuf.length := by
          rw [hplen, h'.rbuf_length]
          have : (b + 1) * cfg.msglen ≤ cfg.N * cfg.msglen := Nat.mul_le_mul_right _ hbN
          have : (b + 1) * cfg.msglen = b * cfg.msglen + cfg.msglen := by ring
          omega
        have hres : rank_deliver w r (rank_at w r) =
            { rank_at w r with
              req := some { q with rbuf := writeAt q.rbuf (b * cfg.msglen) m.payload }
              delivered := (rank_at w r).delivered + 1 } := by
          simp [rank_deliver, hq, hrc, hm, hoff]
        rw [hres]
        simp only [rank_ok]
        refine
          { undefined := h'.undefined, ctx := h'.ctx, msglen := h'.msglen
            iter_nonneg := h'.iter_nonneg, iter_le := h'.iter_le
            rbuf_length := ?_, sent := h'.sent, recvs := h'.recvs
            delivered_le := ?_, outstanding := ?_, active := h'.active
            blocks := ?_, started := h'.started, finished := ?_ }
        · show (writeAt q.rbuf (b * cfg.msglen) m.payload).length = _
          rw [writeAt_length _ _ _ hfit, h'.rbuf_length]
        · show (rank_at w r).delivered + 1 ≤ q.iter.toNat
          omega
        · show q.iter.toNat ≤ (rank_at w r).delivered + 1 + 1
          have := h'.outstanding
          omega
        · intro j hj
          have hj' : j ≤ (rank_at w r).delivered + 1 := hj
          show readAt (writeAt q.rbuf (b * cfg.msglen) m.payload) _ _ = _
          by_cases hjd : j = (rank_at w r).delivered + 1
          · rw [hjd, ← hb]
            have := readAt_writeAt_same q.rbuf (b * cfg.msglen) m.payload hfit
            rw [hplen] at this
            rw [this, hpay]
          · have hne : ring_back cfg.N r j ≠ b :=
              ring_back_ne cfg.N r j _ hr (by omega) (by omega)
            rw [readAt_writeAt_other _ _ _ _ _ hfit]
            · exact h'.blocks j (by omega)
            · rw [hplen]
              rcases Nat.lt_or_gt_of_ne hne with hlt | hgt
              · left
                have : (ring_back cfg.N r j + 1) * cfg.msglen ≤ b * cfg.msglen :=
                  Nat.mul_le_mul_right _ hlt
                have : (ring_back cfg.N r j + 1) * cfg.msglen =
                    ring_back cfg.N r j * cfg.msglen + cfg.msglen := by ring
                omega
              · right
                have : (b + 1) * cfg.msglen ≤ ring_back cfg.N r j * cfg.msglen :=
                  Nat.mul_le_mul_right _ hgt
                have : (b + 1) * cfg.msglen = b * cfg.msglen + cfg.msglen := by ring
                omega
        · intro hdn
          have := (h'.finished hdn).2
          omega

/-! ## A group of ranks: every state, and the end -/

/-- The state of a rank after the state of rank `r` is replaced. -/
theorem rank_at_set (w : ring_state) (r r' : Nat) (x : rank_state) :
    rank_at (w.set r x) r' = if r = r' ∧ r < w.length then x else rank_at w r' := by
  unfold rank_at
  rw [List.getElem?_set]
  by_cases h : r = r'
  · subst h
    by_cases hl : r < w.length
    · simp [hl]
    · simp [hl, List.getElem?_eq_none (show w.length ≤ r by omega)]
  · simp [h]

/-- At the start `ring_ok` holds. -/
theorem ring_init_ok (cfg : ring_setup) : ring_ok cfg (ring_init cfg) := by
  refine ⟨by simp [ring_init], ?_⟩
  intro r hr
  have : rank_at (ring_init cfg) r = rank_idle := by
    simp [rank_at, ring_init, List.getElem?_replicate, hr]
  rw [this]
  simp [rank_ok, rank_idle]

/-- Every event keeps `ring_ok`. -/
theorem ring_step_ok (cfg : ring_setup) (hwf : cfg.wf) (w : ring_state) (hw : ring_ok cfg w)
    (ev : ring_event) : ring_ok cfg (ring_step cfg w ev) := by
  cases ev with
  | poll r ready =>
    refine ⟨by simp [ring_step, hw.1], ?_⟩
    intro r' hr'
    simp only [ring_step, rank_at_set]
    split
    · rename_i h
      rw [← h.1]
      exact rank_poll_ok cfg hwf r (by rw [h.1]; exact hr') ready _ (hw.2 r (by rw [h.1]; exact hr'))
    · exact hw.2 r' hr'
  | deliver r =>
    refine ⟨by simp [ring_step, hw.1], ?_⟩
    intro r' hr'
    simp only [ring_step, rank_at_set]
    split
    · rename_i h
      rw [← h.1]
      exact rank_deliver_ok cfg hwf w hw r (by rw [h.1]; exact hr')
    · exact hw.2 r' hr'

/-- Every run keeps `ring_ok`. -/
theorem ring_run_ok (cfg : ring_setup) (hwf : cfg.wf) (evs : List ring_event) :
    ring_ok cfg (ring_run cfg evs) := by
  have key : ∀ (es : List ring_event) (w : ring_state), ring_ok cfg w →
      ring_ok cfg (es.foldl (ring_step cfg) w) := by
    intro es
    induction es with
    | nil => intro w hw; exact hw
    | cons e es ih => intro w hw; exact ih _ (ring_step_ok cfg hwf w hw e)
  exact key evs _ (ring_init_ok cfg)

/-- C1: bootstrap allgather correctness. In a group of `N >= 1` ranks with send buffers
of `msglen` bytes and receive buffers of `N * msglen` bytes, each rank calling
`oob_allgather` and then `oob_allgather_test`, in any order and with the data of the
receives arriving at any time, every run after which the request of every rank is done
leaves in the receive buffer of every rank the blocks of ranks `0 .. N-1`, one after
the other. -/
theorem oob_allgather_gathers (cfg : ring_setup) (evs : List ring_event)
    (hN : 1 ≤ cfg.N)
    (hblock : ∀ r, r < cfg.N → (cfg.block r).length = cfg.msglen)
    (hrbuf : ∀ r, r < cfg.N → (cfg.rbuf0 r).length = cfg.N * cfg.msglen)
    (hdone : ∀ r, r < cfg.N → ring_done (ring_run cfg evs) r = true) :
    ∀ r, r < cfg.N → ring_rbuf (ring_run cfg evs) r = some (ring_gathered cfg) := by
  intro r hr
  have hok := (ring_run_ok cfg ⟨hN, hblock, hrbuf⟩ evs).2 r hr
  have hd := hdone r hr
  unfold ring_done at hd
  unfold ring_rbuf
  cases hq : (rank_at (ring_run cfg evs) r).req with
  | none => rw [hq] at hd; simp at hd
  | some q =>
    rw [hq] at hd
    simp only [decide_eq_true_eq] at hd
    simp only [rank_ok, hq] at hok
    obtain ⟨hi, hdel⟩ := hok.finished hd
    simp only [Option.map_some', Option.some.injEq]
    unfold ring_gathered
    apply blocks_eq cfg.block cfg.msglen cfg.N q.rbuf hok.rbuf_length
    intro i hiN
    obtain ⟨j, hj, hji⟩ := ring_back_surj cfg.N r i hr hiN
    have := hok.blocks j (by rw [hdel, hi]; omega)
    rw [hji] at this
    exact this

/-- C1 at four ranks with the eight-byte blocks `A`, `B`, `C`, `D`: after the run every
rank is done and holds `A`, `B`, `C`, `D` one after the other. -/
theorem oob_allgather_gathers_witness :
    (∀ r, r < ring_four.N → ring_done (ring_run ring_four ring_four_run) r = true) ∧
    ∀ r, r < ring_four.N → ring_rbuf (ring_run ring_four ring_four_run) r =
      some (List.replicate 8 65 ++ List.replicate 8 66 ++ List.replicate 8 67 ++
        List.replicate 8 68) :=
  ⟨by decide,
   oob_allgather_gathers ring_four ring_four_run (by decide) (by decide) (by decide)
     (by decide)⟩

/-! ## The fuel of the loop -/

/-- The loop of `oob_allgather_test` needs `size - 1 - iter` units of fuel and no more:
with any larger amount the result is the same. -/
theorem oob_allgather_loop_fuel (env : Nat → torch_ucc_status_t)
    (rank size sendto recvfrom : Int) :
    ∀ (fuel : Nat) (s : oob_run), (size - 1 - s.req.iter).toNat ≤ fuel →
      oob_allgather_loop env rank size sendto recvfrom fuel s =
        oob_allgather_loop env rank size sendto recvfrom (size - 1 - s.req.iter).toNat s := by
  intro fuel
  induction fuel with
  | zero =>
    intro s h
    have : (size - 1 - s.req.iter).toNat = 0 := by omega
    rw [this]
  | succ n ih =>
    intro s h
    by_cases hlt : s.req.iter < size - 1
    · by_cases hpos : s.req.iter > 0
      · by_cases hst : torch_ucx_req_test (env s.tests) s.req.num_active_reqs =
            TORCH_UCC_INPROGRESS
        · rw [oob_loop_busy env _ _ _ _ s hlt hpos hst, oob_allgather_loop]
          simp [hlt, hpos, oob_test_outstanding, hst]
        · rw [oob_loop_next env _ _ _ _ s hlt hpos hst, oob_allgather_loop]
          simp only [hlt, hpos, if_true, oob_test_outstanding, hst, if_false]
          exact ih _ (by show (size - 1 - (s.req.iter + 1)).toNat ≤ n; omega)
      · rw [oob_loop_first env _ _ _ _ s hlt hpos, oob_allgather_loop]
        simp only [hlt, hpos, if_true, if_false]
        exact ih _ (by show (size - 1 - (s.req.iter + 1)).toNat ≤ n; omega)
    · rw [oob_loop_exit env _ _ _ _ _ s hlt, oob_loop_exit env _ _ _ _ _ s hlt]

/-! ## The bootstrap allgather at concrete requests -/

/-- C4 at rank 1 of four, waiting for the pair of iteration `0`: three polls that find
the transport busy leave the request as it was and add three tests to the trace. -/
theorem oob_poll_incomplete_idempotent_witness :
    req_waiting.done = 0 ∧ 1 ≤ req_waiting.iter ∧
    (∀ env ∈ [env_busy, env_busy, env_busy],
      torch_ucx_req_test (env 0) req_waiting.num_active_reqs = TORCH_UCC_INPROGRESS) ∧
    oob_session [env_busy, env_busy, env_busy] (req_waiting, []) =
      (req_waiting, [p2p_call.req_test 2, p2p_call.req_test 2, p2p_call.req_test 2]) :=
  have h : ∀ env ∈ [env_busy, env_busy, env_busy],
      torch_ucx_req_test (env 0) req_waiting.num_active_reqs = TORCH_UCC_INPROGRESS := by
    intro env he
    simp only [List.mem_cons, List.mem_singleton, List.mem_nil_iff, or_false, or_self] at he
    rw [he]
    rfl
  ⟨rfl, by decide, h,
   (oob_poll_incomplete_idempotent req_waiting [env_busy, env_busy, env_busy] rfl
      (by decide) h).2⟩

/-- C5 at rank 1 of four with a transport that always answers completion: the start
call alone reaches `iter = 3`, sets `done` and has posted three pairs. -/
theorem oob_completion_witness :
    1 ≤ oob_size (oob_new_req (List.replicate 8 66) (List.replicate 32 0) 8 1
      range_undefined { rank := 1, size := 4 }) ∧
    (oob_allgather_test env_complete
        (oob_new_req (List.replicate 8 66) (List.replicate 32 0) 8 1 range_undefined
          { rank := 1, size := 4 })).req.iter = 3 ∧
    ((oob_allgather_test env_complete
        (oob_new_req (List.replicate 8 66) (List.replicate 32 0) 8 1 range_undefined
          { rank := 1, size := 4 })).calls.filter p2p_call.is_post).length = 6 :=
  have h := (oob_completion (List.replicate 8 66) (List.replicate 32 0) 8 1 range_undefined
    { rank := 1, size := 4 } [] env_complete (by decide)).2.2.2.1 (by decide)
  ⟨by decide, h.1, h.2.2⟩

/-! ## The bootstrap allgather and errors of the transport -/

/-- The transport test answers in-progress exactly when it does so with the answer read
as a success. -/
theorem req_test_as_success (o : torch_ucc_status_t) (n : Int) :
    (torch_ucx_req_test (as_success o) n = TORCH_UCC_INPROGRESS) ↔
      (torch_ucx_req_test o n = TORCH_UCC_INPROGRESS) := by
  unfold torch_ucx_req_test as_success
  by_cases hn : n = 0
  · simp [hn]
  · simp only [hn, if_false]
    by_cases ho : o = TORCH_UCC_INPROGRESS
    · simp [ho]
    · simp [ho]

/-- The loop of `oob_allgather_test` does the same with the answers of the transport as
with these answers read as successes. -/
theorem oob_loop_as_success (env : Nat → torch_ucc_status_t)
    (rank size sendto recvfrom : Int) :
    ∀ (fuel : Nat) (s : oob_run),
      oob_allgather_loop env rank size sendto recvfrom fuel s =
        oob_allgather_loop (fun k => as_success (env k)) rank size sendto recvfrom fuel s := by
  intro fuel
  induction fuel with
  | zero => intro s; rfl
  | succ n ih =>
    intro s
    rw [oob_allgather_loop, oob_allgather_loop]
    by_cases hlt : s.req.iter < size - 1
    · by_cases hpos : s.req.iter > 0
      · simp only [hlt, hpos, if_true, oob_test_outstanding]
        by_cases hst : torch_ucx_req_test (env s.tests) s.req.num_active_reqs =
            TORCH_UCC_INPROGRESS
        · rw [if_pos hst, if_pos ((req_test_as_success _ _).mpr hst)]
        · rw [if_neg hst, if_neg (fun h => hst ((req_test_as_success _ _).mp h))]
          exact ih _
      · simp only [hlt, hpos, if_true, if_false]
        exact ih _
    · simp only [hlt, if_false]

/-- The end of `oob_allgather_test` does the same with the answers of the transport as
with these answers read as successes. -/
theorem oob_after_loop_as_success (env : Nat → torch_ucc_status_t)
    (x : Option xccl_status_t × oob_run) :
    oob_after_loop env x = oob_after_loop (fun k => as_success (env k)) x := by
  obtain ⟨o, s⟩ := x
  cases o with
  | some st => rfl
  | none =>
    simp only [oob_after_loop, oob_test_outstanding]
    by_cases hst : torch_ucx_req_test (env s.tests) s.req.num_active_reqs =
        TORCH_UCC_INPROGRESS
    · rw [if_pos hst, if_pos ((req_test_as_success _ _).mpr hst)]
    · rw [if_neg hst, if_neg (fun h => hst ((req_test_as_success _ _).mp h))]

/-- The end of `oob_allgather_test` gives `XCCL_OK` or `XCCL_INPROGRESS` after a loop
that gave nothing else. -/
theorem oob_after_loop_status (env : Nat → torch_ucc_status_t)
    (x : Option xccl_status_t × oob_run) (hx : ∀ st, x.1 = some st → st = XCCL_INPROGRESS) :
    (oob_after_loop env x).st = XCCL_OK ∨ (oob_after_loop env x).st = XCCL_INPROGRESS := by
  obtain ⟨o, s⟩ := x
  cases o with
  | some st =>
    right
    exact hx st rfl
  | none =>
    simp only [oob_after_loop, oob_test_outstanding]
    split
    · exact Or.inr rfl
    · exact Or.inl rfl

/-- A transport test whose answer is not in-progress does not report in-progress. -/
theorem req_test_not_busy (o : torch_ucc_status_t) (n : Int)
    (h : o ≠ TORCH_UCC_INPROGRESS) : torch_ucx_req_test o n ≠ TORCH_UCC_INPROGRESS := by
  unfold torch_ucx_req_test
  split
  · decide
  · exact h

/-- The loop of `oob_allgather_test` only adds to the trace of calls. -/
theorem oob_loop_calls_prefix (env : Nat → torch_ucc_status_t)
    (rank size sendto recvfrom : Int) :
    ∀ (fuel : Nat) (s : oob_run),
      ∃ rest, (oob_allgather_loop env rank size sendto recvfrom fuel s).2.calls =
        s.calls ++ rest := by
  intro fuel
  induction fuel with
  | zero => intro s; exact ⟨[], by simp [oob_allgather_loop]⟩
  | succ n ih =>
    intro s
    have key : ∀ (S : oob_run) (r0 : List p2p_call), S.calls = s.calls ++ r0 →
        ∃ rest, (oob_allgather_loop env rank size sendto recvfrom n S).2.calls =
          s.calls ++ rest := by
      intro S r0 h0
      obtain ⟨r, hr⟩ := ih S
      exact ⟨r0 ++ r, by rw [hr, h0, List.append_assoc]⟩
    rw [oob_allgather_loop]
    by_cases hlt : s.req.iter < size - 1
    · by_cases hpos : s.req.iter > 0
      · simp only [hlt, hpos, if_true, oob_test_outstanding]
        by_cases hst : torch_ucx_req_test (env s.tests) s.req.num_active_reqs =
            TORCH_UCC_INPROGRESS
        · rw [if_pos hst]
          exact ⟨_, rfl⟩
        · rw [if_neg hst]
          exact key _
            ([p2p_call.req_test s.req.num_active_reqs] ++
              oob_step_calls rank size sendto recvfrom s.req.rbuf s.req.msglen s.req.iter)
            (List.append_assoc _ _ _)
      · simp only [hlt, hpos, if_true, if_false]
        exact key _
          (oob_step_calls rank size sendto recvfrom s.req.rbuf s.req.msglen s.req.iter) rfl
    · simp only [hlt, if_false]
      exact ⟨[], by simp⟩

/-- With a transport that never answers in-progress, the loop of `oob_allgather_test`
does not return from its body. -/
theorem oob_loop_never_busy (env : Nat → torch_ucc_status_t)
    (rank size sendto recvfrom : Int) (henv : ∀ k, env k ≠ TORCH_UCC_INPROGRESS) :
    ∀ (fuel : Nat) (s : oob_run),
      (oob_allgather_loop env rank size sendto recvfrom fuel s).1 = none := by
  intro fuel
  induction fuel with
  | zero => intro s; rfl
  | succ n ih =>
    intro s
    rw [oob_allgather_loop]
    by_cases hlt : s.req.iter < size - 1
    · by_cases hpos : s.req.iter > 0
      · simp only [hlt, hpos, if_true, oob_test_outstanding]
        rw [if_neg (req_test_not_busy _ _ (henv _))]
        exact ih _
      · simp only [hlt, hpos, if_true, if_false]
        exact ih _
    · simp only [hlt, if_false]

/-- The end of `oob_allgather_test` leaves `iter` alone and only adds to the trace. -/
theorem oob_after_loop_extends (env : Nat → torch_ucc_status_t)
    (x : Option xccl_status_t × oob_run) :
    (oob_after_loop env x).req.iter = x.2.req.iter ∧
      ∃ rest, (oob_after_loop env x).calls = x.2.calls ++ rest := by
  obtain ⟨o, s⟩ := x
  cases o with
  | some st => exact ⟨rfl, [], by simp [oob_after_loop]⟩
  | none =>
    simp only [oob_after_loop, oob_test_outstanding]
    split
    · exact ⟨rfl, _, rfl⟩
    · exact ⟨rfl, _, rfl⟩

/-- After a loop that ended without a return from the body, a test that does not answer
in-progress sets `done` and the call gives `XCCL_OK`. -/
theorem oob_after_loop_done (env : Nat → torch_ucc_status_t) (s : oob_run)
    (h : torch_ucx_req_test (env s.tests) s.req.num_active_reqs ≠ TORCH_UCC_INPROGRESS) :
    (oob_after_loop env (none, s)).st = XCCL_OK ∧
      (oob_after_loop env (none, s)).req.done = 1 := by
  simp only [oob_after_loop, oob_test_outstanding]
  rw [if_neg h]
  exact ⟨rfl, rfl⟩

/-- A later call with iterations left whose first test gets an answer other than
in-progress, whatever the later answers are: the ring advances. The call makes the
test, posts the pair of iteration `iter` right after it, and leaves `iter` at least one
higher. -/
theorem oob_test_advances (env : Nat → torch_ucc_status_t) (q : xccl_oob_allgather_req_t)
    (hdone : q.done = 0) (h1 : 1 ≤ q.iter) (hlt : q.iter < oob_size q - 1)
    (hans : env 0 ≠ TORCH_UCC_INPROGRESS) :
    q.iter + 1 ≤ (oob_allgather_test env q).req.iter ∧
    ∃ rest, (oob_allgather_test env q).calls =
      [p2p_call.req_test q.num_active_reqs] ++
        oob_step_calls (oob_rank q) (oob_size q) (oob_sendto q) (oob_recvfrom q)
          q.rbuf q.msglen q.iter ++ rest := by
  have hc : oob_local_copy q = q := by unfold oob_local_copy; rw [if_neg (by omega)]
  have hR : oob_allgather_test env q =
      oob_after_loop env
        (oob_allgather_loop env (oob_rank q) (oob_size q) (oob_sendto q) (oob_recvfrom q)
          (oob_size q - 1 - (q.iter + 1)).toNat
          { req := { q with iter := q.iter + 1, num_active_reqs := 0 + 2 }
            tests := 0 + 1
            calls := [] ++ [p2p_call.req_test q.num_active_reqs] ++
              oob_step_calls (oob_rank q) (oob_size q) (oob_sendto q) (oob_recvfrom q)
                q.rbuf q.msglen q.iter }) := by
    unfold oob_allgather_test
    simp only [hdone, ne_eq, not_true_eq_false, if_false, hc]
    rw [oob_loop_next env _ _ _ _ { req := q, tests := 0, calls := [] } hlt
      (by show q.iter > 0; omega) (req_test_not_busy _ _ hans)]
    simp [hdone]
  rw [hR]
  obtain ⟨hit, rest2, hcalls⟩ := oob_after_loop_extends env
    (oob_allgather_loop env (oob_rank q) (oob_size q) (oob_sendto q) (oob_recvfrom q)
      (oob_size q - 1 - (q.iter + 1)).toNat
      { req := { q with iter := q.iter + 1, num_active_reqs := 0 + 2 }
        tests := 0 + 1
        calls := [] ++ [p2p_call.req_test q.num_active_reqs] ++
          oob_step_calls (oob_rank q) (oob_size q) (oob_sendto q) (oob_recvfrom q)
            q.rbuf q.msglen q.iter })
  obtain ⟨rest1, hl⟩ := oob_loop_calls_prefix env (oob_rank q) (oob_size q) (oob_sendto q)
    (oob_recvfrom q) (oob_size q - 1 - (q.iter + 1)).toNat
    { req := { q with iter := q.iter + 1, num_active_reqs := 0 + 2 }
      tests := 0 + 1
      calls := [] ++ [p2p_call.req_test q.num_active_reqs] ++
        oob_step_calls (oob_rank q) (oob_size q) (oob_sendto q) (oob_recvfrom q)
          q.rbuf q.msglen q.iter }
  have hmono := (oob_loop_spec env (oob_rank q) (oob_size q) (oob_sendto q) (oob_recvfrom q)
    (oob_size q - 1 - (q.iter + 1)).toNat
    { req := { q with iter := q.iter + 1, num_active_reqs := 0 + 2 }
      tests := 0 + 1
      calls := [] ++ [p2p_call.req_test q.num_active_reqs] ++
        oob_step_calls (oob_rank q) (oob_size q) (oob_sendto q) (oob_recvfrom q)
          q.rbuf q.msglen q.iter } _ _ rfl).2.1
  refine ⟨?_, rest1 ++ rest2, ?_⟩
  · rw [hit]
    exact hmono
  · rw [hcalls, hl]
    simp only [List.nil_append, List.append_assoc]

/-- A call on a request that is not done, with a transport that never answers
in-progress (it may answer errors): the call passes all the iterations that are left,
sets `done` and gives `XCCL_OK`. -/
theorem oob_test_all_complete (env : Nat → torch_ucc_status_t)
    (q : xccl_oob_allgather_req_t) (hdone : q.done = 0)
    (hle : q.iter ≤ oob_size q - 1) (henv : ∀ k, env k ≠ TORCH_UCC_INPROGRESS) :
    (oob_allgather_test env q).st = XCCL_OK ∧ (oob_allgather_test env q).req.done = 1 ∧
      (oob_allgather_test env q).req.iter = oob_size q - 1 := by
  have hi : (oob_local_copy q).iter = q.iter := by unfold oob_local_copy; split <;> rfl
  rcases hL : oob_allgather_loop env (oob_rank q) (oob_size q) (oob_sendto q)
      (oob_recvfrom q) (oob_size q - 1 - (oob_local_copy q).iter).toNat
      { req := oob_local_copy q, tests := 0, calls := [] } with ⟨o, s'⟩
  have ho : o = none := by
    have := oob_loop_never_busy env (oob_rank q) (oob_size q) (oob_sendto q)
      (oob_recvfrom q) henv (oob_size q - 1 - (oob_local_copy q).iter).toNat
      { req := oob_local_copy q, tests := 0, calls := [] }
    rw [hL] at this
    exact this
  obtain ⟨_, _, f3, f4, _, _⟩ := oob_loop_spec env _ _ _ _ _ _ o s' hL
  simp only at f3 f4
  have hlow : oob_size q - 1 ≤ s'.req.iter := f4 ho (le_refl _)
  have hup : s'.req.iter ≤ oob_size q - 1 := f3 (by rw [hi]; exact hle)
  have hR : oob_allgather_test env q = oob_after_loop env (none, s') := by
    unfold oob_allgather_test
    simp only [hdone, ne_eq, not_true_eq_false, if_false]
    rw [hL, ho]
  rw [hR]
  obtain ⟨h1, h2⟩ := oob_after_loop_done env s' (req_test_not_busy _ _ (henv _))
  refine ⟨h1, h2, ?_⟩
  rw [(oob_after_loop_extends env (none, s')).1]
  exact le_antisymm hup hlow

/-- C17: the bootstrap test never reports an error. For every request state and every
answer of the transport test, an error status included, `oob_allgather_test` and
`oob_allgather` return `XCCL_OK` or `XCCL_INPROGRESS`, and the whole result of the call
is the one that the call gives when every answer other than in-progress is a successful
completion. An answer other than in-progress advances the ring: on a request that is
not done, with `iter >= 1` and iterations left, the call posts the pair of iteration
`iter` right after the test and leaves `iter` at least one higher; with no iteration
left it sets `done` and returns `XCCL_OK` after the one test. With a transport that
never answers in-progress (every answer may be an error), a call on a request that is
not done passes all the iterations left, ends with `iter = size - 1` and `done = 1`,
returns `XCCL_OK`, and has posted exactly the pairs of iterations `0 .. size-2`; so does
the start call `oob_allgather` in a group of at least one rank. -/
theorem oob_never_reports_error (env : Nat → torch_ucc_status_t)
    (q : xccl_oob_allgather_req_t) (sbuf rbuf : List Nat) (msglen : Nat) (my_rank : Int)
    (range : xccl_ep_range_t) (oob_coll_ctx : torch_ucx_comm_t) :
    ((oob_allgather_test env q).st = XCCL_OK ∨
      (oob_allgather_test env q).st = XCCL_INPROGRESS) ∧
    ((oob_allgather env sbuf rbuf msglen my_rank range oob_coll_ctx).st = XCCL_OK ∨
      (oob_allgather env sbuf rbuf msglen my_rank range oob_coll_ctx).st =
        XCCL_INPROGRESS) ∧
    oob_allgather_test env q = oob_allgather_test (fun k => as_success (env k)) q ∧
    oob_allgather env sbuf rbuf msglen my_rank range oob_coll_ctx =
      oob_allgather (fun k => as_success (env k)) sbuf rbuf msglen my_rank range
        oob_coll_ctx ∧
    (q.done = 0 → 1 ≤ q.iter → q.iter < oob_size q - 1 → env 0 ≠ TORCH_UCC_INPROGRESS →
      q.iter + 1 ≤ (oob_allgather_test env q).req.iter ∧
      ∃ rest, (oob_allgather_test env q).calls =
        [p2p_call.req_test q.num_active_reqs] ++
          oob_step_calls (oob_rank q) (oob_size q) (oob_sendto q) (oob_recvfrom q)
            q.rbuf q.msglen q.iter ++ rest) ∧
    (q.done = 0 → 1 ≤ q.iter → ¬ q.iter < oob_size q - 1 →
      env 0 ≠ TORCH_UCC_INPROGRESS →
      oob_allgather_test env q =
        { st := XCCL_OK, req := { q with done := 1 }, tests := 1
          calls := [p2p_call.req_test q.num_active_reqs] }) ∧
    (q.done = 0 → 0 ≤ q.iter → q.iter ≤ oob_size q - 1 →
      (∀ k, env k ≠ TORCH_UCC_INPROGRESS) →
      (oob_allgather_test env q).st = XCCL_OK ∧ (oob_allgather_test env q).req.done = 1 ∧
      (oob_allgather_test env q).req.iter = oob_size q - 1 ∧
      ∀ pre : List p2p_call, pre.filter p2p_call.is_post = oob_expected_posts q →
        (pre ++ (oob_allgather_test env q).calls).filter p2p_call.is_post =
          oob_posted_upto (oob_rank q) (oob_size q) (oob_sendto q) (oob_recvfrom q)
            (oob_allgather_test env q).req.rbuf q.msglen (oob_size q - 1).toNat) ∧
    (1 ≤ oob_size (oob_new_req sbuf rbuf msglen my_rank range oob_coll_ctx) →
      (∀ k, env k ≠ TORCH_UCC_INPROGRESS) →
      (oob_allgather env sbuf rbuf msglen my_rank range oob_coll_ctx).st = XCCL_OK ∧
      (oob_allgather env sbuf rbuf msglen my_rank range oob_coll_ctx).req.done = 1 ∧
      (oob_allgather env sbuf rbuf msglen my_rank range oob_coll_ctx).req.iter =
        oob_size (oob_new_req sbuf rbuf msglen my_rank range oob_coll_ctx) - 1) := by
  have hst : ∀ (e : Nat → torch_ucc_status_t) (t : xccl_oob_allgather_req_t),
      (oob_allgather_test e t).st = XCCL_OK ∨
        (oob_allgather_test e t).st = XCCL_INPROGRESS := by
    intro e t
    unfold oob_allgather_test
    by_cases hd : t.done ≠ 0
    · rw [if_pos hd]
      exact Or.inl rfl
    · rw [if_neg hd]
      apply oob_after_loop_status
      intro st h
      rcases hL : oob_allgather_loop e (oob_rank t) (oob_size t) (oob_sendto t)
          (oob_recvfrom t) (oob_size t - 1 - (oob_local_copy t).iter).toNat
          { req := oob_local_copy t, tests := 0, calls := [] } with ⟨o, s'⟩
      rw [hL] at h
      exact (oob_loop_spec e _ _ _ _ _ _ o s' hL).2.2.2.2.1 st h
  have heq : ∀ (t : xccl_oob_allgather_req_t),
      oob_allgather_test env t = oob_allgather_test (fun k => as_success (env k)) t := by
    intro t
    unfold oob_allgather_test
    by_cases hd : t.done ≠ 0
    · rw [if_pos hd, if_pos hd]
    · rw [if_neg hd, if_neg hd]
      simp only
      rw [oob_loop_as_success env, oob_after_loop_as_success env]
  refine ⟨hst env q, hst env _, heq q, heq _, ?_, ?_, ?_, ?_⟩
  · intro hdone h1 hlt hans
    exact oob_test_advances env q hdone h1 hlt hans
  · intro hdone h1 hge hans
    exact oob_test_finish env q hdone h1 hge (req_test_not_busy _ _ hans)
  · intro hdone h0 hle henv
    obtain ⟨a1, a2, a3⟩ := oob_test_all_complete env q hdone hle henv
    refine ⟨a1, a2, a3, ?_⟩
    intro pre hpre
    obtain ⟨c1, _, _, _, _, _, c7⟩ := oob_test_call_spec env q hdone h0 hle
    rw [c7 pre hpre]
    unfold oob_expected_posts
    rw [a3]
    have hq : (oob_allgather_test env q).req =
        { q with rbuf := (oob_allgather_test env q).req.rbuf
                 iter := (oob_allgather_test env q).req.iter
                 num_active_reqs := (oob_allgather_test env q).req.num_active_reqs
                 done := (oob_allgather_test env q).req.done } := c1
    rw [hq]
    rfl
  · intro hsize henv
    exact oob_test_all_complete env _ rfl
      (by show (0 : Int) ≤ oob_size (oob_new_req sbuf rbuf msglen my_rank range
            oob_coll_ctx) - 1
          omega) henv

/-- C17 at the request of rank 1 of four that waits for its first pair, with a transport
that answers an error to every test: the call passes the two iterations left, ends with
`iter = 3` and `done = 1` and returns `XCCL_OK`; and the start call of that rank, with
the same transport, does too. -/
theorem oob_never_reports_error_witness :
    (oob_allgather_test env_error req_waiting).st = XCCL_OK ∧
    (oob_allgather_test env_error req_waiting).req.done = 1 ∧
    (oob_allgather_test env_error req_waiting).req.iter = 3 ∧
    2 ≤ (oob_allgather_test env_error req_waiting).req.iter ∧
    (oob_allgather env_error (List.replicate 8 66) (List.replicate 32 0) 8 1
      range_undefined { rank := 1, size := 4 }).st = XCCL_OK := by
  obtain ⟨_, _, _, _, hadv, _, hall, hstart⟩ :=
    oob_never_reports_error env_error req_waiting (List.replicate 8 66)
      (List.replicate 32 0) 8 1 range_undefined { rank := 1, size := 4 }
  have herr : ∀ k, env_error k ≠ TORCH_UCC_INPROGRESS := fun _ =>
    (by decide : TORCH_UCC_ERROR ≠ TORCH_UCC_INPROGRESS)
  obtain ⟨a1, a2, a3, _⟩ := hall (by decide) (by decide) (by decide) herr
  have b1 := (hadv (by decide) (by decide) (by decide) (by decide)).1
  have c1 := (hstart (by decide) herr).1
  exact ⟨a1, a2, a3, b1, c1⟩

/-- A transport that answers an error to every test: the start call of rank 1
of four passes all the iterations, sets `done` and returns `XCCL_OK`. -/
theorem oob_error_counts_as_completion :
    (oob_allgather env_error (List.replicate 8 66) (List.replicate 32 0) 8 1
      range_undefined { rank := 1, size := 4 }).st = XCCL_OK ∧
    (oob_allgather env_error (List.replicate 8 66) (List.replicate 32 0) 8 1
      range_undefined { rank := 1, size := 4 }).req.done = 1 ∧
    (oob_allgather env_error (List.replicate 8 66) (List.replicate 32 0) 8 1
      range_undefined { rank := 1, size := 4 }).req.iter = 3 := by
  decide

/-! ## A posted request starts in progress -/

/-- When `xccl_init_and_post` returns `TORCH_UCC_OK`, the status of the request is
InProgress. -/
theorem init_and_post_ok_status (init_st : xccl_status_t) (h : Nat) (post_st : xccl_status_t)
    (args : xccl_coll_op_args_t) (team : Nat) (coll_comm : torch_ucc_coll_comm_t)
    (req : torch_xccl_request_t) (r : post_result)
    (hr : xccl_init_and_post init_st h post_st args team coll_comm req = some r)
    (hok : r.ret = TORCH_UCC_OK) : r.req.status = TORCH_UCC_INPROGRESS := by
  unfold xccl_init_and_post at hr
  by_cases hi : init_st = XCCL_OK
  · by_cases hp : post_st = XCCL_OK
    · simp only [hi, hp, ne_eq, not_true_eq_false, if_false] at hr
      split at hr
      · split at hr
        · simp only [Option.some.injEq] at hr
          rw [← hr]
        · simp at hr
      · simp only [Option.some.injEq] at hr
        rw [← hr]
    · simp only [hi, hp, ne_eq, not_true_eq_false, if_false, not_false_eq_true, if_true,
        Option.some.injEq] at hr
      rw [← hr] at hok
      simp at hok
  · simp only [hi, ne_eq, not_false_eq_true, if_true, Option.some.injEq] at hr
    rw [← hr] at hok
    simp at hok

/-- When the common tail of a collective returns `TORCH_UCC_OK`, it hands out a request
whose status is InProgress. -/
theorem post_and_return_ok (env : post_env) (args : xccl_coll_op_args_t)
    (xccl_comm : torch_xccl_comm_t) (coll_req : torch_xccl_request_t)
    (cuda : List cuda_call) (diag : List String) (r : coll_result)
    (hr : post_and_return env args xccl_comm coll_req cuda diag = some r)
    (hok : r.ret = TORCH_UCC_OK) :
    ∃ req, r.request = some req ∧ req.status = TORCH_UCC_INPROGRESS := by
  unfold post_and_return at hr
  cases hp : xccl_init_and_post env.init_st env.h env.post_st args xccl_comm.xccl_team
      xccl_comm.super coll_req with
  | none => rw [hp] at hr; simp at hr
  | some pr =>
    rw [hp] at hr
    simp only at hr
    by_cases hret : pr.ret = TORCH_UCC_OK
    · rw [if_neg (by simpa using hret)] at hr
      simp only [Option.some.injEq] at hr
      rw [← hr]
      exact ⟨pr.req, rfl, init_and_post_ok_status _ _ _ _ _ _ _ pr hp hret⟩
    · rw [if_pos hret] at hr
      simp only [Option.some.injEq] at hr
      rw [← hr] at hok
      simp at hok

/-- An allreduce that returns ends in the common tail. -/
theorem allreduce_tail (env : post_env) (junk : torch_xccl_request_t)
    (xccl_comm : torch_xccl_comm_t) (tensors : List Tensor) (reduceOp : ReduceOp)
    (r : coll_result)
    (hr : torch_xccl_allreduce env junk xccl_comm tensors reduceOp = some r) :
    ∃ args c q cu d, post_and_return env args c q cu d = some r := by
  simp only [torch_xccl_allreduce, bind, Option.bind_eq_some, with_request_init] at hr
  obtain ⟨i, _, t, _, m, _, dt, _, op, _, a, _, h⟩ := hr
  exact ⟨_, _, _, _, _, h⟩

/-- A broadcast that returns ends in the common tail. -/
theorem broadcast_tail (env : post_env) (junk : torch_xccl_request_t)
    (xccl_comm : torch_xccl_comm_t) (tensors : List Tensor) (root : Int) (r : coll_result)
    (hr : torch_xccl_broadcast env junk xccl_comm tensors root = some r) :
    ∃ args c q cu d, post_and_return env args c q cu d = some r := by
  simp only [torch_xccl_broadcast, bind, Option.bind_eq_some, with_request_init] at hr
  obtain ⟨i, _, t, _, m, _, a, _, h⟩ := hr
  exact ⟨_, _, _, _, _, h⟩

/-- A barrier that returns ends in the common tail. -/
theorem barrier_tail (env : post_env) (junk : torch_xccl_request_t)
    (xccl_comm : torch_xccl_comm_t) (r : coll_result)
    (hr : torch_xccl_barrier env junk xccl_comm = some r) :
    ∃ args c q cu d, post_and_return env args c q cu d = some r := by
  simp only [torch_xccl_barrier, bind, Option.bind_eq_some, with_request_init] at hr
  obtain ⟨i, _, h⟩ := hr
  split at h
  · simp only [Option.bind_eq_some] at h
    obtain ⟨s, _, e, _, h⟩ := h
    exact ⟨_, _, _, _, _, h⟩
  · exact ⟨_, _, _, _, _, h⟩

/-- An all-to-all that returns ends in the common tail. -/
theorem alltoall_tail (env : post_env) (junk : torch_xccl_request_t)
    (xccl_comm : torch_xccl_comm_t) (input_tensor output_tensor : Tensor) (r : coll_result)
    (hr : torch_xccl_alltoall env junk xccl_comm input_tensor output_tensor = some r) :
    ∃ args c q cu d, post_and_return env args c q cu d = some r := by
  simp only [torch_xccl_alltoall, bind, Option.bind_eq_some, with_request_init] at hr
  obtain ⟨i, _, sm, _, dm, _, a, _, h⟩ := hr
  exact ⟨_, _, _, _, _, h⟩

/-- An all-to-all-variable that returns ends in the common tail. -/
theorem alltoallv_tail (env : post_env) (junk : torch_xccl_request_t)
    (xccl_comm : torch_xccl_comm_t) (input_tensor output_tensor : Tensor) (r : coll_result)
    (hr : torch_xccl_alltoallv env junk xccl_comm input_tensor output_tensor = some r) :
    ∃ args c q cu d, post_and_return env args c q cu d = some r := by
  simp only [torch_xccl_alltoallv, bind, Option.bind_eq_some, with_request_init] at hr
  obtain ⟨i, _, sd, _, sm, _, dd, _, dm, _, a, _, h⟩ := hr
  exact ⟨_, _, _, _, _, h⟩

/-- An allgather that returns ends in the common tail. -/
theorem allgather_tail (env : post_env) (junk : torch_xccl_request_t) (scratch : List Nat)
    (xccl_comm : torch_xccl_comm_t) (input_tensors output_tensors : List Tensor)
    (r : coll_result)
    (hr : torch_xccl_allgather env junk scratch xccl_comm input_tensors output_tensors =
      some r) :
    ∃ args c q cu d, post_and_return env args c q cu d = some r := by
  simp only [torch_xccl_allgather, bind, Option.bind_eq_some, with_request_init] at hr
  obtain ⟨i, _, f, _, t, _, m, _, a, _, h⟩ := hr
  exact ⟨_, _, _, _, _, h⟩

/-- C14: a successfully posted request starts InProgress. For an allreduce and for
every other collective (broadcast, barrier, all-to-all, all-to-all-variable,
allgather) that returns `TORCH_UCC_OK`, the call hands out a request on which
`torch_xccl_test`, before any `torch_xccl_progress`, answers `TORCH_UCC_INPROGRESS` and
not Completed; and `torch_xccl_test` on a live request leaves the communicator, every
request and the trace of transport calls as they were. -/
theorem posted_request_in_progress (env : post_env) (junk : torch_xccl_request_t)
    (scratch : List Nat) (xccl_comm : torch_xccl_comm_t) (tensors : List Tensor)
    (reduceOp : ReduceOp) (root : Int) (input_tensor output_tensor : Tensor)
    (input_tensors output_tensors : List Tensor) (r : coll_result)
    (hcall : torch_xccl_allreduce env junk xccl_comm tensors reduceOp = some r ∨
      torch_xccl_broadcast env junk xccl_comm tensors root = some r ∨
      torch_xccl_barrier env junk xccl_comm = some r ∨
      torch_xccl_alltoall env junk xccl_comm input_tensor output_tensor = some r ∨
      torch_xccl_alltoallv env junk xccl_comm input_tensor output_tensor = some r ∨
      torch_xccl_allgather env junk scratch xccl_comm input_tensors output_tensors = some r)
    (hok : r.ret = TORCH_UCC_OK) :
    ∃ req, r.request = some req ∧
      torch_xccl_test req = TORCH_UCC_INPROGRESS ∧
      torch_xccl_test req ≠ TORCH_UCC_OK ∧
      ∀ (w : world) (i : Nat), w.reqs[i]? = some req →
        world_test w i = some (TORCH_UCC_INPROGRESS, w) := by
  have htail : ∃ args c q cu d, post_and_return env args c q cu d = some r := by
    rcases hcall with h | h | h | h | h | h
    · exact allreduce_tail _ _ _ _ _ _ h
    · exact broadcast_tail _ _ _ _ _ _ h
    · exact barrier_tail _ _ _ _ h
    · exact alltoall_tail _ _ _ _ _ _ h
    · exact alltoallv_tail _ _ _ _ _ _ h
    · exact allgather_tail _ _ _ _ _ _ _ h
  obtain ⟨args, c, q, cu, d, h⟩ := htail
  obtain ⟨req, h1, h2⟩ := post_and_return_ok env args c q cu d r h hok
  refine ⟨req, h1, h2, ?_, ?_⟩
  · show req.status ≠ TORCH_UCC_OK
    rw [h2]
    decide
  · intro w i hw
    simp only [world_test, hw, torch_xccl_test, h2]

/-- C14 at an allreduce of two bytes on the CPU: the call returns `TORCH_UCC_OK` and the
request it hands out tests InProgress. -/
theorem posted_request_in_progress_witness :
    ∃ r, allreduce_host = some r ∧ r.ret = TORCH_UCC_OK ∧
      ∃ req, r.request = some req ∧ torch_xccl_test req = TORCH_UCC_INPROGRESS := by
  have hsome : allreduce_host.isSome = true := by decide
  obtain ⟨r, hr⟩ := Option.isSome_iff_exists.mp hsome
  have hret : allreduce_host.map (fun x => x.ret) = some TORCH_UCC_OK := by decide
  have hok : r.ret = TORCH_UCC_OK := by
    rw [hr] at hret
    simpa using hret
  obtain ⟨req, h1, h2, _⟩ :=
    posted_request_in_progress env_post_ok req_completed [] comm_four
      [byte_tensor cpu [1, 2]] ReduceOp.SUM 0 (byte_tensor cpu []) (byte_tensor cpu [])
      [] [] r (Or.inl hr) hok
  exact ⟨r, hr, hok, req, h1, h2⟩

/-! ## Configuration overrides -/

/-- What the overrides of `torch_xccl_comm_init` leave each key with, for every policy.
For the barrier, the broadcast, the allreduce and the allgather: `no` when
`blocking_wait` is set and `yes` otherwise. For the all-to-all-variable: `no` when
`blocking_wait` is set and serialize is not, `yes` otherwise. For the all-to-all: `yes`
with serialize; without serialize, `yes` when `blocking_wait` is not set and no value
at all when it is set, because the `no` is written to the key `BLOCK_STREAM_ALLTOLL`.
No other key is written. -/
theorem block_stream_overrides_final (cfg : torch_ucc_coll_config_t) :
    config_final (block_stream_overrides cfg) (block_stream_key TORCH_UCC_BARRIER) =
      some (if cfg.blocking_wait TORCH_UCC_BARRIER then "no" else "yes") ∧
    config_final (block_stream_overrides cfg) (block_stream_key TORCH_UCC_BCAST) =
      some (if cfg.blocking_wait TORCH_UCC_BCAST then "no" else "yes") ∧
    config_final (block_stream_overrides cfg) (block_stream_key TORCH_UCC_ALLREDUCE) =
      some (if cfg.blocking_wait TORCH_UCC_ALLREDUCE then "no" else "yes") ∧
    config_final (block_stream_overrides cfg) (block_stream_key TORCH_UCC_ALLGATHER) =
      some (if cfg.blocking_wait TORCH_UCC_ALLGATHER then "no" else "yes") ∧
    config_final (block_stream_overrides cfg) (block_stream_key TORCH_UCC_ALLTOALLV) =
      some (if cfg.blocking_wait TORCH_UCC_ALLTOALLV ∧ ¬ cfg.serialize then "no"
            else "yes") ∧
    config_final (block_stream_overrides cfg) (block_stream_key TORCH_UCC_ALLTOALL) =
      (if cfg.serialize then some "yes"
       else if cfg.blocking_wait TORCH_UCC_ALLTOALL then none else some "yes") ∧
    config_final (block_stream_overrides cfg) "BLOCK_STREAM_ALLTOLL" =
      (if cfg.blocking_wait TORCH_UCC_ALLTOALL then some "no" else none) ∧
    ∀ k ∈ config_keys (block_stream_overrides cfg),
      k ∈ block_stream_keys ∨ k = "BLOCK_STREAM_ALLTOLL" := by
  unfold block_stream_overrides block_stream_keys block_stream_key config_final
  cases cfg.blocking_wait TORCH_UCC_BARRIER <;> cases cfg.blocking_wait TORCH_UCC_BCAST <;>
  cases cfg.blocking_wait TORCH_UCC_ALLREDUCE <;>
  cases cfg.blocking_wait TORCH_UCC_ALLTOALL <;>
  cases cfg.blocking_wait TORCH_UCC_ALLTOALLV <;>
  cases cfg.blocking_wait TORCH_UCC_ALLGATHER <;>
  cases cfg.serialize <;> decide

/-- C16, the code at the failing input: the UCX layer is selected and the policy waits
blockingly for the all-to-all, without serialize. After `torch_xccl_comm_init` the key
`BLOCK_STREAM_ALLTOALL` has no value written (not `no`), and the key
`BLOCK_STREAM_ALLTOLL`, which is none of the six, has the value `no`. -/
theorem comm_init_alltoall_key_misspelt :
    (torch_xccl_comm_init env_init_ok { rank := 0, size := 4 } config_wait_alltoall).map
      (fun r => (r.ret, config_final r.calls (block_stream_key TORCH_UCC_ALLTOALL),
        config_final r.calls "BLOCK_STREAM_ALLTOLL",
        decide ("BLOCK_STREAM_ALLTOLL" ∈ block_stream_keys))) =
      some (TORCH_UCC_OK, none, some "no", false) := by
  decide

/-! ## The barrier in device mode -/

/-- C11, the code at the failing input: a communicator with the device-mode barrier
switched on and no communication stream, whatever its other fields, the transport and
the fresh request are. `torch_ucc_coll_request_init` writes the report to `stderr` and
then reads the device of the null stream: `torch_xccl_barrier` has no defined result,
it does not return an error. -/
theorem barrier_without_stream_undefined (env : post_env) (junk : torch_xccl_request_t)
    (xccl_comm : torch_xccl_comm_t) :
    request_init_barrier_stderr (without_stream xccl_comm).super TORCH_UCC_BARRIER =
      ["stream wasn't created, gpu barrier isn't supported"] ∧
    torch_ucc_coll_request_init (without_stream xccl_comm).super TORCH_UCC_BARRIER
      (new_request junk).super none none = none ∧
    torch_xccl_barrier env junk (without_stream xccl_comm) = none := by
  refine ⟨?_, ?_, ?_⟩
  · simp [request_init_barrier_stderr, without_stream]
  · simp [torch_ucc_coll_request_init, request_init_barrier, without_stream]
  · simp [torch_xccl_barrier, torch_ucc_coll_request_init, request_init_barrier,
      without_stream, bind]

/-! ## Ring step addressing -/

/-- The pairs of `n` iterations: the operations at positions `2 * j` and `2 * j + 1` are
the send and the receive of iteration `j`. -/
theorem oob_posted_upto_getElem? (rank size sendto recvfrom : Int) (rbuf : List Nat)
    (msglen : Nat) :
    ∀ (n j : Nat), j < n →
      (oob_posted_upto rank size sendto recvfrom rbuf msglen n)[2 * j]? =
        (oob_step_calls rank size sendto recvfrom rbuf msglen (j : Int))[0]? ∧
      (oob_posted_upto rank size sendto recvfrom rbuf msglen n)[2 * j + 1]? =
        (oob_step_calls rank size sendto recvfrom rbuf msglen (j : Int))[1]? := by
  intro n
  induction n with
  | zero => intro j hj; omega
  | succ n ih =>
    intro j hj
    have hlen := oob_posted_upto_length rank size sendto recvfrom rbuf msglen n
    have hsucc : oob_posted_upto rank size sendto recvfrom rbuf msglen (n + 1) =
        oob_posted_upto rank size sendto recvfrom rbuf msglen n ++
          oob_step_calls rank size sendto recvfrom rbuf msglen (n : Int) := by
      simp only [oob_posted_upto]
      rw [List.range_succ, List.flatMap_append]
      simp
    rw [hsucc]
    by_cases hjn : j < n
    · obtain ⟨h1, h2⟩ := ih j hjn
      rw [List.getElem?_append_left (by omega), List.getElem?_append_left (by omega)]
      exact ⟨h1, h2⟩
    · have hj' : j = n := by omega
      subst hj'
      rw [List.getElem?_append_right (by omega), List.getElem?_append_right (by omega), hlen]
      have e1 : 2 * j - 2 * j = 0 := by omega
      have e2 : 2 * j + 1 - 2 * j = 1 := by omega
      rw [e1, e2]
      exact ⟨rfl, rfl⟩

/-- C15 as stated fails. In a group of two, the first pair that rank 0 posts (step
`k = 1`) sends the block at offset `0`, its own, and receives into the block at offset
`8`, the block of rank 1; the claim's `(rank - k) mod size` and
`(rank - k - 1) mod size` give the blocks `1` and `0`, the offsets `8` and `0`. -/
theorem step_addressing_off_by_one :
    (oob_pair start_posts_two 1).map (fun x => (x.1.offset, x.2.offset)) =
      some (some 0, some 8) ∧
    spec_step_blocks 0 2 1 = (1, 0) ∧
    (oob_pair start_posts_two 1).map (fun x => (x.1.offset, x.2.offset)) ≠
      some (some ((spec_step_blocks 0 2 1).1 * 8), some ((spec_step_blocks 0 2 1).2 * 8)) := by
  decide

/-- C15, amended: for a request of rank `rank` in a group of `size >= 2`, after any run
of calls, every step `k >= 1` whose pair has been posted (`k <= iter`) has
`k <= size - 1`, and the `k`-th pair, posted at the iteration counter `k - 1`, sends the
block at offset `(rank - (k - 1)) mod size` of the receive buffer to the neighbour and
receives into the block at offset `(rank - k) mod size`, both with the tag
`TORCH_UCX_OOB_TAG`; both block offsets lie in `0 .. size-1`. The neighbour of the send
is `(rank + 1) mod size` and the neighbour of the receive is `(rank - 1) mod size`, each
taken as it is when the endpoint range is undefined and mapped through
`xccl_range_to_rank` when the range is defined; `rank` and `size` are the ones the
function works with (`oob_rank`, `oob_size`: those of the point-to-point context for an
undefined range, `my_rank` and `ep_num` of the range otherwise). -/
theorem ring_step_addressing (sbuf rbuf : List Nat) (msglen : Nat) (my_rank : Int)
    (range : xccl_ep_range_t) (oob_coll_ctx : torch_ucx_comm_t)
    (envs : List (Nat → torch_ucc_status_t)) (k : Nat)
    (hsize : 2 ≤ oob_size (oob_new_req sbuf rbuf msglen my_rank range oob_coll_ctx))
    (hr0 : 0 ≤ oob_rank (oob_new_req sbuf rbuf msglen my_rank range oob_coll_ctx))
    (hr1 : oob_rank (oob_new_req sbuf rbuf msglen my_rank range oob_coll_ctx) <
      oob_size (oob_new_req sbuf rbuf msglen my_rank range oob_coll_ctx))
    (hk : 1 ≤ k)
    (hposted : (k : Int) ≤ (oob_session envs
      (oob_new_req sbuf rbuf msglen my_rank range oob_coll_ctx, [])).1.iter) :
    let q0 := oob_new_req sbuf rbuf msglen my_rank range oob_coll_ctx
    let final := oob_session envs (q0, [])
    let sblk := (oob_rank q0 - ((k : Int) - 1)) % oob_size q0
    let rblk := (oob_rank q0 - (k : Int)) % oob_size q0
    (k : Int) ≤ oob_size q0 - 1 ∧
    oob_pair (final.2.filter p2p_call.is_post) k =
      some (p2p_call.send_nb (sblk * (msglen : Int))
              (readAt final.1.rbuf (sblk * (msglen : Int)).toNat msglen) msglen
              (oob_sendto q0) ucp_tag.TORCH_UCX_OOB_TAG,
            p2p_call.recv_nb (rblk * (msglen : Int)) msglen (oob_recvfrom q0)
              ucp_tag.TORCH_UCX_OOB_TAG) ∧
    (0 ≤ sblk ∧ sblk < oob_size q0) ∧ (0 ≤ rblk ∧ rblk < oob_size q0) ∧
    oob_sendto q0 =
      (if range.undefined = true then (oob_rank q0 + 1) % oob_size q0
       else range.to_rank ((oob_rank q0 + 1) % oob_size q0)) ∧
    oob_recvfrom q0 =
      (if range.undefined = true then (oob_rank q0 - 1) % oob_size q0
       else range.to_rank ((oob_rank q0 - 1) % oob_size q0)) := by
  intro q0 final sblk rblk
  have hsize' : 2 ≤ oob_size q0 := hsize
  have hr0' : 0 ≤ oob_rank q0 := hr0
  have hr1' : oob_rank q0 < oob_size q0 := hr1
  have hposted' : (k : Int) ≤ final.1.iter := hposted
  have hb : oob_reachable q0 final.1 final.2 :=
    oob_reachable_session q0 envs q0 []
      (oob_reachable_new _ _ _ _ _ _ (by show (1 : Int) ≤ oob_size q0; omega))
  obtain ⟨b1, b2, b3, b4, _⟩ := hb
  have hpos : (0 : Int) < oob_size q0 := by omega
  have hkle : (k : Int) ≤ oob_size q0 - 1 := le_trans hposted b3
  have e1 : oob_rank final.1 = oob_rank q0 := by rw [b1]; rfl
  have e2 : oob_size final.1 = oob_size q0 := by rw [b1]; rfl
  have e3 : oob_sendto final.1 = oob_sendto q0 := by rw [b1]; rfl
  have e4 : oob_recvfrom final.1 = oob_recvfrom q0 := by rw [b1]; rfl
  have e5 : final.1.msglen = msglen := by rw [b1]; rfl
  have hs : Int.tmod (oob_rank q0 - ((k - 1 : Nat) : Int) + oob_size q0) (oob_size q0) =
      sblk := by
    have hc : ((k - 1 : Nat) : Int) = (k : Int) - 1 := by omega
    rw [hc, Int.tmod_eq_emod (by omega) (by omega), Int.add_emod_self]
  have hrv : Int.tmod (oob_rank q0 - ((k - 1 : Nat) : Int) - 1 + oob_size q0)
      (oob_size q0) = rblk := by
    have hc : oob_rank q0 - ((k - 1 : Nat) : Int) - 1 = oob_rank q0 - (k : Int) := by omega
    rw [hc, Int.tmod_eq_emod (by omega) (by omega), Int.add_emod_self]
  refine ⟨hkle, ?_, ⟨Int.emod_nonneg _ (by omega), Int.emod_lt_of_pos _ hpos⟩,
    ⟨Int.emod_nonneg _ (by omega), Int.emod_lt_of_pos _ hpos⟩, ?_, ?_⟩
  · obtain ⟨p1, p2⟩ := oob_posted_upto_getElem? (oob_rank q0) (oob_size q0) (oob_sendto q0)
      (oob_recvfrom q0) final.1.rbuf msglen final.1.iter.toNat (k - 1) (by omega)
    have hexp : final.2.filter p2p_call.is_post =
        oob_posted_upto (oob_rank q0) (oob_size q0) (oob_sendto q0) (oob_recvfrom q0)
          final.1.rbuf msglen final.1.iter.toNat := by
      rw [b4]
      simp only [oob_expected_posts, e1, e2, e3, e4, e5]
    simp only [oob_pair]
    rw [hexp, p1, p2]
    simp only [oob_step_calls, hs, hrv]
    rfl
  · have ht : Int.tmod (oob_rank q0 + 1) (oob_size q0) = (oob_rank q0 + 1) % oob_size q0 :=
      Int.tmod_eq_emod (by omega) (by omega)
    have hq : q0.range = range := rfl
    simp only [oob_sendto, ht, hq]
    by_cases hu : range.undefined = true <;> simp [hu]
  · have ht : Int.tmod (oob_rank q0 - 1 + oob_size q0) (oob_size q0) =
        (oob_rank q0 - 1) % oob_size q0 := by
      rw [Int.tmod_eq_emod (by omega) (by omega), Int.add_emod_self]
    have hq : q0.range = range := rfl
    simp only [oob_recvfrom, ht, hq]
    by_cases hu : range.undefined = true <;> simp [hu]

/-- C15, amended, at rank 1 of four with a transport that always answers completion:
the second pair sends the block at offset `0` and receives into the block at offset
`24`, block `3`. -/
theorem ring_step_addressing_witness :
    2 ≤ oob_size (oob_new_req (List.replicate 8 66) (List.replicate 32 0) 8 1
      range_undefined { rank := 1, size := 4 }) ∧
    ((2 : Nat) : Int) ≤ (oob_session [env_complete]
      (oob_new_req (List.replicate 8 66) (List.replicate 32 0) 8 1 range_undefined
        { rank := 1, size := 4 }, [])).1.iter ∧
    (oob_pair ((oob_session [env_complete]
      (oob_new_req (List.replicate 8 66) (List.replicate 32 0) 8 1 range_undefined
        { rank := 1, size := 4 }, [])).2.filter p2p_call.is_post) 2).map
      (fun x => (x.1.offset, x.2.offset)) = some (some 0, some 24) ∧
    oob_sendto (oob_new_req (List.replicate 8 66) (List.replicate 32 0) 8 1
      range_undefined { rank := 1, size := 4 }) = 2 ∧
    oob_recvfrom (oob_new_req (List.replicate 8 66) (List.replicate 32 0) 8 1
      range_undefined { rank := 1, size := 4 }) = 0 := by
  have h := ring_step_addressing (List.replicate 8 66) (List.replicate 32 0) 8 1
    range_undefined { rank := 1, size := 4 } [env_complete] 2 (by decide) (by decide)
    (by decide) (by decide) (by decide)
  refine ⟨by decide, by decide, ?_, ?_, ?_⟩
  · rw [h.2.1]
    decide
  · rw [h.2.2.2.2.1]
    decide
  · rw [h.2.2.2.2.2]
    decide

/-- The neighbours on a defined range: endpoint 2 of the three endpoints of
`range_strided` sends to rank `10` (endpoint `0`) and receives from rank `12` (endpoint
`1`), not to `0` and from `1`; the rank and the size of the point-to-point context
(here `0` and `8`) play no part. -/
theorem ring_neighbours_strided :
    oob_sendto (oob_new_req (List.replicate 8 66) (List.replicate 24 0) 8 2
      range_strided { rank := 0, size := 8 }) = 10 ∧
    oob_recvfrom (oob_new_req (List.replicate 8 66) (List.replicate 24 0) 8 2
      range_strided { rank := 0, size := 8 }) = 12 ∧
    (oob_pair (oob_allgather env_busy (List.replicate 8 66) (List.replicate 24 0) 8 2
      range_strided { rank := 0, size := 8 }).calls 1) =
      some (p2p_call.send_nb 16 (List.replicate 8 66) 8 10 ucp_tag.TORCH_UCX_OOB_TAG,
            p2p_call.recv_nb 8 8 12 ucp_tag.TORCH_UCX_OOB_TAG) := by
  decide

/-! ## The event pool -/

/-- The header functions on their own, outside the collectives: on a fresh communicator
with the device-mode barrier switched on, an allreduce request on a device tensor is
initialised and destroyed (which creates the stream and leaves one event in the pool),
then a barrier request is initialised and destroyed twice. The pool ends with three
entries: the event of the allreduce and two null entries, one for each barrier. No
collective produces this sequence: `torch_xccl_barrier` in device mode records the null
event of its request before it hands the request out or deletes it
(`device_barrier_undefined`). -/
theorem barrier_churn_grows_pool :
    (pool_run req_completed barrier_churn (pool_start comm_gpu_barrier)).map
      (fun s => (s.coll_comm.event_pool, s.coll_comm.event_pool.length, s.max_live)) =
      some ([some { id := 0 }, none, none], 3, 1) := by
  decide

/-- On a host tensor `torch_ucc_coll_request_init` takes no event: the source part
leaves the communicator alone. -/
theorem request_init_src_host (coll_comm : torch_ucc_coll_comm_t)
    (req : torch_ucc_coll_request_t) (t : Tensor) (ts : List Tensor)
    (h : t.device.is_cuda = false) :
    request_init_src coll_comm req (t :: ts) =
      some (coll_comm, { req with src := t :: ts, device := t.device, event := none }, []) := by
  simp [request_init_src, h]

/-- On a device tensor and an empty pool the source part creates an event, named by
the number of events made so far; the pool stays empty. -/
theorem request_init_src_empty_pool (coll_comm : torch_ucc_coll_comm_t)
    (req : torch_ucc_coll_request_t) (t : Tensor) (ts : List Tensor)
    (h : t.device.is_cuda = true) (hpool : coll_comm.event_pool = []) :
    ∃ comm1 calls,
      request_init_src coll_comm req (t :: ts) =
        some (comm1, { req with src := t :: ts, device := t.device
                                event := some { id := coll_comm.events_created } }, calls) ∧
      comm1.event_pool = [] ∧ comm1.events_created = coll_comm.events_created + 1 ∧
      comm1.config = coll_comm.config ∧ comm1.stream ≠ none ∧
      calls.filter cuda_call.is_event_create =
        [cuda_call.event_create { id := coll_comm.events_created }] := by
  cases hs : coll_comm.stream with
  | none =>
    simp only [request_init_src, h, if_true, hs, hpool]
    exact ⟨_, _, rfl, rfl, rfl, rfl, by simp, by simp [List.filter, cuda_call.is_event_create]⟩
  | some s =>
    simp only [request_init_src, h, if_true, hs, hpool]
    exact ⟨_, _, rfl, rfl, rfl, rfl, by simp [hs],
      by simp [List.filter, cuda_call.is_event_create]⟩

/-- On a device tensor and a pool whose front entry is an event, the source part takes
this event and creates none; the pool loses its front entry. -/
theorem request_init_src_reuse (coll_comm : torch_ucc_coll_comm_t)
    (req : torch_ucc_coll_request_t) (t : Tensor) (ts : List Tensor) (e : CUDAEvent)
    (rest : List (Option CUDAEvent))
    (h : t.device.is_cuda = true) (hpool : coll_comm.event_pool = some e :: rest) :
    ∃ comm1 calls,
      request_init_src coll_comm req (t :: ts) =
        some (comm1, { req with src := t :: ts, device := t.device, event := some e },
          calls) ∧
      comm1.event_pool = rest ∧ comm1.events_created = coll_comm.events_created ∧
      comm1.config = coll_comm.config ∧ comm1.stream ≠ none ∧
      calls.filter cuda_call.is_event_create = [] := by
  cases hs : coll_comm.stream with
  | none =>
    simp only [request_init_src, h, if_true, hs, hpool]
    exact ⟨_, _, rfl, rfl, rfl, rfl, by simp, by simp [List.filter, cuda_call.is_event_create]⟩
  | some s =>
    simp only [request_init_src, h, if_true, hs, hpool]
    exact ⟨_, _, rfl, rfl, rfl, rfl, by simp [hs],
      by simp [List.filter, cuda_call.is_event_create]⟩

/-- On a device tensor and a pool whose front entry is null, the source part takes the
null entry and records on it: undefined. -/
theorem request_init_src_null_front (coll_comm : torch_ucc_coll_comm_t)
    (req : torch_ucc_coll_request_t) (t : Tensor) (ts : List Tensor)
    (rest : List (Option CUDAEvent))
    (h : t.device.is_cuda = true) (hpool : coll_comm.event_pool = none :: rest) :
    request_init_src coll_comm req (t :: ts) = none := by
  cases hs : coll_comm.stream <;> simp [request_init_src, h, hs, hpool]

/-- The destination part stores the destination list and changes nothing else of the
request. -/
theorem request_init_dst_req (req : torch_ucc_coll_request_t) (dst : List Tensor)
    (r3 : torch_ucc_coll_request_t) (d3 : List String)
    (h : request_init_dst req dst = some (r3, d3)) : r3 = { req with dst := dst } := by
  unfold request_init_dst at h
  dsimp only at h
  split at h
  · split at h <;> simp only [Option.some.injEq, Prod.mk.injEq] at h <;> exact h.1.symm
  · simp at h

/-- The barrier part changes nothing of the request but the device, and the device only
for a barrier in device mode. -/
theorem request_init_barrier_req (coll_comm : torch_ucc_coll_comm_t)
    (coll_type : torch_ucc_collective_type_t) (req r1 : torch_ucc_coll_request_t)
    (d1 : List String)
    (h : request_init_barrier coll_comm coll_type req = some (r1, d1)) :
    r1.event = req.event ∧
    (r1.device = req.device ∨
      (coll_type = TORCH_UCC_BARRIER ∧ coll_comm.config.gpu_barrier = true)) := by
  unfold request_init_barrier at h
  split at h
  · rename_i hc
    split at h
    · simp at h
    · simp only [Option.some.injEq, Prod.mk.injEq] at h
      rw [← h.1]
      exact ⟨rfl, Or.inr hc⟩
  · simp only [Option.some.injEq, Prod.mk.injEq] at h
    rw [← h.1]
    exact ⟨rfl, Or.inl rfl⟩

/-- The shape of a defined `torch_ucc_coll_request_init`: the barrier part, then either
no source list and an untouched communicator, or the source part; the event and the
device of the request are the ones after these two parts. -/
theorem request_init_shape (coll_comm : torch_ucc_coll_comm_t)
    (coll_type : torch_ucc_collective_type_t) (request : torch_ucc_coll_request_t)
    (srcPtr dstPtr : Option (List Tensor)) (i : request_init_result)
    (h : torch_ucc_coll_request_init coll_comm coll_type request srcPtr dstPtr = some i) :
    ∃ r1 d1,
      request_init_barrier coll_comm coll_type { request with coll_type := coll_type } =
        some (r1, d1) ∧
      ((srcPtr = none ∧ i.coll_comm = coll_comm ∧ i.cuda = [] ∧ i.req.event = r1.event ∧
          i.req.device = r1.device) ∨
       (∃ l r2, srcPtr = some l ∧
          request_init_src coll_comm r1 l = some (i.coll_comm, r2, i.cuda) ∧
          i.req.event = r2.event ∧ i.req.device = r2.device)) := by
  unfold torch_ucc_coll_request_init at h
  cases hb : request_init_barrier coll_comm coll_type
      { request with coll_type := coll_type } with
  | none => rw [hb] at h; simp at h
  | some p =>
    obtain ⟨r1, d1⟩ := p
    rw [hb] at h
    refine ⟨r1, d1, rfl, ?_⟩
    cases srcPtr with
    | none =>
      left
      simp only at h
      cases dstPtr with
      | none =>
        simp only [Option.some.injEq] at h
        rw [← h]
        exact ⟨rfl, rfl, rfl, rfl, rfl⟩
      | some dst =>
        simp only at h
        cases hd : request_init_dst r1 dst with
        | none => rw [hd] at h; simp at h
        | some p3 =>
          obtain ⟨r3, d3⟩ := p3
          rw [hd] at h
          simp only [Option.some.injEq] at h
          rw [← h, request_init_dst_req r1 dst r3 d3 hd]
          exact ⟨rfl, rfl, rfl, rfl, rfl⟩
    | some l =>
      right
      simp only at h
      cases hs : request_init_src coll_comm r1 l with
      | none => rw [hs] at h; simp at h
      | some p2 =>
        obtain ⟨comm2, r2, c2⟩ := p2
        rw [hs] at h
        cases dstPtr with
        | none =>
          simp only [Option.some.injEq] at h
          rw [← h]
          exact ⟨l, r2, rfl, hs, rfl, rfl⟩
        | some dst =>
          simp only at h
          cases hd : request_init_dst r2 dst with
          | none => rw [hd] at h; simp at h
          | some p3 =>
            obtain ⟨r3, d3⟩ := p3
            rw [hd] at h
            simp only [Option.some.injEq] at h
            rw [← h, request_init_dst_req r2 dst r3 d3 hd]
            exact ⟨l, r2, rfl, hs, rfl, rfl⟩

/-- What a defined source part did to the pool: the request is on the host and nothing
happened, or the pool was empty and the request holds a new event, or the request holds
the event that was at the front of the pool. -/
theorem request_init_src_outcome (coll_comm comm1 : torch_ucc_coll_comm_t)
    (req req1 : torch_ucc_coll_request_t) (l : List Tensor) (calls : List cuda_call)
    (h : request_init_src coll_comm req l = some (comm1, req1, calls)) :
    (req1.device.is_cuda = false ∧ req1.event = none ∧ comm1 = coll_comm ∧ calls = []) ∨
    (req1.device.is_cuda = true ∧ coll_comm.event_pool = [] ∧ comm1.event_pool = [] ∧
      comm1.events_created = coll_comm.events_created + 1 ∧
      req1.event = some { id := coll_comm.events_created } ∧
      calls.filter cuda_call.is_event_create =
        [cuda_call.event_create { id := coll_comm.events_created }]) ∨
    (req1.device.is_cuda = true ∧ ∃ e rest, coll_comm.event_pool = some e :: rest ∧
      comm1.event_pool = rest ∧ comm1.events_created = coll_comm.events_created ∧
      req1.event = some e ∧ calls.filter cuda_call.is_event_create = []) := by
  cases l with
  | nil => simp [request_init_src] at h
  | cons t ts =>
    cases hc : t.device.is_cuda with
    | false =>
      rw [request_init_src_host coll_comm req t ts hc] at h
      simp only [Option.some.injEq, Prod.mk.injEq] at h
      obtain ⟨h1, h2, h3⟩ := h
      left
      rw [← h1, ← h2, ← h3]
      exact ⟨hc, rfl, rfl, rfl⟩
    | true =>
      cases hpool : coll_comm.event_pool with
      | nil =>
        obtain ⟨c1, cs, heq, hp, hn, _, _, hf⟩ :=
          request_init_src_empty_pool coll_comm req t ts hc hpool
        rw [heq] at h
        simp only [Option.some.injEq, Prod.mk.injEq] at h
        obtain ⟨h1, h2, h3⟩ := h
        right; left
        rw [← h1, ← h2, ← h3]
        exact ⟨hc, rfl, hp, hn, rfl, hf⟩
      | cons x rest =>
        cases x with
        | none =>
          rw [request_init_src_null_front coll_comm req t ts rest hc hpool] at h
          simp at h
        | some e =>
          obtain ⟨c1, cs, heq, hp, hn, _, _, hf⟩ :=
            request_init_src_reuse coll_comm req t ts e rest hc hpool
          rw [heq] at h
          simp only [Option.some.injEq, Prod.mk.injEq] at h
          obtain ⟨h1, h2, h3⟩ := h
          right; right
          rw [← h1, ← h2, ← h3]
          exact ⟨hc, e, rest, rfl, hp, hn, rfl, hf⟩

/-- What a defined `torch_ucc_coll_request_init` of a request that holds no event did
to the pool: nothing, the request holding no event; or the pool was empty and the
request holds a new event; or the request holds the event that was at the front. -/
theorem request_init_outcome (coll_comm : torch_ucc_coll_comm_t)
    (coll_type : torch_ucc_collective_type_t) (request : torch_ucc_coll_request_t)
    (srcPtr dstPtr : Option (List Tensor)) (i : request_init_result)
    (hev : request.event = none)
    (h : torch_ucc_coll_request_init coll_comm coll_type request srcPtr dstPtr = some i) :
    (i.req.event = none ∧ i.coll_comm = coll_comm ∧ i.cuda = []) ∨
    (i.req.device.is_cuda = true ∧ coll_comm.event_pool = [] ∧ i.coll_comm.event_pool = [] ∧
      i.coll_comm.events_created = coll_comm.events_created + 1 ∧
      i.req.event = some { id := coll_comm.events_created } ∧
      i.cuda.filter cuda_call.is_event_create =
        [cuda_call.event_create { id := coll_comm.events_created }]) ∨
    (i.req.device.is_cuda = true ∧ ∃ e rest, coll_comm.event_pool = some e :: rest ∧
      i.coll_comm.event_pool = rest ∧
      i.coll_comm.events_created = coll_comm.events_created ∧
      i.req.event = some e ∧ i.cuda.filter cuda_call.is_event_create = []) := by
  obtain ⟨r1, d1, hb, hcase⟩ :=
    request_init_shape coll_comm coll_type request srcPtr dstPtr i h
  have hr1 := (request_init_barrier_req coll_comm coll_type _ r1 d1 hb).1
  rcases hcase with ⟨_, hcomm, hcuda, he, _⟩ | ⟨l, r2, _, hsrc, he, hd⟩
  · left
    exact ⟨by rw [he, hr1]; exact hev, hcomm, hcuda⟩
  · rcases request_init_src_outcome coll_comm i.coll_comm r1 r2 l i.cuda hsrc with
      ⟨_, h2, h3, h4⟩ | ⟨h1, h2, h3, h4, h5, h6⟩ | ⟨h1, e, rest, h2, h3, h4, h5, h6⟩
    · left
      exact ⟨by rw [he, h2], h3, h4⟩
    · right; left
      exact ⟨by rw [hd, h1], h2, h3, h4, by rw [he, h5], h6⟩
    · right; right
      exact ⟨by rw [hd, h1], e, rest, h2, h3, h4, by rw [he, h5], h6⟩

/-- A list with its `i`-th element taken out, split around that element. -/
theorem eraseIdx_split {α : Type} (l : List α) (i : Nat) (a : α) (h : l[i]? = some a) :
    ∃ l1 l2, l = l1 ++ a :: l2 ∧ l.eraseIdx i = l1 ++ l2 := by
  induction l generalizing i with
  | nil => simp at h
  | cons x xs ih =>
    cases i with
    | zero =>
      simp only [List.getElem?_cons_zero, Option.some.injEq] at h
      exact ⟨[], xs, by rw [h]; rfl, rfl⟩
    | succ j =>
      simp only [List.getElem?_cons_succ] at h
      obtain ⟨l1, l2, h1, h2⟩ := ih j h
      exact ⟨x :: l1, l2, by rw [h1]; rfl, by rw [List.eraseIdx_cons_succ, h2]; rfl⟩

/-- One creation or destruction keeps the held events distinct and their numbers below
the number of events created so far. -/
theorem pool_step_keeps_distinct (junk : torch_xccl_request_t) (s s1 : pool_state)
    (ev : pool_event) (h : pool_step junk s ev = some s1)
    (hn : (held_events s).Nodup)
    (hb : ∀ e ∈ held_events s, e.id < s.coll_comm.events_created) :
    (held_events s1).Nodup ∧ ∀ e ∈ held_events s1, e.id < s1.coll_comm.events_created := by
  cases ev with
  | create coll_type srcPtr dstPtr =>
    simp only [pool_step] at h
    cases hi : torch_ucc_coll_request_init s.coll_comm coll_type (new_request junk).super
        srcPtr dstPtr with
    | none => rw [hi] at h; simp at h
    | some i =>
      rw [hi] at h
      simp only [Option.some.injEq] at h
      subst h
      simp only [held_events] at hn hb ⊢
      rcases request_init_outcome s.coll_comm coll_type (new_request junk).super srcPtr
          dstPtr i rfl hi with
        ⟨he, hc, _⟩ | ⟨_, hp0, hp1, hc, he, _⟩ | ⟨_, e, rest, hp0, hp1, hc, he, _⟩
      · rw [hc]
        simp only [List.filterMap_append, List.filterMap_cons, he, List.filterMap_nil,
          List.append_nil]
        exact ⟨hn, hb⟩
      · rw [hp0] at hn hb
        rw [hp1, hc]
        simp only [List.filterMap_append, List.filterMap_cons, he, List.filterMap_nil,
          List.nil_append] at hn hb ⊢
        constructor
        · rw [List.nodup_append]
          refine ⟨hn, List.nodup_singleton _, ?_⟩
          intro a ha hb1
          rw [List.mem_singleton] at hb1
          have := hb a ha
          rw [hb1] at this
          exact absurd this (Nat.lt_irrefl _)
        · intro a ha
          rw [List.mem_append, List.mem_singleton] at ha
          rcases ha with ha | ha
          · exact Nat.lt_succ_of_lt (hb a ha)
          · rw [ha]; exact Nat.lt_succ_self _
      · rw [hp0] at hn hb
        rw [hp1, hc]
        simp only [List.filterMap_append, List.filterMap_cons, he, List.filterMap_nil,
          id_eq] at hn hb ⊢
        have hperm : (List.filterMap id rest ++
            (List.filterMap (fun r => r.event) s.live ++ [e])).Perm
            (e :: List.filterMap id rest ++ List.filterMap (fun r => r.event) s.live) := by
          rw [← List.append_assoc]
          exact List.perm_append_singleton e _
        exact ⟨(List.Perm.nodup_iff hperm).mpr hn,
          fun a ha => hb a ((List.Perm.mem_iff hperm).mp ha)⟩
  | destroy i =>
    simp only [pool_step] at h
    cases hl : s.live[i]? with
    | none =>
      rw [hl] at h
      simp only [Option.some.injEq] at h
      subst h
      exact ⟨hn, hb⟩
    | some req =>
      rw [hl] at h
      simp only [Option.some.injEq] at h
      subst h
      obtain ⟨l1, l2, hsplit, herase⟩ := eraseIdx_split s.live i req hl
      simp only [held_events] at hn hb ⊢
      rw [hsplit] at hn hb
      rw [herase]
      have hsub : (List.filterMap id s.coll_comm.event_pool ++
            List.filterMap (fun r => r.event) (l1 ++ l2)).Sublist
          (List.filterMap id s.coll_comm.event_pool ++
            List.filterMap (fun r => r.event) (l1 ++ req :: l2)) := by
        refine List.Sublist.append_left ?_ _
        refine List.Sublist.filterMap _ ?_
        exact List.Sublist.append_left (List.sublist_cons_self req l2) l1
      cases hcuda : req.device.is_cuda with
      | false =>
        simp only [request_destroy, hcuda, Bool.false_eq_true, if_false]
        exact ⟨hn.sublist hsub, fun a ha => hb a (hsub.subset ha)⟩
      | true =>
        simp only [request_destroy, hcuda, if_true]
        cases hev : req.event with
        | none =>
          simp only [List.filterMap_append, List.filterMap_cons, List.filterMap_nil, id_eq,
            List.append_nil]
          rw [← List.filterMap_append]
          exact ⟨hn.sublist hsub, fun a ha => hb a (hsub.subset ha)⟩
        | some e =>
          simp only [List.filterMap_append, List.filterMap_cons, List.filterMap_nil, id_eq,
            hev] at hn hb ⊢
          have hperm : ((List.filterMap id s.coll_comm.event_pool ++ [e]) ++
              (List.filterMap (fun r => r.event) l1 ++
                List.filterMap (fun r => r.event) l2)).Perm
              (List.filterMap id s.coll_comm.event_pool ++
                (List.filterMap (fun r => r.event) l1 ++
                  e :: List.filterMap (fun r => r.event) l2)) := by
            rw [List.append_assoc]
            refine List.Perm.append_left _ ?_
            rw [List.singleton_append]
            exact List.perm_middle.symm
          exact ⟨(List.Perm.nodup_iff hperm).mpr hn,
            fun a ha => hb a ((List.Perm.mem_iff hperm).mp ha)⟩

/-- A run of creations and destructions keeps the held events distinct and their
numbers below the number of events created so far. -/
theorem pool_run_keeps_distinct (junk : torch_xccl_request_t) (events : List pool_event) :
    ∀ s s1 : pool_state, pool_run junk events s = some s1 →
      (held_events s).Nodup →
      (∀ e ∈ held_events s, e.id < s.coll_comm.events_created) →
      (held_events s1).Nodup ∧
        ∀ e ∈ held_events s1, e.id < s1.coll_comm.events_created := by
  induction events with
  | nil =>
    intro s s1 h hn hb
    simp only [pool_run, Option.some.injEq] at h
    subst h
    exact ⟨hn, hb⟩
  | cons ev evs ih =>
    intro s s1 h hn hb
    simp only [pool_run] at h
    cases hstep : pool_step junk s ev with
    | none => rw [hstep] at h; simp at h
    | some s2 =>
      rw [hstep] at h
      obtain ⟨hn2, hb2⟩ := pool_step_keeps_distinct junk s s2 ev hstep hn hb
      exact ih s2 s1 h hn2 hb2

/-- A defined `torch_ucc_coll_request_init` with a device tensor at the head of the
source list: the request is device-resident, and either the pool was empty and the
request holds the one event that was created, or the pool before is the event of the
request followed by the pool afterwards and no event was created. -/
theorem request_init_device_outcome (coll_comm : torch_ucc_coll_comm_t)
    (coll_type : torch_ucc_collective_type_t) (request : torch_ucc_coll_request_t)
    (t : Tensor) (ts : List Tensor) (dstPtr : Option (List Tensor))
    (i : request_init_result) (hcuda : t.device.is_cuda = true)
    (h : torch_ucc_coll_request_init coll_comm coll_type request (some (t :: ts)) dstPtr =
      some i) :
    i.req.device.is_cuda = true ∧
    ((coll_comm.event_pool = [] ∧ i.coll_comm.event_pool = [] ∧
        i.req.event = some { id := coll_comm.events_created } ∧
        i.cuda.filter cuda_call.is_event_create =
          [cuda_call.event_create { id := coll_comm.events_created }]) ∨
     (∃ e, coll_comm.event_pool = some e :: i.coll_comm.event_pool ∧
        i.req.event = some e ∧ i.cuda.filter cuda_call.is_event_create = [])) := by
  obtain ⟨r1, d1, _, hcase⟩ :=
    request_init_shape coll_comm coll_type request (some (t :: ts)) dstPtr i h
  rcases hcase with ⟨hnone, _⟩ | ⟨l, r2, hl, hsrc, he, hd⟩
  · simp at hnone
  · simp only [Option.some.injEq] at hl
    subst hl
    cases hpool : coll_comm.event_pool with
    | nil =>
      obtain ⟨c1, cs, heq, hp, _, _, _, hf⟩ :=
        request_init_src_empty_pool coll_comm r1 t ts hcuda hpool
      rw [heq] at hsrc
      simp only [Option.some.injEq, Prod.mk.injEq] at hsrc
      obtain ⟨h1, h2, h3⟩ := hsrc
      rw [he, hd, ← h1, ← h2, ← h3]
      exact ⟨hcuda, Or.inl ⟨rfl, hp, rfl, hf⟩⟩
    | cons x rest =>
      cases x with
      | none =>
        rw [request_init_src_null_front coll_comm r1 t ts rest hcuda hpool] at hsrc
        simp at hsrc
      | some e =>
        obtain ⟨c1, cs, heq, hp, _, _, _, hf⟩ :=
          request_init_src_reuse coll_comm r1 t ts e rest hcuda hpool
        rw [heq] at hsrc
        simp only [Option.some.injEq, Prod.mk.injEq] at hsrc
        obtain ⟨h1, h2, h3⟩ := hsrc
        rw [he, hd, ← h1, ← h2, ← h3]
        exact ⟨hcuda, Or.inr ⟨e, by rw [hp], rfl, hf⟩⟩

/-- C13: first-available event reuse. For a source list with a device tensor at its
head, on any communicator: when an event is at the front of the pool, the source part of
`torch_ucc_coll_request_init` gives that event to the request, the pool loses its front
and no event is created; when the pool is empty, one new event is created for the
request and the pool stays empty; and every request that `torch_ucc_coll_request_init`
initialises is device-resident and falls under one of these two cases, so an event is
created only on an empty pool. The destructor of a device-resident request appends the
event of the request to the end of the pool, once. In every state that a run of
creations and destructions reaches from a communicator with an empty pool, the events
held by the pool and by the live requests are pairwise distinct: no event is in the pool
and in a live request, or in two live requests. -/
theorem event_first_available_reuse (junk : torch_xccl_request_t)
    (coll_comm start : torch_ucc_coll_comm_t) (coll_type : torch_ucc_collective_type_t)
    (request : torch_ucc_coll_request_t) (t : Tensor) (ts : List Tensor)
    (dstPtr : Option (List Tensor)) (events : List pool_event) (s : pool_state)
    (hcuda : t.device.is_cuda = true)
    (hstart : start.event_pool = [])
    (hrun : pool_run junk events (pool_start start) = some s) :
    (∀ e rest, coll_comm.event_pool = some e :: rest →
      ∃ comm1 calls, request_init_src coll_comm request (t :: ts) =
          some (comm1, { request with src := t :: ts, device := t.device
                                      event := some e }, calls) ∧
        comm1.event_pool = rest ∧ comm1.events_created = coll_comm.events_created ∧
        calls.filter cuda_call.is_event_create = []) ∧
    (coll_comm.event_pool = [] →
      ∃ comm1 calls, request_init_src coll_comm request (t :: ts) =
          some (comm1, { request with src := t :: ts, device := t.device
                                      event := some { id := coll_comm.events_created } },
                calls) ∧
        comm1.event_pool = [] ∧ comm1.events_created = coll_comm.events_created + 1 ∧
        calls.filter cuda_call.is_event_create =
          [cuda_call.event_create { id := coll_comm.events_created }]) ∧
    (∀ i, torch_ucc_coll_request_init coll_comm coll_type request (some (t :: ts)) dstPtr =
        some i →
      i.req.device.is_cuda = true ∧
      ((coll_comm.event_pool = [] ∧ i.coll_comm.event_pool = [] ∧
          i.req.event = some { id := coll_comm.events_created } ∧
          i.cuda.filter cuda_call.is_event_create =
            [cuda_call.event_create { id := coll_comm.events_created }]) ∨
       (∃ e, coll_comm.event_pool = some e :: i.coll_comm.event_pool ∧
          i.req.event = some e ∧ i.cuda.filter cuda_call.is_event_create = []))) ∧
    (∀ req : torch_ucc_coll_request_t, req.device.is_cuda = true →
      (request_destroy coll_comm req).event_pool = coll_comm.event_pool ++ [req.event]) ∧
    (held_events s).Nodup := by
  refine ⟨?_, ?_, ?_, ?_, ?_⟩
  · intro e rest hpool
    obtain ⟨c1, cs, heq, hp, hn, _, _, hf⟩ :=
      request_init_src_reuse coll_comm request t ts e rest hcuda hpool
    exact ⟨c1, cs, heq, hp, hn, hf⟩
  · intro hpool
    obtain ⟨c1, cs, heq, hp, hn, _, _, hf⟩ :=
      request_init_src_empty_pool coll_comm request t ts hcuda hpool
    exact ⟨c1, cs, heq, hp, hn, hf⟩
  · intro i hi
    exact request_init_device_outcome coll_comm coll_type request t ts dstPtr i hcuda hi
  · intro req hreq
    simp [request_destroy, hreq]
  · refine (pool_run_keeps_distinct junk events (pool_start start) s hrun ?_ ?_).1
    · simp [held_events, pool_start, hstart]
    · simp [held_events, pool_start, hstart]

/-- C13 at a run on `comm_four`: two allreduces on device tensors are created (events
`0` and `1`) and the first is destroyed. The pool then holds event `0`, the live request
holds event `1`, and the next request on a device tensor takes event `0` from the pool
without creating one. -/
theorem event_first_available_reuse_witness :
    ∃ s, pool_run req_completed reuse_run (pool_start comm_four.super) = some s ∧
      s.coll_comm.event_pool = [some { id := 0 }] ∧
      held_events s = [{ id := 0 }, { id := 1 }] ∧
      (held_events s).Nodup ∧
      ∃ comm1 calls, request_init_src s.coll_comm req_completed.super
          [byte_tensor cuda0 [5, 6]] =
          some (comm1, { req_completed.super with
                  src := [byte_tensor cuda0 [5, 6]], device := cuda0
                  event := some { id := 0 } }, calls) ∧
        comm1.event_pool = [] ∧ comm1.events_created = s.coll_comm.events_created ∧
        calls.filter cuda_call.is_event_create = [] := by
  have hsome : (pool_run req_completed reuse_run (pool_start comm_four.super)).isSome =
      true := by decide
  obtain ⟨s, hs⟩ := Option.isSome_iff_exists.mp hsome
  have hpool : (pool_run req_completed reuse_run (pool_start comm_four.super)).map
      (fun x => (x.coll_comm.event_pool, held_events x)) =
      some ([some { id := 0 }], [{ id := 0 }, { id := 1 }]) := by decide
  rw [hs] at hpool
  simp only [Option.map_some', Option.some.injEq, Prod.mk.injEq] at hpool
  obtain ⟨h1, _, _, _, h5⟩ :=
    event_first_available_reuse req_completed s.coll_comm comm_four.super
      TORCH_UCC_ALLREDUCE req_completed.super (byte_tensor cuda0 [5, 6]) [] none
      reuse_run s (by decide) (by decide) hs
  exact ⟨s, hs, hpool.1, hpool.2, h5, h1 { id := 0 } [] hpool.1⟩

/-! ## The pool without the device-mode barrier -/

/-- The source part leaves the policy of the communicator alone. -/
theorem request_init_src_config (coll_comm comm1 : torch_ucc_coll_comm_t)
    (req req1 : torch_ucc_coll_request_t) (l : List Tensor) (calls : List cuda_call)
    (h : request_init_src coll_comm req l = some (comm1, req1, calls)) :
    comm1.config = coll_comm.config := by
  cases l with
  | nil => simp [request_init_src] at h
  | cons t ts =>
    cases hc : t.device.is_cuda with
    | false =>
      rw [request_init_src_host coll_comm req t ts hc] at h
      simp only [Option.some.injEq, Prod.mk.injEq] at h
      rw [← h.1]
    | true =>
      cases hpool : coll_comm.event_pool with
      | nil =>
        obtain ⟨c1, cs, heq, _, _, hcfg, _, _⟩ :=
          request_init_src_empty_pool coll_comm req t ts hc hpool
        rw [heq] at h
        simp only [Option.some.injEq, Prod.mk.injEq] at h
        rw [← h.1]
        exact hcfg
      | cons x rest =>
        cases x with
        | none =>
          rw [request_init_src_null_front coll_comm req t ts rest hc hpool] at h
          simp at h
        | some e =>
          obtain ⟨c1, cs, heq, _, _, hcfg, _, _⟩ :=
            request_init_src_reuse coll_comm req t ts e rest hc hpool
          rw [heq] at h
          simp only [Option.some.injEq, Prod.mk.injEq] at h
          rw [← h.1]
          exact hcfg

/-- The request initialisation leaves the policy of the communicator alone. -/
theorem request_init_config (coll_comm : torch_ucc_coll_comm_t)
    (coll_type : torch_ucc_collective_type_t) (request : torch_ucc_coll_request_t)
    (srcPtr dstPtr : Option (List Tensor)) (i : request_init_result)
    (h : torch_ucc_coll_request_init coll_comm coll_type request srcPtr dstPtr = some i) :
    i.coll_comm.config = coll_comm.config := by
  obtain ⟨r1, d1, _, hcase⟩ :=
    request_init_shape coll_comm coll_type request srcPtr dstPtr i h
  rcases hcase with ⟨_, hcomm, _⟩ | ⟨l, r2, _, hsrc, _, _⟩
  · rw [hcomm]
  · exact request_init_src_config coll_comm i.coll_comm r1 r2 l i.cuda hsrc

/-- Without the device-mode barrier, a request that was on the host before its
initialisation and holds no event afterwards is still on the host. -/
theorem request_init_no_event_host (coll_comm : torch_ucc_coll_comm_t)
    (coll_type : torch_ucc_collective_type_t) (request : torch_ucc_coll_request_t)
    (srcPtr dstPtr : Option (List Tensor)) (i : request_init_result)
    (hdev : request.device.is_cuda = false)
    (hcfg : coll_comm.config.gpu_barrier = false)
    (h : torch_ucc_coll_request_init coll_comm coll_type request srcPtr dstPtr = some i)
    (he : i.req.event = none) : i.req.device.is_cuda = false := by
  obtain ⟨r1, d1, hb, hcase⟩ :=
    request_init_shape coll_comm coll_type request srcPtr dstPtr i h
  have hr1 : r1.device = request.device := by
    rcases (request_init_barrier_req coll_comm coll_type _ r1 d1 hb).2 with h1 | ⟨_, h2⟩
    · exact h1
    · rw [hcfg] at h2
      exact absurd h2 (by decide)
  rcases hcase with ⟨_, _, _, _, hd⟩ | ⟨l, r2, _, hsrc, he2, hd⟩
  · rw [hd, hr1]
    exact hdev
  · rcases request_init_src_outcome coll_comm i.coll_comm r1 r2 l i.cuda hsrc with
      ⟨h1, _⟩ | ⟨_, _, _, _, h5, _⟩ | ⟨_, e, rest, _, _, _, h5, _⟩
    · rw [hd]
      exact h1
    · rw [he2, h5] at he
      exact absurd he (by simp)
    · rw [he2, h5] at he
      exact absurd he (by simp)

/-- The count of device-resident requests after one more request. -/
theorem device_resident_append (live : List torch_ucc_coll_request_t)
    (r : torch_ucc_coll_request_t) :
    device_resident (live ++ [r]) =
      device_resident live + (if r.device.is_cuda = true then 1 else 0) := by
  unfold device_resident
  rw [List.filter_append, List.length_append]
  by_cases h : r.device.is_cuda = true <;> simp [List.filter, h]

/-- The count of device-resident requests around one request. -/
theorem device_resident_middle (l1 l2 : List torch_ucc_coll_request_t)
    (r : torch_ucc_coll_request_t) :
    device_resident (l1 ++ r :: l2) =
      device_resident (l1 ++ l2) + (if r.device.is_cuda = true then 1 else 0) := by
  unfold device_resident
  rw [List.filter_append, List.filter_append, List.length_append, List.length_append]
  by_cases h : r.device.is_cuda = true <;> simp [List.filter_cons, h]
  omega

/-- Without the device-mode barrier, one creation or destruction keeps the pool free of
null entries, keeps an event in every device-resident live request, and keeps the pool
no longer than the largest number of device-resident requests alive at once, less the
ones alive now. -/
theorem pool_step_keeps_bound (junk : torch_xccl_request_t) (s s1 : pool_state)
    (ev : pool_event) (h : pool_step junk s ev = some s1)
    (hcfg : s.coll_comm.config.gpu_barrier = false)
    (hp : ∀ x ∈ s.coll_comm.event_pool, x ≠ none)
    (hl : ∀ r ∈ s.live, r.device.is_cuda = true → r.event ≠ none)
    (hb : s.coll_comm.event_pool.length + device_resident s.live ≤ s.max_live) :
    s1.coll_comm.config.gpu_barrier = false ∧
    (∀ x ∈ s1.coll_comm.event_pool, x ≠ none) ∧
    (∀ r ∈ s1.live, r.device.is_cuda = true → r.event ≠ none) ∧
    s1.coll_comm.event_pool.length + device_resident s1.live ≤ s1.max_live := by
  cases ev with
  | create coll_type srcPtr dstPtr =>
    simp only [pool_step] at h
    cases hi : torch_ucc_coll_request_init s.coll_comm coll_type (new_request junk).super
        srcPtr dstPtr with
    | none => rw [hi] at h; simp at h
    | some i =>
      rw [hi] at h
      simp only [Option.some.injEq] at h
      subst h
      dsimp only
      have hcfg1 : i.coll_comm.config.gpu_barrier = false := by
        rw [request_init_config s.coll_comm coll_type _ srcPtr dstPtr i hi]
        exact hcfg
      rw [device_resident_append]
      rcases request_init_outcome s.coll_comm coll_type (new_request junk).super srcPtr
          dstPtr i rfl hi with
        ⟨he, hc, _⟩ | ⟨hd, hp0, hp1, _, he, _⟩ | ⟨hd, e, rest, hp0, hp1, _, he, _⟩
      · have hhost := request_init_no_event_host s.coll_comm coll_type
          (new_request junk).super srcPtr dstPtr i rfl hcfg hi he
        refine ⟨hcfg1, ?_, ?_, ?_⟩
        · rw [hc]; exact hp
        · intro r hr hrc
          rw [List.mem_append, List.mem_singleton] at hr
          rcases hr with hr | hr
          · exact hl r hr hrc
          · rw [hr, hhost] at hrc
            exact absurd hrc (by decide)
        · rw [hc, hhost]
          simp only [Bool.false_eq_true, if_false, Nat.add_zero]
          exact le_trans hb (le_max_left _ _)
      · refine ⟨hcfg1, ?_, ?_, ?_⟩
        · rw [hp1]; simp
        · intro r hr hrc
          rw [List.mem_append, List.mem_singleton] at hr
          rcases hr with hr | hr
          · exact hl r hr hrc
          · rw [hr, he]; simp
        · rw [hp1]
          simp only [List.length_nil, Nat.zero_add]
          exact le_max_right _ _
      · refine ⟨hcfg1, ?_, ?_, ?_⟩
        · rw [hp1]
          intro x hx
          exact hp x (by rw [hp0]; exact List.mem_cons_of_mem _ hx)
        · intro r hr hrc
          rw [List.mem_append, List.mem_singleton] at hr
          rcases hr with hr | hr
          · exact hl r hr hrc
          · rw [hr, he]; simp
        · rw [hp0] at hb
          rw [hp1, hd]
          simp only [if_true]
          simp only [List.length_cons] at hb
          exact le_trans (by omega) (le_trans hb (le_max_left _ _))
  | destroy i =>
    simp only [pool_step] at h
    cases hlive : s.live[i]? with
    | none =>
      rw [hlive] at h
      simp only [Option.some.injEq] at h
      subst h
      exact ⟨hcfg, hp, hl, hb⟩
    | some req =>
      rw [hlive] at h
      simp only [Option.some.injEq] at h
      subst h
      dsimp only
      obtain ⟨l1, l2, hsplit, herase⟩ := eraseIdx_split s.live i req hlive
      rw [herase]
      rw [hsplit, device_resident_middle] at hb
      have hmem : ∀ r ∈ l1 ++ l2, r ∈ s.live := by
        intro r hr
        rw [hsplit]
        rw [List.mem_append] at hr ⊢
        rcases hr with hr | hr
        · exact Or.inl hr
        · exact Or.inr (List.mem_cons_of_mem _ hr)
      have hreq : req ∈ s.live := by
        rw [hsplit]
        exact List.mem_append_right _ (List.mem_cons_self _ _)
      cases hcuda : req.device.is_cuda with
      | false =>
        rw [hcuda] at hb
        simp only [request_destroy, hcuda, Bool.false_eq_true, if_false, Nat.add_zero] at hb ⊢
        exact ⟨hcfg, hp, fun r hr => hl r (hmem r hr), hb⟩
      | true =>
        rw [hcuda] at hb
        simp only [request_destroy, hcuda, if_true] at hb ⊢
        refine ⟨hcfg, ?_, fun r hr => hl r (hmem r hr), ?_⟩
        · intro x hx
          rw [List.mem_append, List.mem_singleton] at hx
          rcases hx with hx | hx
          · exact hp x hx
          · rw [hx]; exact hl req hreq hcuda
        · rw [List.length_append, List.length_singleton]
          omega

/-- Without the device-mode barrier, every state that a run of creations and
destructions reaches from a communicator with an empty pool has a pool free of null
entries and no longer than the largest number of device-resident requests that were
alive at once. -/
theorem pool_run_keeps_bound (junk : torch_xccl_request_t) (events : List pool_event) :
    ∀ s s1 : pool_state, pool_run junk events s = some s1 →
      s.coll_comm.config.gpu_barrier = false →
      (∀ x ∈ s.coll_comm.event_pool, x ≠ none) →
      (∀ r ∈ s.live, r.device.is_cuda = true → r.event ≠ none) →
      s.coll_comm.event_pool.length + device_resident s.live ≤ s.max_live →
      (∀ x ∈ s1.coll_comm.event_pool, x ≠ none) ∧
        s1.coll_comm.event_pool.length + device_resident s1.live ≤ s1.max_live := by
  induction events with
  | nil =>
    intro s s1 h _ hp _ hb
    simp only [pool_run, Option.some.injEq] at h
    subst h
    exact ⟨hp, hb⟩
  | cons ev evs ih =>
    intro s s1 h hcfg hp hl hb
    simp only [pool_run] at h
    cases hstep : pool_step junk s ev with
    | none => rw [hstep] at h; simp at h
    | some s2 =>
      rw [hstep] at h
      obtain ⟨h1, h2, h3, h4⟩ := pool_step_keeps_bound junk s s2 ev hstep hcfg hp hl hb
      exact ih s2 s1 h h1 h2 h3 h4

/-- The event-pool bound on a communicator without the device-mode barrier: from a
communicator with an empty pool, every reachable state has at most as many pool entries
as the largest number of device-resident requests that were alive at once, and none of
the entries is null. -/
theorem pool_bound_without_device_barrier (junk : torch_xccl_request_t)
    (start : torch_ucc_coll_comm_t) (events : List pool_event) (s : pool_state)
    (hcfg : start.config.gpu_barrier = false) (hstart : start.event_pool = [])
    (hrun : pool_run junk events (pool_start start) = some s) :
    s.coll_comm.event_pool.length ≤ s.max_live ∧
      ∀ x ∈ s.coll_comm.event_pool, x ≠ none := by
  obtain ⟨h1, h2⟩ := pool_run_keeps_bound junk events (pool_start start) s hrun hcfg
    (by simp [pool_start, hstart]) (by simp [pool_start])
    (by simp [pool_start, hstart, device_resident])
  exact ⟨le_trans (Nat.le_add_right _ _) h2, h1⟩

/-! ## The event pool through the collective calls -/

end TorchUCC
